import Mathlib

/-!
# Hotpatch engine of syscall_intercept (PowerPC port): `src/patcher.c`

A shallow embedding of the instruction encoders, the trampoline table
discipline, the site preparation pass and the activation pass, followed by
theorems about them.

Conventions of the embedding.

* An address (`unsigned char *`, `void *`, `uintptr_t`) is a natural number;
  the theorems assume `< 2 ^ 64` where it matters.  Pointer arithmetic inside
  the buffers the encoders fill (`from + 4`, `dst + 8`, `*dst += 4`) is
  addition of naturals; a pointer plus an offset or size taken from the site
  list or the template (`syscall_addr + SYSCALL_INS_SIZE`, `*dst + o_...`) and
  the integer arithmetic of the source (`ptrdiff_t`, `int32_t`, `size_t`,
  `unsigned`) wrap explicitly.
* Memory is a function from addresses to bytes; 32-bit stores and loads are
  little-endian (ppc64le).  Every store is also appended to a trace.
* `xabort` ends the run: `Run.abort msg s` carries the message and the state
  at the moment of the abort.
* Constants and helpers that live in headers outside `patcher.c`
  (`SYSCALL_INS_SIZE`, `JUMP_INS_SIZE`, `INT3_OPCODE`, `JMP_OPCODE`,
  `round_down_address`, the outcome of `mprotect`) are parameters.
* The helpers `syscall_error_code` and `syscall_no_intercept_wrapper` of
  `libsyscall_intercept_hook_point.h` are functions of the syscall result and
  of the thread state they read and write (`errno`, the condition register).
-/

namespace Patcher

/-! ## Machine integers -/

/-- Value of an integer after conversion to a signed 64-bit type (`ptrdiff_t`, `long`). -/
def to_int64 (x : Int) : Int := (x + 2 ^ 63) % 2 ^ 64 - 2 ^ 63

/-- Value of an integer after conversion to `int32_t`. -/
def to_int32 (x : Int) : Int := (x + 2 ^ 31) % 2 ^ 32 - 2 ^ 31

/-- Value of an integer after conversion to `unsigned` (32 bits). -/
def to_uint32 (x : Int) : Nat := (x % 2 ^ 32).toNat

/-- Value of an integer after conversion to `size_t` / `uintptr_t` (64 bits). -/
def to_uint64 (x : Int) : Nat := (x % 2 ^ 64).toNat

/-- The `<stdint.h>` constant `INT32_MAX`. -/
def INT32_MAX : Int := 2147483647

/-- The `<stdint.h>` constant `INT32_MIN`. -/
def INT32_MIN : Int := -2147483648

/-- The enum constant `TRAMPOLINE_SIZE = 28 + 8 - 8` ("the size of a trampoline jump"). -/
def TRAMPOLINE_SIZE : Nat := 28 + 8 - 8

/-- The `<sys/mman.h>` protection bits on Linux. -/
def PROT_READ : Nat := 1

/-- The `<sys/mman.h>` write bit. -/
def PROT_WRITE : Nat := 2

/-- The `<sys/mman.h>` execute bit. -/
def PROT_EXEC : Nat := 4

/-- Pointer difference `a - b` of two addresses as a `ptrdiff_t`. -/
def ptr_diff (a b : Nat) : Int := to_int64 ((a : Int) - (b : Int))

/-- Pointer plus a `ptrdiff_t` offset. -/
def ptr_add (p : Nat) (o : Int) : Nat := to_uint64 ((p : Int) + o)

/-- Lower-case hexadecimal digits of a number, as printed by `%lx`. -/
def hex (n : Nat) : String := String.mk (Nat.toDigits 16 (n % 2 ^ 64))

/-! ## Constants and helpers declared outside `patcher.c` -/

/-- Enum constants of `intercept.h` used by `patcher.c`, and the size of
`struct patch_desc`; the header is not among the sources. -/
structure Consts where
  SYSCALL_INS_SIZE : Nat
  JUMP_INS_SIZE : Nat
  JMP_OPCODE : Nat
  INT3_OPCODE : Nat
  sizeof_patch_desc : Nat

/-- Helpers of `intercept_util.h`: `round_down_address`, and whether the
`mprotect` system call issued by `mprotect_no_intercept(addr, len, prot, msg)`
succeeds. -/
structure Env where
  round_down_address : Nat → Nat
  mprotect_ok : Nat → Nat → Nat → Bool

/-! ## Memory, trace, aborts -/

/-- Observable actions, in program order. -/
inductive Event where
  | store32 (addr word : Nat)
  | store8 (addr byte : Nat)
  | memcpy (dst src n : Nat)
  | mprotect (addr size prot : Nat)
  | mark_jump (addr : Nat)
  | debug_dump (text : String)
  | intercept_log (buffer : String) (len : Nat)
  | printf (text : String)
deriving DecidableEq

/-- Byte-addressed memory together with the trace of actions so far. -/
structure Machine where
  mem : Nat → Nat
  trace : List Event

/-- Outcome of a run: normal completion, or `xabort(msg)` in state `s`. -/
inductive Run (σ : Type) where
  | done (s : σ)
  | abort (msg : String) (s : σ)

/-- The state a run ended in. -/
def Run.state {σ : Type} : Run σ → σ
  | Run.done s => s
  | Run.abort _ s => s

/-- The `xabort` message, when the run aborted. -/
def Run.message {σ : Type} : Run σ → Option String
  | Run.done _ => none
  | Run.abort msg _ => some msg

/-- Whether the run completed without `xabort`. -/
def Run.completed {σ : Type} : Run σ → Bool
  | Run.done _ => true
  | Run.abort _ _ => false

/-- Store of one byte: `*byte = v`. -/
def Machine.store8 (m : Machine) (a v : Nat) : Machine :=
  { mem := fun x => if x = a then v % 256 else m.mem x
    trace := m.trace ++ [Event.store8 a (v % 256)] }

/-- Little-endian store of a 32-bit word: `*(unsigned *)a = w`. -/
def Machine.store32 (m : Machine) (a w : Nat) : Machine :=
  { mem := fun x =>
      if x = a then w % 256
      else if x = a + 1 then w / 256 % 256
      else if x = a + 2 then w / 65536 % 256
      else if x = a + 3 then w / 16777216 % 256
      else m.mem x
    trace := m.trace ++ [Event.store32 a (w % 2 ^ 32)] }

/-- Little-endian load of a 32-bit word: `*(unsigned *)a`. -/
def Machine.load32 (m : Machine) (a : Nat) : Nat :=
  m.mem a % 256 + 256 * (m.mem (a + 1) % 256) + 65536 * (m.mem (a + 2) % 256)
    + 16777216 * (m.mem (a + 3) % 256)

/-- The compound assignment `*(unsigned *)a |= v`. -/
def Machine.or32 (m : Machine) (a v : Nat) : Machine :=
  m.store32 a (m.load32 a ||| v)

/-- The libc call `memcpy(dst, src, n)` on non-overlapping regions. -/
def Machine.memcpy (m : Machine) (dst src n : Nat) : Machine :=
  { mem := fun x => if dst ≤ x ∧ x < dst + n then m.mem (src + (x - dst)) else m.mem x
    trace := m.trace ++ [Event.memcpy dst src n] }

/-- Append an action that does not touch memory. -/
def Machine.emit (m : Machine) (e : Event) : Machine :=
  { m with trace := m.trace ++ [e] }

/-- Modelled from the spec: the external `mark_jump(desc, addr)` marks `addr` to
the scanner as a valid branch target; it writes none of the memory modelled
here and is recorded in the trace. -/
@[reducible] def mark_jump (addr : Nat) (m : Machine) : Machine :=
  m.emit (Event.mark_jump addr)

/-- Modelled from the spec: the external `intercept_log(buffer, len)` writes a
diagnostic to the log; recorded in the trace with both arguments. -/
@[reducible] def intercept_log (buffer : String) (len : Nat) (m : Machine) : Machine :=
  m.emit (Event.intercept_log buffer len)

/-- Modelled from the spec: the external debugging print `debug_dump(fmt, ...)`,
recorded in the trace with the formatted text. -/
@[reducible] def debug_dump (text : String) (m : Machine) : Machine :=
  m.emit (Event.debug_dump text)

/-! ## Data model (`intercept.h`) -/

/-- One patch site: `struct patch_desc`. -/
structure patch_desc where
  syscall_addr : Nat
  syscall_offset : Nat
  dst_jmp_patch : Nat
  return_address : Nat
  asm_wrapper : Nat
deriving DecidableEq

/-- The image being patched: the fields of `struct intercept_desc` that
`patcher.c` reads or writes.  `count` is the length of `items`; `items_addr`
is the address of the array. -/
structure intercept_desc where
  base_addr : Nat
  path : String
  text_start : Nat
  text_end : Nat
  items : List patch_desc
  items_addr : Nat
  uses_trampoline_table : Bool
  trampoline_table : Nat
  trampoline_table_size : Nat
  next_trampoline : Nat

/-- The field `count`. -/
def intercept_desc.count (desc : intercept_desc) : Nat := desc.items.length

/-- Program state of the activation pass. -/
structure World where
  desc : intercept_desc
  m : Machine

/-! ## Instruction encoders -/

/-- Source function `create_absolute_jump(from, to)`: writes `ba` with the low 26 bits of
`to`; returns `from + 4`. -/
def create_absolute_jump (frm tgt : Nat) (m : Machine) : Nat × Machine :=
  let m1 := m.store32 frm 0x48000002
  let delta32 := tgt % 2 ^ 64
  let m2 := m1.or32 frm (delta32 &&& 0x3FFFFFC)
  (frm + 4, m2)

/-- Source function `create_absolute_jumptr(from, to)`: stores the register-indirect jump
sequence word by word and returns the advanced pointer. -/
def create_absolute_jumptr (frm tgt : Nat) (m : Machine) : Nat × Machine :=
  let delta32 := tgt % 2 ^ 64
  let m := m.store32 frm 0xf9e1ffe0
  let frm := frm + 4
  let m := m.store32 frm 0x39E00000
  let m := m.or32 frm ((delta32 >>> 32) &&& 0xFFFF)
  let frm := frm + 4
  let m := m.store32 frm 0x79EF07C6
  let frm := frm + 4
  let m := m.store32 frm 0x65EF0000
  let m := m.or32 frm ((delta32 >>> 16) &&& 0xFFFF)
  let frm := frm + 4
  let m := m.store32 frm 0x61EF0000
  let m := m.or32 frm (delta32 &&& 0xFFFF)
  let frm := frm + 4
  let m := m.store32 frm 0x7de903a6
  let frm := frm + 4
  let m := m.store32 frm 0xe9e1ffe0
  let frm := frm + 4
  let m := m.store32 frm 0x4e800420
  let frm := frm + 4
  (frm, m)

/-- Source function `check_relative_jump(from, to)`. -/
def check_relative_jump (frm tgt : Nat) : Bool :=
  let delta := ptr_diff tgt frm
  if delta > (INT32_MAX >>> (8 : Nat)) ∨ delta < (INT32_MIN >>> (8 : Nat)) then false else true

/-- Source function `create_jump(opcode, from, to)`; `opcode` is ignored (`(void) opcode`). -/
def create_jump (_opcode : Nat) (frm tgt : Nat) (m : Machine) : Machine :=
  let delta := ptr_diff tgt frm
  let delta32 := to_int32 delta
  let d := to_uint32 delta32
  let m1 := m.store32 frm 0x48000000
  m1.or32 frm (d &&& 0x3FFFFFC)

/-- Source function `create_movabs_p1(dst, loc)`: ORs three 16-bit pieces of `loc` into the
words at `dst`, `dst + 8` and `dst + 12`. -/
def create_movabs_p1 (dst loc : Nat) (m : Machine) : Machine :=
  let loc := loc % 2 ^ 64
  let m := m.or32 dst ((loc >>> 32) &&& 0xFFFF)
  let dst := dst + 8
  let m := m.or32 dst ((loc >>> 16) &&& 0xFFFF)
  let dst := dst + 4
  m.or32 dst (loc &&& 0xFFFF)

/-! ## Trampoline table -/

/-- Source function `check_trampoline_usage(desc)`: `some msg` when it calls `xabort(msg)`,
`none` when it returns. -/
def check_trampoline_usage (desc : intercept_desc) : Option String :=
  if !desc.uses_trampoline_table then none
  else
    let used := to_uint64 (ptr_diff desc.next_trampoline desc.trampoline_table)
    if (used + TRAMPOLINE_SIZE) % 2 ^ 64 ≥ desc.trampoline_table_size then
      some "trampoline space not enough"
    else none

/-! ## Wrapper template -/

/-- Symbols that `patcher.c` references but does not define: the labels of
`intercept_template.s`, the address of `intercept_wrapper`, and the TOC
pointer (register r2) read by the inline `mr %0, 2`. -/
structure Template where
  intercept_asm_wrapper_tmpl : Nat
  intercept_asm_wrapper_tmpl_end : Nat
  intercept_asm_wrapper_patch_desc_addr : Nat
  intercept_asm_wrapper_wrapper_level1_addr : Nat
  intercept_asm_wrapper_r2_load_addr : Nat
  intercept_wrapper : Nat
  toc : Nat

/-- The file-scope variables that `init_patcher` sets. -/
structure Globals where
  asm_wrapper_tmpl_size : Nat
  o_patch_desc_addr : Int
  o_wrapper_level1_addr : Int
  o_r2_load_addr : Int

/-- Source function `init_patcher()`: `none` when one of its assertions fails. -/
def init_patcher (t : Template) : Option Globals :=
  let tbegin := t.intercept_asm_wrapper_tmpl
  if ¬ (t.intercept_asm_wrapper_tmpl_end > tbegin) then none
  else if ¬ (t.intercept_asm_wrapper_patch_desc_addr > tbegin) then none
  else if ¬ (t.intercept_asm_wrapper_wrapper_level1_addr > tbegin) then none
  else if ¬ (t.intercept_asm_wrapper_patch_desc_addr < t.intercept_asm_wrapper_tmpl_end) then
    none
  else if ¬ (t.intercept_asm_wrapper_wrapper_level1_addr < t.intercept_asm_wrapper_tmpl_end)
  then none
  else
    some
      { asm_wrapper_tmpl_size := to_uint64 (ptr_diff t.intercept_asm_wrapper_tmpl_end tbegin)
        o_patch_desc_addr := ptr_diff t.intercept_asm_wrapper_patch_desc_addr tbegin
        o_wrapper_level1_addr := ptr_diff t.intercept_asm_wrapper_wrapper_level1_addr tbegin
        o_r2_load_addr := ptr_diff t.intercept_asm_wrapper_r2_load_addr tbegin }

/-- State of the preparation pass: the sites of `desc->items` visited so far,
as updated; the output cursor `*dst`; the machine. -/
structure Prep where
  items : List patch_desc
  dst : Nat
  m : Machine

/-- Result of `create_wrapper`: the updated site, the new cursor, the machine. -/
structure Wrapped where
  patch : patch_desc
  dst : Nat
  m : Machine

/-- Source function `create_wrapper(patch, dst)`; `patch_addr` is the address of `*patch`. -/
def create_wrapper (g : Globals) (t : Template) (patch : patch_desc) (patch_addr : Nat)
    (dst : Nat) (m : Machine) : Wrapped :=
  let patch := { patch with asm_wrapper := dst }
  let m := m.memcpy dst t.intercept_asm_wrapper_tmpl g.asm_wrapper_tmpl_size
  let i := t.toc
  let m := create_movabs_p1 (ptr_add dst g.o_r2_load_addr) i m
  let m := create_movabs_p1 (ptr_add dst g.o_patch_desc_addr) patch_addr m
  let m := create_movabs_p1 (ptr_add dst g.o_wrapper_level1_addr) t.intercept_wrapper m
  let dst := ptr_add dst (to_uint64 ((g.asm_wrapper_tmpl_size : Int) - 7 * 4) : Nat)
  if check_relative_jump dst patch.return_address then
    let m := create_jump 1 dst patch.return_address m
    { patch := patch, dst := dst + 4, m := m }
  else
    let m := debug_dump "Check relative NEED A LONG JUMP => TOC?!\n" m
    let m := create_movabs_p1 dst patch.return_address m
    { patch := patch, dst := dst + 7 * 4, m := m }

/-! ## Site preparation pass -/

/-- The libc call `snprintf(buffer, size, ...)` for the formatted text `text`:
the buffer holds at most `size - 1` characters, the return value is the full
length. -/
def snprintf (size : Nat) (text : String) : String × Nat :=
  (String.mk (text.data.take (size - 1)), text.length)

/-- The text of `debug_dump("patching %s:0x%lx\n", ...)`. -/
def patching_line (desc : intercept_desc) (patch : patch_desc) : String :=
  "patching " ++ desc.path ++ ":0x"
    ++ hex (to_uint64 (ptr_diff patch.syscall_addr desc.base_addr)) ++ "\n"

/-- The text formatted by `snprintf(buffer, sizeof(buffer), "unintercepted syscall at: %s 0x%lx\n", ...)`. -/
def unintercepted_line (desc : intercept_desc) (patch : patch_desc) : String :=
  "unintercepted syscall at: " ++ desc.path ++ " 0x" ++ hex patch.syscall_offset ++ "\n"

/-- One iteration of the loop of `create_patch_wrappers`, for the site `patch`
at index `patch_i`; `st.items` are the sites visited before, as updated. -/
def create_patch_wrappers_site (c : Consts) (g : Globals) (t : Template)
    (desc : intercept_desc) (patch : patch_desc) (patch_i : Nat) (st : Prep) : Run Prep :=
  let m := debug_dump (patching_line desc patch) st.m
  let length := c.SYSCALL_INS_SIZE
  let patch := { patch with dst_jmp_patch := patch.syscall_addr }
  let patch := { patch with return_address := ptr_add patch.syscall_addr c.SYSCALL_INS_SIZE }
  if length < c.JUMP_INS_SIZE then
    let buffer := snprintf 0x1000 (unintercepted_line desc patch)
    let m := intercept_log buffer.1 buffer.2 m
    Run.abort "not enough space for patching around syscal"
      { items := st.items ++ [patch], dst := st.dst, m := m }
  else
    let m := mark_jump patch.return_address m
    let w := create_wrapper g t patch (desc.items_addr + patch_i * c.sizeof_patch_desc)
      st.dst m
    Run.done { items := st.items ++ [w.patch], dst := w.dst, m := w.m }

/-- The loop of `create_patch_wrappers` over the sites still to do;
`patch_i` is the index of the first of them. -/
def create_patch_wrappers_loop (c : Consts) (g : Globals) (t : Template)
    (desc : intercept_desc) : List patch_desc → Nat → Prep → Run Prep
  | [], _, st => Run.done st
  | patch :: rest, patch_i, st =>
    match create_patch_wrappers_site c g t desc patch patch_i st with
    | Run.abort msg s => Run.abort msg s
    | Run.done s => create_patch_wrappers_loop c g t desc rest (patch_i + 1) s

/-- Source function `create_patch_wrappers(desc, dst)`.  The result holds the sites visited, as
updated. -/
def create_patch_wrappers (c : Consts) (g : Globals) (t : Template) (desc : intercept_desc)
    (dst : Nat) (m : Machine) : Run Prep :=
  create_patch_wrappers_loop c g t desc desc.items 0 { items := [], dst := dst, m := m }

/-- The addresses passed to `mark_jump`, in order. -/
def mark_jump_calls (trace : List Event) : List Nat :=
  trace.filterMap fun e =>
    match e with
    | Event.mark_jump addr => some addr
    | _ => none

/-- The buffers passed to `intercept_log`, in order. -/
def logged (trace : List Event) : List String :=
  trace.filterMap fun e =>
    match e with
    | Event.intercept_log buffer _ => some buffer
    | _ => none

/-! ## Activation pass -/

/-- Modelled from the spec: `mprotect_no_intercept(addr, len, prot, msg)` of
`intercept_util.h` changes the protection of the page range; a failure is
fatal and aborts with `msg`. -/
def mprotect_no_intercept (env : Env) (addr len prot : Nat) (msg : String) (m : Machine) :
    Run Machine :=
  let m := m.emit (Event.mprotect addr len prot)
  if env.mprotect_ok addr len prot then Run.done m else Run.abort msg m

/-- The trap-fill loop `for (byte = ...; byte < return_address; ++byte) *byte = INT3_OPCODE`,
which runs `n = return_address - byte` times. -/
def trap_fill (int3 : Nat) : Nat → Nat → Machine → Machine
  | 0, _, m => m
  | n + 1, byte, m => trap_fill int3 n (byte + 1) (m.store8 byte int3)

/-- One iteration of the loop of `activate_patches`, for the site `patch`. -/
def activate_site (c : Consts) (w : World) (patch : patch_desc) : Run World :=
  if patch.dst_jmp_patch < w.desc.text_start ∨ patch.dst_jmp_patch > w.desc.text_end then
    Run.abort "dst_jmp_patch outside text" w
  else
    let r : Run World :=
      if w.desc.uses_trampoline_table then
        match check_trampoline_usage w.desc with
        | some msg => Run.abort msg w
        | none =>
          let m := create_jump c.JMP_OPCODE patch.dst_jmp_patch w.desc.next_trampoline w.m
          let j := create_absolute_jumptr w.desc.next_trampoline patch.asm_wrapper m
          Run.done { desc := { w.desc with next_trampoline := j.1 }, m := j.2 }
      else if check_relative_jump patch.dst_jmp_patch patch.asm_wrapper then
        let m := create_jump c.JMP_OPCODE patch.dst_jmp_patch patch.asm_wrapper w.m
        Run.done { w with m := m }
      else
        let m := w.m.emit (Event.printf
          ("Without trampoline table " ++ hex patch.dst_jmp_patch ++ " - "
            ++ hex patch.asm_wrapper ++ " \n"))
        Run.done { w with m := (create_absolute_jump patch.dst_jmp_patch patch.asm_wrapper m).2 }
    match r with
    | Run.abort msg s => Run.abort msg s
    | Run.done w1 =>
      let byte := patch.dst_jmp_patch + c.JUMP_INS_SIZE
      Run.done { w1 with m := trap_fill c.INT3_OPCODE (patch.return_address - byte) byte w1.m }

/-- The loop of `activate_patches` over the sites still to do. -/
def activate_loop (c : Consts) : List patch_desc → World → Run World
  | [], w => Run.done w
  | patch :: rest, w =>
    match activate_site c w patch with
    | Run.abort msg s => Run.abort msg s
    | Run.done w1 => activate_loop c rest w1

/-- Source function `activate_patches(desc)`. -/
def activate_patches (c : Consts) (env : Env) (w : World) : Run World :=
  if w.desc.count = 0 then Run.done w
  else
    let first_page := env.round_down_address w.desc.text_start
    let size := to_uint64 (ptr_diff w.desc.text_end first_page)
    match mprotect_no_intercept env first_page size (PROT_READ ||| PROT_WRITE ||| PROT_EXEC)
        "mprotect PROT_READ | PROT_WRITE | PROT_EXEC" w.m with
    | Run.abort msg m => Run.abort msg { w with m := m }
    | Run.done m =>
      match activate_loop c w.desc.items { w with m := m } with
      | Run.abort msg s => Run.abort msg s
      | Run.done w1 =>
        match mprotect_no_intercept env first_page size (PROT_READ ||| PROT_EXEC)
            "mprotect PROT_READ | PROT_EXEC" w1.m with
        | Run.abort msg m => Run.abort msg { w1 with m := m }
        | Run.done m => Run.done { w1 with m := m }

/-- The local `first_page` of `activate_patches`. -/
def first_page (env : Env) (desc : intercept_desc) : Nat :=
  env.round_down_address desc.text_start

/-- The local `size` of `activate_patches`. -/
def protect_size (env : Env) (desc : intercept_desc) : Nat :=
  to_uint64 (ptr_diff desc.text_end (first_page env desc))

/-- The state in which the loop of `activate_patches` starts: after the first
`mprotect` call. -/
def writable (env : Env) (w : World) : World :=
  { w with m := w.m.emit (Event.mprotect (first_page env w.desc) (protect_size env w.desc)
      (PROT_READ ||| PROT_WRITE ||| PROT_EXEC)) }

/-- The state after the second `mprotect` call. -/
def reprotected (env : Env) (w : World) : World :=
  { w with m := w.m.emit (Event.mprotect (first_page env w.desc) (protect_size env w.desc)
      (PROT_READ ||| PROT_EXEC)) }

/-! ## Concrete inputs used by the evaluated examples -/

/-- Example constants: 4-byte instructions, trap byte `0xCC`. -/
def ppc_consts : Consts :=
  { SYSCALL_INS_SIZE := 4, JUMP_INS_SIZE := 4, JMP_OPCODE := 0xe9, INT3_OPCODE := 0xCC,
    sizeof_patch_desc := 40 }

/-- Example helpers: 4 KiB pages, `mprotect` succeeds. -/
def page_env : Env :=
  { round_down_address := fun a => a / 4096 * 4096, mprotect_ok := fun _ _ _ => true }

/-- Memory holding zero everywhere, empty trace. -/
def zero_machine : Machine := { mem := fun _ => 0, trace := [] }

/-- Example constants with the widths of the x86 original: a 2-byte syscall
instruction and a 5-byte jump. -/
def narrow_consts : Consts :=
  { SYSCALL_INS_SIZE := 2, JUMP_INS_SIZE := 5, JMP_OPCODE := 0xe9, INT3_OPCODE := 0xCC,
    sizeof_patch_desc := 40 }

/-- Example template: 96 bytes at `0x30000000` with the three load sequences
at offsets 4, 20 and 36. -/
def example_template : Template :=
  { intercept_asm_wrapper_tmpl := 0x30000000
    intercept_asm_wrapper_tmpl_end := 0x30000060
    intercept_asm_wrapper_patch_desc_addr := 0x30000014
    intercept_asm_wrapper_wrapper_level1_addr := 0x30000024
    intercept_asm_wrapper_r2_load_addr := 0x30000004
    intercept_wrapper := 0x7fff90000000
    toc := 0x7fff90008000 }

/-- The globals `init_patcher` computes for `example_template`. -/
def example_globals : Globals :=
  { asm_wrapper_tmpl_size := 96, o_patch_desc_addr := 20, o_wrapper_level1_addr := 36,
    o_r2_load_addr := 4 }

/-- A site as the scanner hands it over: only `syscall_addr` and `syscall_offset` set. -/
def raw_site (addr : Nat) : patch_desc :=
  { syscall_addr := addr, syscall_offset := addr - 0x10000000, dst_jmp_patch := 0,
    return_address := 0, asm_wrapper := 0 }

/-- A site for the 4-byte instruction at `addr`, as the preparation pass leaves it. -/
def site_at (addr wrapper : Nat) : patch_desc :=
  { syscall_addr := addr, syscall_offset := addr - 0x10000000, dst_jmp_patch := addr,
    return_address := addr + 4, asm_wrapper := wrapper }

/-- An image with text `[0x10000000, 0x10010000]`, a trampoline table at
`0x10020000` of `size` bytes, and the given sites. -/
def image (tramp : Bool) (size : Nat) (items : List patch_desc) : intercept_desc :=
  { base_addr := 0x10000000, path := "libc.so.6", text_start := 0x10000000,
    text_end := 0x10010000, items := items, items_addr := 0x20000000,
    uses_trampoline_table := tramp, trampoline_table := 0x10020000,
    trampoline_table_size := size, next_trampoline := 0x10020000 }

/-! ## The Power ISA instructions that the encoders emit

Semantics after Power ISA v3.0, Book I, for the instruction forms that occur
in the emitted code: I-form branches, `addi`, `ori`, `oris`, `rldicr`,
`mtspr CTR`, `std`, `ld` and `bcctr`. -/

/-- Sign extension of the low `bits` bits of `x`. -/
def sign_extend (bits x : Nat) : Int :=
  if x % 2 ^ bits < 2 ^ (bits - 1) then ((x % 2 ^ bits : Nat) : Int)
  else ((x % 2 ^ bits : Nat) : Int) - 2 ^ bits

/-- Target address of the I-form branch `w` fetched at address `cia`
(`b`, `ba`, `bl`, `bla`); `none` when the primary opcode is not 18. -/
def branch_target (cia w : Nat) : Option Nat :=
  if w >>> 26 = 18 then
    let li := sign_extend 26 (w &&& 0x3FFFFFC)
    if (w >>> 1) &&& 1 = 1 then some (to_uint64 li)
    else some (to_uint64 ((cia : Int) + li))
  else none

/-- Registers and the doublewords touched by `std` / `ld`. -/
structure Regs where
  gpr : Nat → Nat
  ctr : Nat
  lr : Nat
  dwords : Nat → Nat
  cia : Nat

/-- Write a general purpose register. -/
def Regs.set_gpr (r : Regs) (i v : Nat) : Regs :=
  { r with gpr := fun j => if j = i then v else r.gpr j }

/-- Execute the instruction word `w` at `r.cia`; `none` for a word outside the
modelled subset. -/
def ppc_step (w : Nat) (r : Regs) : Option Regs :=
  let op := w >>> 26
  let rt := (w >>> 21) &&& 31
  let ra := (w >>> 16) &&& 31
  let ui := w &&& 0xFFFF
  let xo := (w >>> 1) &&& 1023
  let base : Int := if ra = 0 then 0 else (r.gpr ra : Int)
  let next : Regs := { r with cia := (r.cia + 4) % 2 ^ 64 }
  if op = 18 then
    match branch_target r.cia w with
    | some t => some { r with cia := t, lr := if w &&& 1 = 1 then (r.cia + 4) % 2 ^ 64 else r.lr }
    | none => none
  else if op = 14 then
    some (next.set_gpr rt (to_uint64 (base + sign_extend 16 ui)))
  else if op = 24 then
    some (next.set_gpr ra (r.gpr rt ||| ui))
  else if op = 25 then
    some (next.set_gpr ra (r.gpr rt ||| (ui <<< 16)))
  else if op = 30 ∧ (w >>> 2) &&& 7 = 1 then
    let sh := ((w >>> 11) &&& 31) + 32 * ((w >>> 1) &&& 1)
    let me := ((w >>> 6) &&& 31) + 32 * ((w >>> 5) &&& 1)
    let rot := r.gpr rt * 2 ^ sh % 2 ^ 64 + r.gpr rt % 2 ^ 64 / 2 ^ (64 - sh)
    some (next.set_gpr ra (rot / 2 ^ (63 - me) * 2 ^ (63 - me)))
  else if op = 31 ∧ xo = 467 ∧ (w >>> 11) &&& 1023 = 288 then
    some { next with ctr := r.gpr rt }
  else if op = 62 ∧ w &&& 3 = 0 then
    let ea := to_uint64 (base + sign_extend 16 (w &&& 0xFFFC))
    some { next with dwords := fun a => if a = ea then r.gpr rt else r.dwords a }
  else if op = 58 ∧ w &&& 3 = 0 then
    let ea := to_uint64 (base + sign_extend 16 (w &&& 0xFFFC))
    some (next.set_gpr rt (r.dwords ea))
  else if op = 19 ∧ xo = 528 ∧ rt &&& 20 = 20 then
    some { r with cia := r.ctr / 4 * 4, lr := if w &&& 1 = 1 then (r.cia + 4) % 2 ^ 64 else r.lr }
  else none

/-- Fetch and execute `n` instructions from the code in memory `m`. -/
def ppc_run (m : Machine) : Nat → Regs → Option Regs
  | 0, r => some r
  | n + 1, r =>
    match ppc_step (m.load32 r.cia) r with
    | some r1 => ppc_run m n r1
    | none => none

/-! ## Error reporting of `libsyscall_intercept_hook_point.h` -/

/-- Thread state that `syscall_error_code` reads and writes: `errno` and the
32-bit condition register. -/
structure Cpu where
  errno : Int
  cr : Nat

/-- Source function `syscall_error_code(result)`: `i` is the value `mfcr` reads (the condition
register, zero-extended), `mtcr` writes its low 32 bits back; `errno` and the
return value have type `int`. -/
def syscall_error_code (result : Int) (s : Cpu) : Int × Cpu :=
  let i := s.cr % 2 ^ 32
  if (i &&& 0x10000000) > 0 then
    let s := { s with errno := to_int32 result }
    let s := { s with cr := i % 2 ^ 32 }
    (to_int32 result, s)
  else
    let result : Int := 0
    let s := { s with cr := i % 2 ^ 32 }
    (to_int32 result, s)

/-- Source function `syscall_no_intercept_wrapper(syscall_number, args...)`, from the point
where the external `syscall_no_intercept` has returned `result` (a `long`)
and left the processor in state `s`. -/
def syscall_no_intercept_wrapper (result : Int) (s : Cpu) : Int × Cpu :=
  let r := syscall_error_code result s
  let error_sc := r.1
  if error_sc ≠ 0 then (-1, r.2) else (result, r.2)

/-- A template whose `r2_load_addr` label lies 8 bytes before the template. -/
def stray_template : Template :=
  { example_template with intercept_asm_wrapper_r2_load_addr := 0x2ffffff8 }

/-- The machine after the statements of `create_wrapper` that instantiate the
template: the `memcpy` and the three `create_movabs_p1` calls, before the
return branch is written. -/
def wrapper_body (g : Globals) (t : Template) (patch_addr : Nat) (dst : Nat) (m : Machine) :
    Machine :=
  let m := m.memcpy dst t.intercept_asm_wrapper_tmpl g.asm_wrapper_tmpl_size
  let i := t.toc
  let m := create_movabs_p1 (ptr_add dst g.o_r2_load_addr) i m
  let m := create_movabs_p1 (ptr_add dst g.o_patch_desc_addr) patch_addr m
  create_movabs_p1 (ptr_add dst g.o_wrapper_level1_addr) t.intercept_wrapper m

/-- Value of `*dst` in `create_wrapper` after `*dst += asm_wrapper_tmpl_size - 7 * 4`. -/
def return_slot (g : Globals) (dst : Nat) : Nat :=
  ptr_add dst (to_uint64 ((g.asm_wrapper_tmpl_size : Int) - 7 * 4) : Nat)

/-- Whether an action is a protection change. -/
def Event.is_mprotect : Event → Bool
  | Event.mprotect _ _ _ => true
  | _ => false

/-- Whether an action is a one-byte store. -/
def Event.is_store8 : Event → Bool
  | Event.store8 _ _ => true
  | _ => false

/-- The arguments of the protection changes in a trace, in order. -/
def mprotect_calls (trace : List Event) : List (Nat × Nat × Nat) :=
  trace.filterMap fun e =>
    match e with
    | Event.mprotect addr size prot => some (addr, size, prot)
    | _ => none

/-- An image whose trampoline table lies 256 MiB above the text segment. -/
def far_table_image : intercept_desc :=
  { image true 4096 [site_at 0x10000100 0x7fff80001000] with
    trampoline_table := 0x20000000, next_trampoline := 0x20000000 }

/-- Memory whose template region holds, at the offset of `r2_load_addr`, the
`li`, `oris`, `ori` words of a long-load sequence with empty immediates. -/
def template_machine : Machine :=
  ((zero_machine.store32 0x30000004 0x39E00000).store32 0x3000000c 0x65EF0000).store32
    0x30000010 0x61EF0000

/-- Memory whose template region holds, at the offset of `r2_load_addr`, an
`li` word whose immediate field is `0xFFFF`. -/
def dirty_template_machine : Machine :=
  zero_machine.store32 0x30000004 0x39E0FFFF

/-- The example template with a TOC value whose only set bit is bit 48. -/
def high_toc_template : Template :=
  { example_template with toc := 0x1000000000000 }

/-! ## Bit-level facts -/

theorem and_shiftLeft_mask (x k n : Nat) : x &&& (k <<< n) = ((x >>> n) &&& k) <<< n := by
  apply Nat.eq_of_testBit_eq
  intro i
  simp only [Nat.testBit_and, Nat.testBit_shiftLeft, Nat.testBit_shiftRight]
  by_cases h : n ≤ i
  · have e : n + (i - n) = i := by omega
    simp [h, e, Bool.and_comm]
  · simp [h]

theorem and_3FFFFFC (x : Nat) : x &&& 0x3FFFFFC = x / 4 % 16777216 * 4 := by
  have h := and_shiftLeft_mask x (2 ^ 24 - 1) 2
  rw [Nat.and_pow_two_sub_one_eq_mod, Nat.shiftRight_eq_div_pow, Nat.shiftLeft_eq] at h
  simpa [Nat.shiftLeft_eq] using h

theorem and_FFFC (x : Nat) : x &&& 0xFFFC = x / 4 % 16384 * 4 := by
  have h := and_shiftLeft_mask x (2 ^ 14 - 1) 2
  rw [Nat.and_pow_two_sub_one_eq_mod, Nat.shiftRight_eq_div_pow, Nat.shiftLeft_eq] at h
  simpa [Nat.shiftLeft_eq] using h

theorem and_FFFF (x : Nat) : x &&& 0xFFFF = x % 65536 :=
  Nat.and_pow_two_sub_one_eq_mod x 16

theorem and_1023 (x : Nat) : x &&& 1023 = x % 1024 :=
  Nat.and_pow_two_sub_one_eq_mod x 10

theorem and_31 (x : Nat) : x &&& 31 = x % 32 :=
  Nat.and_pow_two_sub_one_eq_mod x 5

theorem and_7 (x : Nat) : x &&& 7 = x % 8 :=
  Nat.and_pow_two_sub_one_eq_mod x 3

theorem and_3 (x : Nat) : x &&& 3 = x % 4 :=
  Nat.and_pow_two_sub_one_eq_mod x 2

theorem and_1 (x : Nat) : x &&& 1 = x % 2 :=
  Nat.and_pow_two_sub_one_eq_mod x 1

/-- OR with a value below `2 ^ i` into a multiple of `2 ^ i` is addition. -/
theorem or_low (i a b : Nat) (h : b < 2 ^ i) : 2 ^ i * a ||| b = 2 ^ i * a + b :=
  (Nat.mul_add_lt_is_or h a).symm

theorem load32_store32 (m : Machine) (a w : Nat) :
    (m.store32 a w).load32 a = w % 2 ^ 32 := by
  simp only [Machine.load32, Machine.store32]
  simp
  omega

theorem mem_store32_of_out (m : Machine) (a w x : Nat) (h : x < a ∨ a + 4 ≤ x) :
    (m.store32 a w).mem x = m.mem x := by
  simp only [Machine.store32]
  have h0 : x ≠ a := by omega
  have h1 : x ≠ a + 1 := by omega
  have h2 : x ≠ a + 2 := by omega
  have h3 : x ≠ a + 3 := by omega
  simp [h0, h1, h2, h3]

theorem load32_store32_of_disjoint (m : Machine) (a w b : Nat) (h : b + 4 ≤ a ∨ a + 4 ≤ b) :
    (m.store32 a w).load32 b = m.load32 b := by
  simp only [Machine.load32]
  rw [mem_store32_of_out m a w b (by omega), mem_store32_of_out m a w (b + 1) (by omega),
    mem_store32_of_out m a w (b + 2) (by omega), mem_store32_of_out m a w (b + 3) (by omega)]

theorem load32_or32 (m : Machine) (a v : Nat) :
    (m.or32 a v).load32 a = (m.load32 a ||| v) % 2 ^ 32 := by
  simp only [Machine.or32, load32_store32]

theorem int32_shift_max : INT32_MAX >>> (8 : Nat) = 8388607 := by decide

theorem int32_shift_min : INT32_MIN >>> (8 : Nat) = -8388608 := by decide

/-- The word `create_jump` leaves at `from`. -/
theorem create_jump_word (opcode frm tgt : Nat) (m : Machine) :
    (create_jump opcode frm tgt m).load32 frm
      = 0x48000000 + to_uint32 (to_int32 (ptr_diff tgt frm)) / 4 % 16777216 * 4 := by
  simp only [create_jump, load32_or32, load32_store32, and_3FFFFFC]
  have h := or_low 26 18 (to_uint32 (to_int32 (ptr_diff tgt frm)) / 4 % 16777216 * 4)
    (by omega)
  norm_num at h
  norm_num
  rw [h]
  omega

theorem load32_or32_of_disjoint (m : Machine) (a v b : Nat) (h : b + 4 ≤ a ∨ a + 4 ≤ b) :
    (m.or32 a v).load32 b = m.load32 b :=
  load32_store32_of_disjoint m a _ b h

/-- OR of a 16-bit immediate into a word whose low 16 bits are clear. -/
theorem or_imm16 (k x : Nat) : 65536 * k ||| (x &&& 0xFFFF) = 65536 * k + x % 65536 := by
  rw [and_FFFF]
  exact or_low 16 k (x % 65536) (Nat.mod_lt _ (by decide))

/-- The eight instruction words `create_absolute_jumptr` leaves in memory. -/
theorem jumptr_code (frm tgt : Nat) (m : Machine) :
    ((create_absolute_jumptr frm tgt m).2.load32 frm = 0xf9e1ffe0
    ∧ (create_absolute_jumptr frm tgt m).2.load32 (frm + 4)
        = 0x39E00000 + tgt % 2 ^ 64 / 2 ^ 32 % 65536
    ∧ (create_absolute_jumptr frm tgt m).2.load32 (frm + 8) = 0x79EF07C6
    ∧ (create_absolute_jumptr frm tgt m).2.load32 (frm + 12)
        = 0x65EF0000 + tgt % 2 ^ 64 / 2 ^ 16 % 65536)
    ∧ ((create_absolute_jumptr frm tgt m).2.load32 (frm + 16) = 0x61EF0000 + tgt % 65536
    ∧ (create_absolute_jumptr frm tgt m).2.load32 (frm + 20) = 0x7de903a6
    ∧ (create_absolute_jumptr frm tgt m).2.load32 (frm + 24) = 0xe9e1ffe0
    ∧ (create_absolute_jumptr frm tgt m).2.load32 (frm + 28) = 0x4e800420) := by
  have e1 := or_imm16 0x39E0 ((tgt % 2 ^ 64) >>> 32)
  have e2 := or_imm16 0x65EF ((tgt % 2 ^ 64) >>> 16)
  have e3 := or_imm16 0x61EF (tgt % 2 ^ 64)
  simp only [Nat.shiftRight_eq_div_pow] at e1 e2
  norm_num at e1 e2 e3
  simp only [create_absolute_jumptr, Nat.add_assoc, Nat.reduceAdd]
  refine ⟨⟨?_, ?_, ?_, ?_⟩, ?_, ?_, ?_, ?_⟩ <;>
    simp (disch := omega) only [load32_store32, load32_or32, load32_store32_of_disjoint,
      load32_or32_of_disjoint, Nat.shiftRight_eq_div_pow] <;>
    norm_num <;> omega

/-! ### Decoding the emitted words -/

theorem step_li_r15 (x : Nat) (hx : x < 65536) (r : Regs) :
    ppc_step (0x39E00000 + x) r
      = some (({ r with cia := (r.cia + 4) % 2 ^ 64 } : Regs).set_gpr 15
          (to_uint64 (sign_extend 16 x))) := by
  have h1 : (0x39E00000 + x) >>> 26 = 14 := by rw [Nat.shiftRight_eq_div_pow]; omega
  have h2 : ((0x39E00000 + x) >>> 21) &&& 31 = 15 := by
    rw [and_31, Nat.shiftRight_eq_div_pow]; omega
  have h3 : ((0x39E00000 + x) >>> 16) &&& 31 = 0 := by
    rw [and_31, Nat.shiftRight_eq_div_pow]; omega
  have h4 : (0x39E00000 + x) &&& 0xFFFF = x := by rw [and_FFFF]; omega
  simp only [ppc_step, h1, h2, h3, h4]
  simp

theorem step_oris_r15 (x : Nat) (hx : x < 65536) (r : Regs) :
    ppc_step (0x65EF0000 + x) r
      = some (({ r with cia := (r.cia + 4) % 2 ^ 64 } : Regs).set_gpr 15
          (r.gpr 15 ||| (x <<< 16))) := by
  have h1 : (0x65EF0000 + x) >>> 26 = 25 := by rw [Nat.shiftRight_eq_div_pow]; omega
  have h2 : ((0x65EF0000 + x) >>> 21) &&& 31 = 15 := by
    rw [and_31, Nat.shiftRight_eq_div_pow]; omega
  have h3 : ((0x65EF0000 + x) >>> 16) &&& 31 = 15 := by
    rw [and_31, Nat.shiftRight_eq_div_pow]; omega
  have h4 : (0x65EF0000 + x) &&& 0xFFFF = x := by rw [and_FFFF]; omega
  simp only [ppc_step, h1, h2, h3, h4]
  simp

theorem step_ori_r15 (x : Nat) (hx : x < 65536) (r : Regs) :
    ppc_step (0x61EF0000 + x) r
      = some (({ r with cia := (r.cia + 4) % 2 ^ 64 } : Regs).set_gpr 15
          (r.gpr 15 ||| x)) := by
  have h1 : (0x61EF0000 + x) >>> 26 = 24 := by rw [Nat.shiftRight_eq_div_pow]; omega
  have h2 : ((0x61EF0000 + x) >>> 21) &&& 31 = 15 := by
    rw [and_31, Nat.shiftRight_eq_div_pow]; omega
  have h3 : ((0x61EF0000 + x) >>> 16) &&& 31 = 15 := by
    rw [and_31, Nat.shiftRight_eq_div_pow]; omega
  have h4 : (0x61EF0000 + x) &&& 0xFFFF = x := by rw [and_FFFF]; omega
  simp only [ppc_step, h1, h2, h3, h4]
  simp

theorem step_std_r15 (r : Regs) :
    ppc_step 0xf9e1ffe0 r
      = some { r with
          cia := (r.cia + 4) % 2 ^ 64
          dwords := fun a =>
            if a = to_uint64 ((r.gpr 1 : Int) + sign_extend 16 0xffe0) then r.gpr 15
            else r.dwords a } := by
  have h1 : (0xf9e1ffe0 : Nat) >>> 26 = 62 := by decide
  have h2 : ((0xf9e1ffe0 : Nat) >>> 21) &&& 31 = 15 := by decide
  have h3 : ((0xf9e1ffe0 : Nat) >>> 16) &&& 31 = 1 := by decide
  have h4 : (0xf9e1ffe0 : Nat) &&& 3 = 0 := by decide
  have h5 : (0xf9e1ffe0 : Nat) &&& 0xFFFC = 0xffe0 := by decide
  simp only [ppc_step, h1, h2, h3, h4, h5]
  simp

theorem step_ld_r15 (r : Regs) :
    ppc_step 0xe9e1ffe0 r
      = some (({ r with cia := (r.cia + 4) % 2 ^ 64 } : Regs).set_gpr 15
          (r.dwords (to_uint64 ((r.gpr 1 : Int) + sign_extend 16 0xffe0)))) := by
  have h1 : (0xe9e1ffe0 : Nat) >>> 26 = 58 := by decide
  have h2 : ((0xe9e1ffe0 : Nat) >>> 21) &&& 31 = 15 := by decide
  have h3 : ((0xe9e1ffe0 : Nat) >>> 16) &&& 31 = 1 := by decide
  have h4 : (0xe9e1ffe0 : Nat) &&& 3 = 0 := by decide
  have h5 : (0xe9e1ffe0 : Nat) &&& 0xFFFC = 0xffe0 := by decide
  simp only [ppc_step, h1, h2, h3, h4, h5]
  simp

theorem step_sldi32_r15 (r : Regs) :
    ppc_step 0x79EF07C6 r
      = some (({ r with cia := (r.cia + 4) % 2 ^ 64 } : Regs).set_gpr 15
          (r.gpr 15 % 2 ^ 32 * 2 ^ 32)) := by
  have h1 : (0x79EF07C6 : Nat) >>> 26 = 30 := by decide
  have h2 : ((0x79EF07C6 : Nat) >>> 21) &&& 31 = 15 := by decide
  have h3 : ((0x79EF07C6 : Nat) >>> 16) &&& 31 = 15 := by decide
  have h4 : ((0x79EF07C6 : Nat) >>> 2) &&& 7 = 1 := by decide
  have h5 : (((0x79EF07C6 : Nat) >>> 11) &&& 31) + 32 * (((0x79EF07C6 : Nat) >>> 1) &&& 1)
      = 32 := by decide
  have h6 : (((0x79EF07C6 : Nat) >>> 6) &&& 31) + 32 * (((0x79EF07C6 : Nat) >>> 5) &&& 1)
      = 31 := by decide
  simp only [ppc_step, h1, h2, h3, h4, h5, h6]
  rw [if_neg (by decide), if_neg (by decide), if_neg (by decide), if_neg (by decide),
    if_pos ⟨trivial, trivial⟩]
  have e : (r.gpr 15 * 2 ^ 32 % 2 ^ 64 + r.gpr 15 % 2 ^ 64 / 2 ^ (64 - 32)) / 2 ^ (63 - 31)
      * 2 ^ (63 - 31) = r.gpr 15 % 2 ^ 32 * 2 ^ 32 := by
    have a1 : r.gpr 15 * 2 ^ 32 % 2 ^ 64 = r.gpr 15 % 2 ^ 32 * 2 ^ 32 := by omega
    have a2 : r.gpr 15 % 2 ^ 64 / 2 ^ (64 - 32) < 2 ^ 32 := by omega
    rw [a1]
    generalize r.gpr 15 % 2 ^ 64 / 2 ^ (64 - 32) = hi at a2
    generalize r.gpr 15 % 2 ^ 32 = lo
    norm_num at a2 ⊢
    omega
  rw [e]

theorem step_mtctr_r15 (r : Regs) :
    ppc_step 0x7de903a6 r
      = some { r with cia := (r.cia + 4) % 2 ^ 64, ctr := r.gpr 15 } := by
  have h1 : (0x7de903a6 : Nat) >>> 26 = 31 := by decide
  have h2 : ((0x7de903a6 : Nat) >>> 21) &&& 31 = 15 := by decide
  have h3 : ((0x7de903a6 : Nat) >>> 1) &&& 1023 = 467 := by decide
  have h4 : ((0x7de903a6 : Nat) >>> 11) &&& 1023 = 288 := by decide
  simp only [ppc_step, h1, h2, h3, h4]
  simp

theorem step_bctr (r : Regs) :
    ppc_step 0x4e800420 r = some { r with cia := r.ctr / 4 * 4 } := by
  have h1 : (0x4e800420 : Nat) >>> 26 = 19 := by decide
  have h2 : ((0x4e800420 : Nat) >>> 21) &&& 31 = 20 := by decide
  have h3 : ((0x4e800420 : Nat) >>> 1) &&& 1023 = 528 := by decide
  have h4 : (0x4e800420 : Nat) &&& 1 = 0 := by decide
  simp only [ppc_step, h1, h2, h3, h4]
  simp

/-- The arithmetic of `li` / `sldi 32` / `oris` / `ori` on the three immediates. -/
theorem jumptr_value (tgt : Nat) :
    to_uint64 (sign_extend 16 (tgt % 2 ^ 64 / 2 ^ 32 % 65536)) % 2 ^ 32 * 2 ^ 32
        ||| (tgt % 2 ^ 64 / 2 ^ 16 % 65536) <<< 16
        ||| tgt % 65536
      = to_uint64 (sign_extend 48 tgt) := by
  have hb : tgt % 2 ^ 64 / 2 ^ 16 % 65536 < 65536 := Nat.mod_lt _ (by decide)
  have hc : tgt % 65536 < 65536 := Nat.mod_lt _ (by decide)
  have hH : (to_uint64 (sign_extend 16 (tgt % 2 ^ 64 / 2 ^ 32 % 65536)) : Int)
      = if tgt % 2 ^ 64 / 2 ^ 32 % 65536 < 32768 then ((tgt % 2 ^ 64 / 2 ^ 32 % 65536 : Nat) : Int)
        else 18446744073709486080 + ((tgt % 2 ^ 64 / 2 ^ 32 % 65536 : Nat) : Int) := by
    simp only [to_uint64, sign_extend]
    split <;> omega
  have hT : (to_uint64 (sign_extend 48 tgt) : Int)
      = if tgt % 2 ^ 48 < 2 ^ 47 then ((tgt % 2 ^ 48 : Nat) : Int)
        else 18446462598732840960 + ((tgt % 2 ^ 48 : Nat) : Int) := by
    simp only [to_uint64, sign_extend]
    split <;> omega
  generalize to_uint64 (sign_extend 16 (tgt % 2 ^ 64 / 2 ^ 32 % 65536)) = v at hH
  generalize to_uint64 (sign_extend 48 tgt) = t at hT
  rw [Nat.shiftLeft_eq]
  have e1 := or_low 32 (v % 2 ^ 32) (tgt % 2 ^ 64 / 2 ^ 16 % 65536 * 2 ^ 16) (by omega)
  rw [Nat.mul_comm (v % 2 ^ 32) (2 ^ 32), e1]
  have e2 := or_low 16 (2 ^ 16 * (v % 2 ^ 32) + tgt % 2 ^ 64 / 2 ^ 16 % 65536) (tgt % 65536)
    (by omega)
  have e3 : 2 ^ 32 * (v % 2 ^ 32) + tgt % 2 ^ 64 / 2 ^ 16 % 65536 * 2 ^ 16
      = 2 ^ 16 * (2 ^ 16 * (v % 2 ^ 32) + tgt % 2 ^ 64 / 2 ^ 16 % 65536) := by omega
  rw [e3, e2]
  split at hH <;> split at hT <;> omega

/-- Running the eight emitted instructions: the value that reaches CTR is the
sign extension of the low 48 bits of the target, the branch goes there, and
r15 is restored. -/
theorem jumptr_run (frm tgt : Nat) (m : Machine) (r : Regs) (hf : frm + 32 ≤ 2 ^ 64) :
    ∃ r1 : Regs,
      ppc_run (create_absolute_jumptr frm tgt m).2 8 { r with cia := frm } = some r1
      ∧ r1.ctr = to_uint64 (sign_extend 48 tgt)
      ∧ r1.cia = r1.ctr / 4 * 4
      ∧ r1.gpr 15 = r.gpr 15 := by
  obtain ⟨⟨w0, w1, w2, w3⟩, w4, w5, w6, w7⟩ := jumptr_code frm tgt m
  generalize (create_absolute_jumptr frm tgt m).2 = mc at w0 w1 w2 w3 w4 w5 w6 w7
  have c1 : (frm + 4) % 2 ^ 64 = frm + 4 := Nat.mod_eq_of_lt (by omega)
  have c2 : (frm + 4 + 4) % 2 ^ 64 = frm + 8 := Nat.mod_eq_of_lt (by omega)
  have c3 : (frm + 8 + 4) % 2 ^ 64 = frm + 12 := Nat.mod_eq_of_lt (by omega)
  have c4 : (frm + 12 + 4) % 2 ^ 64 = frm + 16 := Nat.mod_eq_of_lt (by omega)
  have c5 : (frm + 16 + 4) % 2 ^ 64 = frm + 20 := Nat.mod_eq_of_lt (by omega)
  have c6 : (frm + 20 + 4) % 2 ^ 64 = frm + 24 := Nat.mod_eq_of_lt (by omega)
  have c7 : (frm + 24 + 4) % 2 ^ 64 = frm + 28 := Nat.mod_eq_of_lt (by omega)
  have x1 : tgt % 2 ^ 64 / 2 ^ 32 % 65536 < 65536 := Nat.mod_lt _ (by decide)
  have x2 : tgt % 2 ^ 64 / 2 ^ 16 % 65536 < 65536 := Nat.mod_lt _ (by decide)
  have x3 : tgt % 65536 < 65536 := Nat.mod_lt _ (by decide)
  simp only [ppc_run, w0, step_std_r15, c1, w1, step_li_r15 _ x1, Regs.set_gpr, c2, w2,
    step_sldi32_r15, c3, w3, step_oris_r15 _ x2, c4, w4, step_ori_r15 _ x3, c5, w5,
    step_mtctr_r15, c6, w6, step_ld_r15, c7, w7, step_bctr]
  refine ⟨_, rfl, ?_, ?_, ?_⟩
  · simp only [if_true]
    exact jumptr_value tgt
  · simp
  · simp

/-- Bounds that `check_relative_jump` enforces on the byte displacement. -/
theorem check_relative_jump_iff (frm tgt : Nat) :
    check_relative_jump frm tgt = true
      ↔ -8388608 ≤ ptr_diff tgt frm ∧ ptr_diff tgt frm ≤ 8388607 := by
  simp only [check_relative_jump, int32_shift_max, int32_shift_min]
  constructor
  · intro h
    split at h
    · exact absurd h (by decide)
    · omega
  · intro h
    rw [if_neg (by omega)]

/-! ### Which bytes the writers touch -/

theorem mem_or32_of_out (m : Machine) (a v x : Nat) (h : x < a ∨ a + 4 ≤ x) :
    (m.or32 a v).mem x = m.mem x :=
  mem_store32_of_out m a _ x h

theorem create_jump_mem_of_out (opcode frm tgt : Nat) (m : Machine) (x : Nat)
    (h : x < frm ∨ frm + 4 ≤ x) : (create_jump opcode frm tgt m).mem x = m.mem x := by
  simp only [create_jump]
  rw [mem_or32_of_out _ _ _ _ h, mem_store32_of_out _ _ _ _ h]

theorem create_absolute_jump_mem_of_out (frm tgt : Nat) (m : Machine) (x : Nat)
    (h : x < frm ∨ frm + 4 ≤ x) : (create_absolute_jump frm tgt m).2.mem x = m.mem x := by
  simp only [create_absolute_jump]
  rw [mem_or32_of_out _ _ _ _ h, mem_store32_of_out _ _ _ _ h]

theorem create_absolute_jumptr_mem_of_out (frm tgt : Nat) (m : Machine) (x : Nat)
    (h : x < frm ∨ frm + 32 ≤ x) : (create_absolute_jumptr frm tgt m).2.mem x = m.mem x := by
  simp only [create_absolute_jumptr]
  repeat first
    | rw [mem_store32_of_out _ _ _ _ (by omega)]
    | rw [mem_or32_of_out _ _ _ _ (by omega)]

theorem create_absolute_jumptr_fst (frm tgt : Nat) (m : Machine) :
    (create_absolute_jumptr frm tgt m).1 = frm + 32 := rfl

/-- Memory after the trap-fill loop: the `n` bytes from `byte` hold the trap
byte, everything else is untouched. -/
theorem trap_fill_mem (int3 : Nat) (n byte : Nat) (m : Machine) (x : Nat) :
    (trap_fill int3 n byte m).mem x
      = if byte ≤ x ∧ x < byte + n then int3 % 256 else m.mem x := by
  induction n generalizing byte m with
  | zero =>
    simp only [trap_fill]
    rw [if_neg (by omega)]
  | succ k ih =>
    simp only [trap_fill]
    rw [ih]
    simp only [Machine.store8]
    by_cases h1 : x = byte
    · subst h1
      simp
    · by_cases h2 : byte + 1 ≤ x ∧ x < byte + 1 + k
      · rw [if_pos h2, if_pos (by omega)]
      · rw [if_neg h2, if_neg h1, if_neg (by omega)]

/-! ### The five paths through one iteration of the activation loop -/

theorem activate_site_outside (c : Consts) (w : World) (patch : patch_desc)
    (h : patch.dst_jmp_patch < w.desc.text_start ∨ patch.dst_jmp_patch > w.desc.text_end) :
    activate_site c w patch = Run.abort "dst_jmp_patch outside text" w := by
  unfold activate_site
  rw [if_pos h]

theorem activate_site_exhausted (c : Consts) (w : World) (patch : patch_desc) (msg : String)
    (h : ¬ (patch.dst_jmp_patch < w.desc.text_start ∨ patch.dst_jmp_patch > w.desc.text_end))
    (ht : w.desc.uses_trampoline_table = true)
    (hc : check_trampoline_usage w.desc = some msg) :
    activate_site c w patch = Run.abort msg w := by
  unfold activate_site
  rw [if_neg h]
  simp only [ht, hc, if_true]

theorem activate_site_trampoline (c : Consts) (w : World) (patch : patch_desc)
    (h : ¬ (patch.dst_jmp_patch < w.desc.text_start ∨ patch.dst_jmp_patch > w.desc.text_end))
    (ht : w.desc.uses_trampoline_table = true)
    (hc : check_trampoline_usage w.desc = none) :
    activate_site c w patch
      = Run.done
          { desc := { w.desc with next_trampoline := w.desc.next_trampoline + 32 }
            m := trap_fill c.INT3_OPCODE
              (patch.return_address - (patch.dst_jmp_patch + c.JUMP_INS_SIZE))
              (patch.dst_jmp_patch + c.JUMP_INS_SIZE)
              (create_absolute_jumptr w.desc.next_trampoline patch.asm_wrapper
                (create_jump c.JMP_OPCODE patch.dst_jmp_patch w.desc.next_trampoline w.m)).2 } := by
  unfold activate_site
  rw [if_neg h]
  simp only [ht, hc, if_true, create_absolute_jumptr_fst]

theorem activate_site_relative (c : Consts) (w : World) (patch : patch_desc)
    (h : ¬ (patch.dst_jmp_patch < w.desc.text_start ∨ patch.dst_jmp_patch > w.desc.text_end))
    (ht : w.desc.uses_trampoline_table = false)
    (hc : check_relative_jump patch.dst_jmp_patch patch.asm_wrapper = true) :
    activate_site c w patch
      = Run.done
          { desc := w.desc
            m := trap_fill c.INT3_OPCODE
              (patch.return_address - (patch.dst_jmp_patch + c.JUMP_INS_SIZE))
              (patch.dst_jmp_patch + c.JUMP_INS_SIZE)
              (create_jump c.JMP_OPCODE patch.dst_jmp_patch patch.asm_wrapper w.m) } := by
  unfold activate_site
  rw [if_neg h]
  simp [ht, hc]

theorem activate_site_absolute (c : Consts) (w : World) (patch : patch_desc)
    (h : ¬ (patch.dst_jmp_patch < w.desc.text_start ∨ patch.dst_jmp_patch > w.desc.text_end))
    (ht : w.desc.uses_trampoline_table = false)
    (hc : check_relative_jump patch.dst_jmp_patch patch.asm_wrapper = false) :
    activate_site c w patch
      = Run.done
          { desc := w.desc
            m := trap_fill c.INT3_OPCODE
              (patch.return_address - (patch.dst_jmp_patch + c.JUMP_INS_SIZE))
              (patch.dst_jmp_patch + c.JUMP_INS_SIZE)
              (create_absolute_jump patch.dst_jmp_patch patch.asm_wrapper
                (w.m.emit (Event.printf
                  ("Without trampoline table " ++ hex patch.dst_jmp_patch ++ " - "
                    ++ hex patch.asm_wrapper ++ " \n")))).2 } := by
  unfold activate_site
  rw [if_neg h]
  simp [ht, hc]

/-- The check `check_trampoline_usage` returns either nothing or the exhaustion message. -/
theorem check_trampoline_usage_cases (desc : intercept_desc) :
    check_trampoline_usage desc = none
      ∨ check_trampoline_usage desc = some "trampoline space not enough" := by
  unfold check_trampoline_usage
  split
  · exact Or.inl rfl
  · by_cases h : (to_uint64 (ptr_diff desc.next_trampoline desc.trampoline_table)
        + TRAMPOLINE_SIZE) % 2 ^ 64 ≥ desc.trampoline_table_size
    · right
      simp only [h, if_true]
    · left
      simp only [h, if_false]

/-- Memory after one completed iteration of the activation loop: the trap
range holds the trap byte, and only the jump word, the trap range and (in
trampoline mode) the 32 bytes at the old `next_trampoline` can differ. -/
theorem activate_site_mem (c : Consts) (w : World) (patch : patch_desc)
    (h : (activate_site c w patch).completed = true) (a : Nat) :
    (patch.dst_jmp_patch + c.JUMP_INS_SIZE ≤ a ∧ a < patch.return_address →
      (activate_site c w patch).state.m.mem a = c.INT3_OPCODE % 256)
    ∧ (¬ (patch.dst_jmp_patch + c.JUMP_INS_SIZE ≤ a ∧ a < patch.return_address) →
       ¬ (patch.dst_jmp_patch ≤ a ∧ a < patch.dst_jmp_patch + 4) →
       ¬ (w.desc.uses_trampoline_table = true
          ∧ w.desc.next_trampoline ≤ a ∧ a < w.desc.next_trampoline + 32) →
      (activate_site c w patch).state.m.mem a = w.m.mem a) := by
  by_cases ho : patch.dst_jmp_patch < w.desc.text_start ∨ patch.dst_jmp_patch > w.desc.text_end
  · rw [activate_site_outside c w patch ho] at h
    exact absurd h (by simp [Run.completed])
  · cases ht : w.desc.uses_trampoline_table with
    | true =>
      rcases check_trampoline_usage_cases w.desc with hc | hc
      · rw [activate_site_trampoline c w patch ho ht hc]
        simp only [Run.state, trap_fill_mem]
        refine ⟨fun hr => by rw [if_pos (by omega)], fun hr hj hx => ?_⟩
        rw [if_neg (by omega), create_absolute_jumptr_mem_of_out _ _ _ _ (by simp_all; omega),
          create_jump_mem_of_out _ _ _ _ _ (by omega)]
      · rw [activate_site_exhausted c w patch _ ho ht hc] at h
        exact absurd h (by simp [Run.completed])
    | false =>
      cases hc : check_relative_jump patch.dst_jmp_patch patch.asm_wrapper with
      | true =>
        rw [activate_site_relative c w patch ho ht hc]
        simp only [Run.state, trap_fill_mem]
        refine ⟨fun hr => by rw [if_pos (by omega)], fun hr hj _ => ?_⟩
        rw [if_neg (by omega), create_jump_mem_of_out _ _ _ _ _ (by omega)]
      | false =>
        rw [activate_site_absolute c w patch ho ht hc]
        simp only [Run.state, trap_fill_mem]
        refine ⟨fun hr => by rw [if_pos (by omega)], fun hr hj _ => ?_⟩
        rw [if_neg (by omega), create_absolute_jump_mem_of_out _ _ _ _ (by omega)]
        rfl

/-- Every outcome of one iteration, with what it does to the descriptor. -/
theorem activate_site_cases (c : Consts) (w : World) (patch : patch_desc) :
    ((patch.dst_jmp_patch < w.desc.text_start ∨ patch.dst_jmp_patch > w.desc.text_end)
      ∧ activate_site c w patch = Run.abort "dst_jmp_patch outside text" w)
    ∨ (¬ (patch.dst_jmp_patch < w.desc.text_start ∨ patch.dst_jmp_patch > w.desc.text_end)
      ∧ w.desc.uses_trampoline_table = true
      ∧ check_trampoline_usage w.desc = some "trampoline space not enough"
      ∧ activate_site c w patch = Run.abort "trampoline space not enough" w)
    ∨ (¬ (patch.dst_jmp_patch < w.desc.text_start ∨ patch.dst_jmp_patch > w.desc.text_end)
      ∧ w.desc.uses_trampoline_table = true
      ∧ check_trampoline_usage w.desc = none
      ∧ ∃ m1 : Machine, activate_site c w patch
          = Run.done { desc := { w.desc with next_trampoline := w.desc.next_trampoline + 32 }
                       m := m1 })
    ∨ (¬ (patch.dst_jmp_patch < w.desc.text_start ∨ patch.dst_jmp_patch > w.desc.text_end)
      ∧ w.desc.uses_trampoline_table = false
      ∧ ∃ m1 : Machine, activate_site c w patch = Run.done { desc := w.desc, m := m1 }) := by
  by_cases ho : patch.dst_jmp_patch < w.desc.text_start ∨ patch.dst_jmp_patch > w.desc.text_end
  · exact Or.inl ⟨ho, activate_site_outside c w patch ho⟩
  · right
    cases ht : w.desc.uses_trampoline_table with
    | true =>
      rcases check_trampoline_usage_cases w.desc with hc | hc
      · exact Or.inr (Or.inl ⟨ho, rfl, hc, _, activate_site_trampoline c w patch ho ht hc⟩)
      · exact Or.inl ⟨ho, rfl, hc, activate_site_exhausted c w patch _ ho ht hc⟩
    | false =>
      right
      right
      refine ⟨ho, rfl, ?_⟩
      cases hc : check_relative_jump patch.dst_jmp_patch patch.asm_wrapper with
      | true => exact ⟨_, activate_site_relative c w patch ho ht hc⟩
      | false => exact ⟨_, activate_site_absolute c w patch ho ht hc⟩

/-- The bounds of the text segment do not change during activation. -/
theorem activate_site_text (c : Consts) (w w1 : World) (patch : patch_desc)
    (h : activate_site c w patch = Run.done w1) :
    w1.desc.text_start = w.desc.text_start ∧ w1.desc.text_end = w.desc.text_end := by
  rcases activate_site_cases c w patch with ⟨-, e⟩ | ⟨-, -, -, e⟩ | ⟨-, -, -, m1, e⟩ | ⟨-, -, m1, e⟩
  · rw [e] at h
    exact absurd h (by simp)
  · rw [e] at h
    exact absurd h (by simp)
  · rw [e] at h
    cases h
    exact ⟨rfl, rfl⟩
  · rw [e] at h
    cases h
    exact ⟨rfl, rfl⟩

theorem activate_loop_text (c : Consts) (items : List patch_desc) (w w1 : World)
    (h : activate_loop c items w = Run.done w1) :
    w1.desc.text_start = w.desc.text_start ∧ w1.desc.text_end = w.desc.text_end := by
  induction items generalizing w with
  | nil =>
    simp only [activate_loop] at h
    cases h
    exact ⟨rfl, rfl⟩
  | cons p rest ih =>
    simp only [activate_loop] at h
    cases hs : activate_site c w p with
    | abort msg s =>
      rw [hs] at h
      exact absurd h (by simp)
    | done w2 =>
      rw [hs] at h
      have h2 := activate_site_text c w w2 p hs
      have h3 := ih w2 h
      exact ⟨h3.1.trans h2.1, h3.2.trans h2.2⟩

/-- The loop aborts with the bounds message exactly when it reaches a site
outside `[text_start, text_end]`; the state is then the one the preceding
sites left. -/
theorem activate_loop_outside_iff (c : Consts) (items : List patch_desc) (w : World) :
    (activate_loop c items w).message = some "dst_jmp_patch outside text"
      ↔ ∃ (pre : List patch_desc) (p : patch_desc) (post : List patch_desc) (w1 : World),
          items = pre ++ p :: post
          ∧ activate_loop c pre w = Run.done w1
          ∧ (p.dst_jmp_patch < w.desc.text_start ∨ p.dst_jmp_patch > w.desc.text_end)
          ∧ activate_loop c items w = Run.abort "dst_jmp_patch outside text" w1 := by
  induction items generalizing w with
  | nil =>
    simp [activate_loop, Run.message]
  | cons p0 rest ih =>
    constructor
    · intro h
      simp only [activate_loop] at h
      rcases activate_site_cases c w p0 with ⟨ho, e⟩ | ⟨-, -, -, e⟩ | ⟨-, -, -, m1, e⟩
          | ⟨-, -, m1, e⟩
      · refine ⟨[], p0, rest, w, rfl, rfl, ho, ?_⟩
        simp only [activate_loop, e]
      · rw [e] at h
        simp only [Run.message] at h
        exact absurd (Option.some.inj h) (by decide)
      · rw [e] at h
        obtain ⟨pre, p, post, w1, h1, h2, h3, h4⟩ := (ih _).1 h
        refine ⟨p0 :: pre, p, post, w1, by rw [h1]; rfl, ?_, h3, ?_⟩
        · simp only [activate_loop, e]
          exact h2
        · simp only [activate_loop, e]
          exact h4
      · rw [e] at h
        obtain ⟨pre, p, post, w1, h1, h2, h3, h4⟩ := (ih _).1 h
        refine ⟨p0 :: pre, p, post, w1, by rw [h1]; rfl, ?_, h3, ?_⟩
        · simp only [activate_loop, e]
          exact h2
        · simp only [activate_loop, e]
          exact h4
    · rintro ⟨pre, p, post, w1, -, -, -, h4⟩
      rw [h4]
      rfl

/-! ### The paths through `activate_patches` -/

theorem activate_patches_empty (c : Consts) (env : Env) (w : World) (h0 : w.desc.count = 0) :
    activate_patches c env w = Run.done w := by
  unfold activate_patches
  rw [if_pos h0]

theorem activate_patches_unwritable (c : Consts) (env : Env) (w : World)
    (h0 : w.desc.count ≠ 0)
    (hm : env.mprotect_ok (first_page env w.desc) (protect_size env w.desc)
      (PROT_READ ||| PROT_WRITE ||| PROT_EXEC) = false) :
    activate_patches c env w
      = Run.abort "mprotect PROT_READ | PROT_WRITE | PROT_EXEC" (writable env w) := by
  unfold activate_patches
  rw [if_neg h0]
  simp only [first_page, protect_size] at hm
  simp only [mprotect_no_intercept, hm]
  rfl

theorem activate_patches_loop_abort (c : Consts) (env : Env) (w : World)
    (h0 : w.desc.count ≠ 0)
    (hm : env.mprotect_ok (first_page env w.desc) (protect_size env w.desc)
      (PROT_READ ||| PROT_WRITE ||| PROT_EXEC) = true)
    (msg : String) (s : World)
    (hl : activate_loop c w.desc.items (writable env w) = Run.abort msg s) :
    activate_patches c env w = Run.abort msg s := by
  unfold activate_patches
  rw [if_neg h0]
  simp only [first_page, protect_size] at hm
  simp only [writable, first_page, protect_size] at hl
  simp only [mprotect_no_intercept, hm, if_true, hl]

theorem activate_patches_loop_done (c : Consts) (env : Env) (w : World)
    (h0 : w.desc.count ≠ 0)
    (hm : env.mprotect_ok (first_page env w.desc) (protect_size env w.desc)
      (PROT_READ ||| PROT_WRITE ||| PROT_EXEC) = true)
    (w1 : World)
    (hl : activate_loop c w.desc.items (writable env w) = Run.done w1) :
    activate_patches c env w
      = if env.mprotect_ok (first_page env w.desc) (protect_size env w.desc)
            (PROT_READ ||| PROT_EXEC) = true then
          Run.done { w1 with m := w1.m.emit (Event.mprotect (first_page env w.desc)
            (protect_size env w.desc) (PROT_READ ||| PROT_EXEC)) }
        else
          Run.abort "mprotect PROT_READ | PROT_EXEC"
            { w1 with m := w1.m.emit (Event.mprotect (first_page env w.desc)
              (protect_size env w.desc) (PROT_READ ||| PROT_EXEC)) } := by
  unfold activate_patches
  rw [if_neg h0]
  simp only [first_page, protect_size] at hm
  simp only [writable, first_page, protect_size] at hl
  cases h2 : env.mprotect_ok (env.round_down_address w.desc.text_start)
      (to_uint64 (ptr_diff w.desc.text_end (env.round_down_address w.desc.text_start)))
      (PROT_READ ||| PROT_EXEC) <;>
    simp [mprotect_no_intercept, hm, hl, first_page, protect_size, h2]

/-! ### Sequencing of the activation loop -/

theorem activate_loop_append (c : Consts) (pre post : List patch_desc) (w : World) :
    activate_loop c (pre ++ post) w
      = match activate_loop c pre w with
        | Run.abort msg s => Run.abort msg s
        | Run.done w1 => activate_loop c post w1 := by
  induction pre generalizing w with
  | nil => rfl
  | cons p rest ih =>
    simp only [List.cons_append, activate_loop]
    cases activate_site c w p with
    | abort msg s => rfl
    | done w1 => exact ih w1

/-- A completed activation ran its loop to completion; the second `mprotect`
changes neither memory nor the descriptor. -/
theorem activate_patches_completed (c : Consts) (env : Env) (w : World)
    (h0 : w.desc.count ≠ 0) (h : (activate_patches c env w).completed = true) :
    ∃ w1 : World, activate_loop c w.desc.items (writable env w) = Run.done w1
      ∧ (activate_patches c env w).state.m.mem = w1.m.mem
      ∧ (activate_patches c env w).state.desc = w1.desc := by
  cases hm : env.mprotect_ok (first_page env w.desc) (protect_size env w.desc)
      (PROT_READ ||| PROT_WRITE ||| PROT_EXEC) with
  | false =>
    rw [activate_patches_unwritable c env w h0 hm] at h
    exact absurd h (by simp [Run.completed])
  | true =>
    cases hl : activate_loop c w.desc.items (writable env w) with
    | abort msg s =>
      rw [activate_patches_loop_abort c env w h0 hm msg s hl] at h
      exact absurd h (by simp [Run.completed])
    | done w1 =>
      refine ⟨w1, rfl, ?_, ?_⟩ <;>
      · rw [activate_patches_loop_done c env w h0 hm w1 hl]
        split <;> rfl

/-- How the loop moves the trampoline cursor. -/
theorem activate_loop_cursor (c : Consts) (items : List patch_desc) (w w1 : World)
    (h : activate_loop c items w = Run.done w1) :
    w1.desc.uses_trampoline_table = w.desc.uses_trampoline_table
    ∧ w1.desc.next_trampoline
        = if w.desc.uses_trampoline_table = true then w.desc.next_trampoline + 32 * items.length
          else w.desc.next_trampoline := by
  induction items generalizing w with
  | nil =>
    simp only [activate_loop] at h
    cases h
    simp
  | cons p rest ih =>
    simp only [activate_loop] at h
    rcases activate_site_cases c w p with ⟨-, e⟩ | ⟨-, -, -, e⟩ | ⟨-, ht, -, m1, e⟩
        | ⟨-, ht, m1, e⟩
    · rw [e] at h
      exact absurd h (by simp)
    · rw [e] at h
      exact absurd h (by simp)
    · rw [e] at h
      obtain ⟨h1, h2⟩ := ih _ h
      simp only [ht, if_true] at h1 h2 ⊢
      refine ⟨h1, ?_⟩
      rw [h2, List.length_cons]
      omega
    · rw [e] at h
      obtain ⟨h1, h2⟩ := ih _ h
      simp only [ht] at h1 h2 ⊢
      exact ⟨h1, by simpa using h2⟩

/-- A byte that holds the trap byte keeps it through the rest of the loop,
unless it lies in the jump word of a later site or among the trampoline
entries the loop writes. -/
theorem activate_loop_keeps_trap (c : Consts) (items : List patch_desc) (a : Nat) :
    ∀ (w w1 : World), activate_loop c items w = Run.done w1 →
      w.m.mem a = c.INT3_OPCODE % 256 →
      (∀ q ∈ items, ¬ (q.dst_jmp_patch ≤ a ∧ a < q.dst_jmp_patch + 4)) →
      (w.desc.uses_trampoline_table = true →
        ¬ (w.desc.next_trampoline ≤ a ∧ a < w.desc.next_trampoline + 32 * items.length)) →
      w1.m.mem a = c.INT3_OPCODE % 256 := by
  induction items with
  | nil =>
    intro w w1 h hv _ _
    simp only [activate_loop] at h
    cases h
    exact hv
  | cons p rest ih =>
    intro w w1 h hv hq ht
    simp only [activate_loop] at h
    cases hs : activate_site c w p with
    | abort msg s =>
      rw [hs] at h
      exact absurd h (by simp)
    | done w2 =>
      rw [hs] at h
      have hc : (activate_site c w p).completed = true := by rw [hs]; rfl
      have hmem := activate_site_mem c w p hc a
      rw [hs] at hmem
      simp only [Run.state] at hmem
      have hcur := activate_loop_cursor c [p] w w2 (by simp only [activate_loop, hs])
      simp only [List.length_singleton, Nat.mul_one] at hcur
      have hv2 : w2.m.mem a = c.INT3_OPCODE % 256 := by
        by_cases hr : p.dst_jmp_patch + c.JUMP_INS_SIZE ≤ a ∧ a < p.return_address
        · exact hmem.1 hr
        · rw [hmem.2 hr (hq p (List.mem_cons_self p rest)) ?_]
          · exact hv
          · intro hx
            have := ht hx.1
            simp only [List.length_cons] at this
            omega
      refine ih w2 w1 h hv2 (fun q hq2 => hq q (List.mem_cons_of_mem p hq2)) ?_
      intro hu
      rw [hcur.1] at hu
      have := ht hu
      simp only [List.length_cons] at this
      rw [hcur.2, if_pos hu]
      omega

/-! ### Trampoline reservations -/

/-- The check of `check_trampoline_usage` when the cursor is `32 * k` bytes into the table. -/
theorem check_trampoline_usage_at (desc : intercept_desc) (k : Nat)
    (ht : desc.uses_trampoline_table = true)
    (hn : desc.next_trampoline = desc.trampoline_table + 32 * k)
    (hk : 32 * k + 28 < 2 ^ 63) :
    check_trampoline_usage desc
      = if 32 * k + 28 ≥ desc.trampoline_table_size then some "trampoline space not enough"
        else none := by
  have hu : to_uint64 (ptr_diff desc.next_trampoline desc.trampoline_table) = 32 * k := by
    simp only [to_uint64, ptr_diff, to_int64, hn]
    omega
  have hm : (32 * k + TRAMPOLINE_SIZE) % 2 ^ 64 = 32 * k + 28 := by
    simp only [TRAMPOLINE_SIZE]
    omega
  simp only [check_trampoline_usage, ht, hu, hm]
  rfl

/-- With a table of `n * TRAMPOLINE_SIZE` bytes and the cursor `32 * k` bytes
in, `k < n`, the loop over at least `n - k` sites inside the text bounds
aborts with the exhaustion message at one of the first `n - k` sites. -/
theorem activate_loop_exhausts (c : Consts) (n : Nat) (items : List patch_desc) :
    ∀ (k : Nat) (w : World), k < n → n < 2 ^ 32 →
      w.desc.uses_trampoline_table = true →
      w.desc.trampoline_table_size = n * TRAMPOLINE_SIZE →
      w.desc.next_trampoline = w.desc.trampoline_table + 32 * k →
      n - k ≤ items.length →
      (∀ p ∈ items, ¬ (p.dst_jmp_patch < w.desc.text_start
        ∨ p.dst_jmp_patch > w.desc.text_end)) →
      ∃ (pre : List patch_desc) (p : patch_desc) (post : List patch_desc) (w1 : World),
        items = pre ++ p :: post
        ∧ k + pre.length < n
        ∧ activate_loop c pre w = Run.done w1
        ∧ activate_loop c items w = Run.abort "trampoline space not enough" w1 := by
  induction items with
  | nil =>
    intro k w hk _ _ _ _ hl _
    simp only [List.length_nil] at hl
    omega
  | cons p rest ih =>
    intro k w hk hn ht hs hx hl hb
    have hp := hb p (List.mem_cons_self p rest)
    have hc := check_trampoline_usage_at w.desc k ht hx (by omega)
    by_cases hfull : 32 * k + 28 ≥ w.desc.trampoline_table_size
    · rw [if_pos hfull] at hc
      refine ⟨[], p, rest, w, rfl, by simpa using hk, rfl, ?_⟩
      simp only [activate_loop, activate_site_exhausted c w p _ hp ht hc]
    · rw [if_neg hfull] at hc
      have hsite := activate_site_trampoline c w p hp ht hc
      generalize trap_fill _ _ _ _ = m1 at hsite
      simp only [hs, TRAMPOLINE_SIZE] at hfull
      obtain ⟨pre, q, post, w1, h1, h2, h3, h4⟩ := ih (k + 1)
        ⟨{ w.desc with next_trampoline := w.desc.next_trampoline + 32 }, m1⟩
        (by omega) hn ht hs
        (show w.desc.next_trampoline + 32 = w.desc.trampoline_table + 32 * (k + 1) by omega)
        (by simp only [List.length_cons] at hl; omega)
        (fun q hq => hb q (List.mem_cons_of_mem p hq))
      refine ⟨p :: pre, q, post, w1, by rw [h1]; rfl, ?_, ?_, ?_⟩
      · simp only [List.length_cons]
        omega
      · simp only [activate_loop, hsite]
        exact h3
      · simp only [activate_loop, hsite]
        exact h4

/-! ### The preparation pass -/

theorem create_wrapper_patch (g : Globals) (t : Template) (patch : patch_desc)
    (patch_addr dst : Nat) (m : Machine) :
    (create_wrapper g t patch patch_addr dst m).patch = { patch with asm_wrapper := dst } := by
  simp only [create_wrapper]
  split <;> rfl

theorem mark_jump_calls_append (a b : List Event) :
    mark_jump_calls (a ++ b) = mark_jump_calls a ++ mark_jump_calls b := by
  simp [mark_jump_calls, List.filterMap_append]

theorem mark_jump_calls_store32 (m : Machine) (a w : Nat) :
    mark_jump_calls (m.store32 a w).trace = mark_jump_calls m.trace := by
  simp [Machine.store32, mark_jump_calls, List.filterMap_append]

theorem mark_jump_calls_or32 (m : Machine) (a v : Nat) :
    mark_jump_calls (m.or32 a v).trace = mark_jump_calls m.trace :=
  mark_jump_calls_store32 m a _

theorem mark_jump_calls_memcpy (m : Machine) (d src n : Nat) :
    mark_jump_calls (m.memcpy d src n).trace = mark_jump_calls m.trace := by
  simp [Machine.memcpy, mark_jump_calls, List.filterMap_append]

theorem mark_jump_calls_movabs (dst loc : Nat) (m : Machine) :
    mark_jump_calls (create_movabs_p1 dst loc m).trace = mark_jump_calls m.trace := by
  simp only [create_movabs_p1, mark_jump_calls_or32]

theorem mark_jump_calls_create_jump (opcode frm tgt : Nat) (m : Machine) :
    mark_jump_calls (create_jump opcode frm tgt m).trace = mark_jump_calls m.trace := by
  simp only [create_jump, mark_jump_calls_or32, mark_jump_calls_store32]

/-- The function `create_wrapper` never calls `mark_jump`. -/
theorem mark_jump_calls_create_wrapper (g : Globals) (t : Template) (patch : patch_desc)
    (patch_addr dst : Nat) (m : Machine) :
    mark_jump_calls (create_wrapper g t patch patch_addr dst m).m.trace
      = mark_jump_calls m.trace := by
  simp only [create_wrapper]
  split
  · simp only [mark_jump_calls_create_jump, mark_jump_calls_movabs, mark_jump_calls_memcpy]
  · simp only [mark_jump_calls_movabs, mark_jump_calls_memcpy, Machine.emit,
      mark_jump_calls_append]
    simp [mark_jump_calls]

theorem create_patch_wrappers_site_short (c : Consts) (g : Globals) (t : Template)
    (desc : intercept_desc) (patch : patch_desc) (patch_i : Nat) (st : Prep)
    (h : c.SYSCALL_INS_SIZE < c.JUMP_INS_SIZE) :
    create_patch_wrappers_site c g t desc patch patch_i st
      = Run.abort "not enough space for patching around syscal"
          { items := st.items ++ [{ patch with
              dst_jmp_patch := patch.syscall_addr
              return_address := ptr_add patch.syscall_addr c.SYSCALL_INS_SIZE }]
            dst := st.dst
            m := { mem := st.m.mem
                   trace := st.m.trace ++ [Event.debug_dump (patching_line desc patch),
                     Event.intercept_log (snprintf 0x1000 (unintercepted_line desc patch)).1
                       (snprintf 0x1000 (unintercepted_line desc patch)).2] } } := by
  simp only [create_patch_wrappers_site, h, if_true, Machine.emit, List.append_assoc,
    List.singleton_append]
  rfl

theorem create_patch_wrappers_site_ok (c : Consts) (g : Globals) (t : Template)
    (desc : intercept_desc) (patch : patch_desc) (patch_i : Nat) (st : Prep)
    (h : ¬ c.SYSCALL_INS_SIZE < c.JUMP_INS_SIZE) :
    create_patch_wrappers_site c g t desc patch patch_i st
      = Run.done
          { items := st.items ++ [{ patch with
              dst_jmp_patch := patch.syscall_addr
              return_address := ptr_add patch.syscall_addr c.SYSCALL_INS_SIZE
              asm_wrapper := st.dst }]
            dst := (create_wrapper g t { patch with
                dst_jmp_patch := patch.syscall_addr
                return_address := ptr_add patch.syscall_addr c.SYSCALL_INS_SIZE }
              (desc.items_addr + patch_i * c.sizeof_patch_desc) st.dst
              ((st.m.emit (Event.debug_dump (patching_line desc patch))).emit
                (Event.mark_jump (ptr_add patch.syscall_addr c.SYSCALL_INS_SIZE)))).dst
            m := (create_wrapper g t { patch with
                dst_jmp_patch := patch.syscall_addr
                return_address := ptr_add patch.syscall_addr c.SYSCALL_INS_SIZE }
              (desc.items_addr + patch_i * c.sizeof_patch_desc) st.dst
              ((st.m.emit (Event.debug_dump (patching_line desc patch))).emit
                (Event.mark_jump (ptr_add patch.syscall_addr c.SYSCALL_INS_SIZE)))).m } := by
  simp only [create_patch_wrappers_site, h, if_false, create_wrapper_patch]

/-- With `SYSCALL_INS_SIZE >= JUMP_INS_SIZE` the loop never aborts. -/
theorem create_patch_wrappers_loop_completes (c : Consts) (g : Globals) (t : Template)
    (desc : intercept_desc) (h : ¬ c.SYSCALL_INS_SIZE < c.JUMP_INS_SIZE)
    (todo : List patch_desc) :
    ∀ (i : Nat) (st : Prep), (create_patch_wrappers_loop c g t desc todo i st).completed = true := by
  induction todo with
  | nil =>
    intro i st
    rfl
  | cons p rest ih =>
    intro i st
    simp only [create_patch_wrappers_loop, create_patch_wrappers_site_ok c g t desc p i st h]
    exact ih _ _

/-- A loop that completes over a non-empty list implies the size test passed. -/
theorem create_patch_wrappers_loop_sizes (c : Consts) (g : Globals) (t : Template)
    (desc : intercept_desc) (p : patch_desc) (rest : List patch_desc) (i : Nat) (st : Prep)
    (h : (create_patch_wrappers_loop c g t desc (p :: rest) i st).completed = true) :
    ¬ c.SYSCALL_INS_SIZE < c.JUMP_INS_SIZE := by
  intro hlt
  simp only [create_patch_wrappers_loop, create_patch_wrappers_site_short c g t desc p i st hlt,
    Run.completed] at h
  exact absurd h (by decide)

/-- The whole pass when the size test fails: it aborts at the first site. -/
theorem create_patch_wrappers_short (c : Consts) (g : Globals) (t : Template)
    (desc : intercept_desc) (dst : Nat) (m : Machine) (p : patch_desc)
    (rest : List patch_desc) (hitems : desc.items = p :: rest)
    (h : c.SYSCALL_INS_SIZE < c.JUMP_INS_SIZE) :
    create_patch_wrappers c g t desc dst m
      = Run.abort "not enough space for patching around syscal"
          { items := [{ p with
              dst_jmp_patch := p.syscall_addr
              return_address := ptr_add p.syscall_addr c.SYSCALL_INS_SIZE }]
            dst := dst
            m := { mem := m.mem
                   trace := m.trace ++ [Event.debug_dump (patching_line desc p),
                     Event.intercept_log (snprintf 0x1000 (unintercepted_line desc p)).1
                       (snprintf 0x1000 (unintercepted_line desc p)).2] } } := by
  simp only [create_patch_wrappers, hitems, create_patch_wrappers_loop,
    create_patch_wrappers_site_short c g t desc p 0 _ h, List.nil_append]

theorem snprintf_data (size : Nat) (text : String) :
    (snprintf size text).1.data = text.data.take (size - 1) := rfl

theorem snprintf_length (size : Nat) (text : String) :
    (snprintf size text).2 = text.length := rfl

theorem unintercepted_line_data (desc : intercept_desc) (patch : patch_desc) :
    (unintercepted_line desc patch).data
      = "unintercepted syscall at: ".data ++ (desc.path.data
          ++ (" 0x".data ++ ((hex patch.syscall_offset).data ++ "\n".data))) := by
  simp only [unintercepted_line, String.data_append, List.append_assoc]

theorem mark_jump_calls_site (m : Machine) (text : String) (r : Nat) :
    mark_jump_calls ((m.emit (Event.debug_dump text)).emit (Event.mark_jump r)).trace
      = mark_jump_calls m.trace ++ [r] := by
  simp [Machine.emit, mark_jump_calls, List.filterMap_append]

/-- What a completed run of the preparation loop leaves: the sites visited
before are kept, each site of `todo` is appended with its three fields set,
and `mark_jump` is called once per site with its return address. -/
theorem create_patch_wrappers_loop_post (c : Consts) (g : Globals) (t : Template)
    (desc : intercept_desc) (todo : List patch_desc) :
    ∀ (i : Nat) (st : Prep),
      (create_patch_wrappers_loop c g t desc todo i st).completed = true →
      (create_patch_wrappers_loop c g t desc todo i st).state.items.length
          = st.items.length + todo.length
      ∧ (∀ (k : Nat) (q : patch_desc), st.items[k]? = some q →
          (create_patch_wrappers_loop c g t desc todo i st).state.items[k]? = some q)
      ∧ (∀ (k : Nat) (p : patch_desc), todo[k]? = some p →
          (create_patch_wrappers_loop c g t desc todo i st).state.items[st.items.length + k]?
            = some { p with
                dst_jmp_patch := p.syscall_addr
                return_address := ptr_add p.syscall_addr c.SYSCALL_INS_SIZE
                asm_wrapper :=
                  (create_patch_wrappers_loop c g t desc (todo.take k) i st).state.dst })
      ∧ mark_jump_calls (create_patch_wrappers_loop c g t desc todo i st).state.m.trace
          = mark_jump_calls st.m.trace
            ++ todo.map (fun p => ptr_add p.syscall_addr c.SYSCALL_INS_SIZE) := by
  induction todo with
  | nil =>
    intro i st _
    refine ⟨rfl, fun k q hq => hq, fun k p hp => ?_, ?_⟩
    · simp at hp
    · simp [create_patch_wrappers_loop, Run.state]
  | cons p rest ih =>
    intro i st h
    have hge := create_patch_wrappers_loop_sizes c g t desc p rest i st h
    have hsite := create_patch_wrappers_site_ok c g t desc p i st hge
    have hstep : ∀ l : List patch_desc,
        create_patch_wrappers_loop c g t desc (p :: l) i st
          = create_patch_wrappers_loop c g t desc l (i + 1)
              (create_patch_wrappers_site c g t desc p i st).state := by
      intro l
      simp only [create_patch_wrappers_loop, hsite, Run.state]
    rw [hstep rest] at h ⊢
    obtain ⟨h1, h2, h3, h4⟩ := ih (i + 1) _ h
    have hitems : (create_patch_wrappers_site c g t desc p i st).state.items
        = st.items ++ [{ p with
            dst_jmp_patch := p.syscall_addr
            return_address := ptr_add p.syscall_addr c.SYSCALL_INS_SIZE
            asm_wrapper := st.dst }] := by
      rw [hsite]
      rfl
    have hlen : (create_patch_wrappers_site c g t desc p i st).state.items.length
        = st.items.length + 1 := by
      rw [hitems, List.length_append]
      rfl
    refine ⟨?_, ?_, ?_, ?_⟩
    · rw [h1, hlen, List.length_cons]
      omega
    · intro k q hq
      apply h2
      rw [hitems]
      have hk : k < st.items.length := by
        rcases Nat.lt_or_ge k st.items.length with hlt | hge2
        · exact hlt
        · rw [List.getElem?_eq_none hge2] at hq
          exact absurd hq (by simp)
      rw [List.getElem?_append_left hk]
      exact hq
    · intro k q hq
      cases k with
      | zero =>
        simp only [List.getElem?_cons_zero, Option.some.injEq] at hq
        subst hq
        apply h2
        rw [hitems, Nat.add_zero, List.getElem?_append_right (Nat.le_refl _), Nat.sub_self]
        rfl
      | succ k =>
        simp only [List.getElem?_cons_succ] at hq
        have h5 := h3 k q hq
        rw [hlen] at h5
        rw [List.take_succ_cons, hstep (rest.take k)]
        rw [show st.items.length + (k + 1) = st.items.length + 1 + k by omega]
        exact h5
    · have e : mark_jump_calls (create_patch_wrappers_site c g t desc p i st).state.m.trace
          = mark_jump_calls st.m.trace ++ [ptr_add p.syscall_addr c.SYSCALL_INS_SIZE] := by
        rw [hsite]
        exact (mark_jump_calls_create_wrapper _ _ _ _ _ _).trans (mark_jump_calls_site _ _ _)
      rw [h4, e, List.map_cons, List.append_assoc, List.singleton_append]

/-! ### OR into an immediate field -/

theorem or_div_of_lt (n a v : Nat) (h : v < 2 ^ n) : (a ||| v) / 2 ^ n = a / 2 ^ n := by
  apply Nat.eq_of_testBit_eq
  intro i
  rw [← Nat.shiftRight_eq_div_pow, ← Nat.shiftRight_eq_div_pow, Nat.testBit_shiftRight,
    Nat.testBit_shiftRight, Nat.testBit_or]
  have hv : v.testBit (n + i) = false :=
    Nat.testBit_lt_two_pow (Nat.lt_of_lt_of_le h (Nat.pow_le_pow_right (by decide) (by omega)))
  rw [hv, Bool.or_false]

theorem or_mod_of_lt (n a v : Nat) (h : v < 2 ^ n) : (a ||| v) % 2 ^ n = a % 2 ^ n ||| v := by
  apply Nat.eq_of_testBit_eq
  intro i
  rw [Nat.testBit_mod_two_pow, Nat.testBit_or, Nat.testBit_or, Nat.testBit_mod_two_pow]
  by_cases hi : i < n
  · simp [hi]
  · have hv : v.testBit i = false :=
      Nat.testBit_lt_two_pow (Nat.lt_of_lt_of_le h (Nat.pow_le_pow_right (by decide) (by omega)))
    simp [hi, hv]

theorem load32_lt (m : Machine) (a : Nat) : m.load32 a < 2 ^ 32 := by
  simp only [Machine.load32]
  omega

/-- OR of a 16-bit value into a word in memory. -/
theorem load32_or32_imm16 (m : Machine) (a v : Nat) (hv : v < 65536) :
    (m.or32 a v).load32 a = m.load32 a ||| v := by
  rw [load32_or32]
  exact Nat.mod_eq_of_lt (Nat.or_lt_two_pow (load32_lt m a)
    (Nat.lt_of_lt_of_le hv (by decide)))

theorem or16_div (a v : Nat) (hv : v < 65536) : (a ||| v) / 65536 = a / 65536 :=
  or_div_of_lt 16 a v hv

theorem or16_mod (a v : Nat) (hv : v < 65536) : (a ||| v) % 65536 = a % 65536 ||| v :=
  or_mod_of_lt 16 a v hv

/-- The four words of the region `create_movabs_p1` works on. -/
theorem create_movabs_p1_words (dst loc : Nat) (m : Machine) :
    (create_movabs_p1 dst loc m).load32 dst
        = m.load32 dst ||| loc % 2 ^ 64 / 2 ^ 32 % 65536
    ∧ (create_movabs_p1 dst loc m).load32 (dst + 4) = m.load32 (dst + 4)
    ∧ (create_movabs_p1 dst loc m).load32 (dst + 8)
        = m.load32 (dst + 8) ||| loc % 2 ^ 64 / 2 ^ 16 % 65536
    ∧ (create_movabs_p1 dst loc m).load32 (dst + 12)
        = m.load32 (dst + 12) ||| loc % 65536 := by
  have h0 : loc % 2 ^ 64 / 2 ^ 32 % 65536 < 65536 := Nat.mod_lt _ (by decide)
  have h1 : loc % 2 ^ 64 / 2 ^ 16 % 65536 < 65536 := Nat.mod_lt _ (by decide)
  have h2 : loc % 2 ^ 64 % 65536 < 65536 := Nat.mod_lt _ (by decide)
  have h3 : loc % 2 ^ 64 % 65536 = loc % 65536 := by omega
  simp only [create_movabs_p1, Nat.add_assoc, Nat.reduceAdd, and_FFFF,
    Nat.shiftRight_eq_div_pow]
  refine ⟨?_, ?_, ?_, ?_⟩
  · rw [load32_or32_of_disjoint _ _ _ _ (by omega), load32_or32_of_disjoint _ _ _ _ (by omega),
      load32_or32_imm16 _ _ _ h0]
  · rw [load32_or32_of_disjoint _ _ _ _ (by omega), load32_or32_of_disjoint _ _ _ _ (by omega),
      load32_or32_of_disjoint _ _ _ _ (by omega)]
  · rw [load32_or32_of_disjoint _ _ _ _ (by omega), load32_or32_imm16 _ _ _ h1,
      load32_or32_of_disjoint _ _ _ _ (by omega)]
  · rw [load32_or32_imm16 _ _ _ h2, load32_or32_of_disjoint _ _ _ _ (by omega),
      load32_or32_of_disjoint _ _ _ _ (by omega), h3]

theorem create_movabs_p1_mem_of_out (dst loc : Nat) (m : Machine) (x : Nat)
    (h : x < dst ∨ dst + 16 ≤ x) : (create_movabs_p1 dst loc m).mem x = m.mem x := by
  simp only [create_movabs_p1]
  rw [mem_or32_of_out _ _ _ _ (by omega), mem_or32_of_out _ _ _ _ (by omega),
    mem_or32_of_out _ _ _ _ (by omega)]

theorem create_movabs_p1_load32_of_disjoint (dst loc : Nat) (m : Machine) (b : Nat)
    (h : b + 4 ≤ dst ∨ dst + 16 ≤ b) :
    (create_movabs_p1 dst loc m).load32 b = m.load32 b := by
  simp only [Machine.load32]
  rw [create_movabs_p1_mem_of_out _ _ _ _ (by omega),
    create_movabs_p1_mem_of_out _ _ _ _ (by omega),
    create_movabs_p1_mem_of_out _ _ _ _ (by omega),
    create_movabs_p1_mem_of_out _ _ _ _ (by omega)]

/-- Only the low 48 bits of `loc` reach `create_movabs_p1`. -/
theorem create_movabs_p1_mod (dst loc : Nat) (m : Machine) :
    create_movabs_p1 dst (loc % 2 ^ 48) m = create_movabs_p1 dst loc m := by
  have h0 : loc % 2 ^ 48 % 2 ^ 64 / 2 ^ 32 % 65536 = loc % 2 ^ 64 / 2 ^ 32 % 65536 := by omega
  have h1 : loc % 2 ^ 48 % 2 ^ 64 / 2 ^ 16 % 65536 = loc % 2 ^ 64 / 2 ^ 16 % 65536 := by omega
  have h2 : loc % 2 ^ 48 % 2 ^ 64 % 65536 = loc % 2 ^ 64 % 65536 := by omega
  simp only [create_movabs_p1, and_FFFF, Nat.shiftRight_eq_div_pow, h0, h1, h2]

/-! ### Bytes and words -/

theorem store32_mem_lt (m : Machine) (a w x : Nat) (h : m.mem x < 256 ∨ (a ≤ x ∧ x < a + 4)) :
    (m.store32 a w).mem x < 256 := by
  simp only [Machine.store32]
  split
  · exact Nat.mod_lt _ (by decide)
  · split
    · exact Nat.mod_lt _ (by decide)
    · split
      · exact Nat.mod_lt _ (by decide)
      · split
        · exact Nat.mod_lt _ (by decide)
        · rcases h with h | h
          · exact h
          · omega

theorem or32_mem_lt (m : Machine) (a v x : Nat) (h : m.mem x < 256 ∨ (a ≤ x ∧ x < a + 4)) :
    (m.or32 a v).mem x < 256 :=
  store32_mem_lt m a _ x h

theorem create_movabs_p1_mem_lt (dst loc : Nat) (m : Machine) (x : Nat) (h : m.mem x < 256) :
    (create_movabs_p1 dst loc m).mem x < 256 := by
  simp only [create_movabs_p1]
  exact or32_mem_lt _ _ _ _ (Or.inl (or32_mem_lt _ _ _ _ (Or.inl (or32_mem_lt _ _ _ _
    (Or.inl h)))))

theorem create_absolute_jumptr_mem_lt (frm tgt : Nat) (m : Machine) (x : Nat)
    (h : m.mem x < 256 ∨ (frm ≤ x ∧ x < frm + 32)) :
    (create_absolute_jumptr frm tgt m).2.mem x < 256 := by
  simp only [create_absolute_jumptr]
  by_cases h0 : m.mem x < 256 ∨ (frm ≤ x ∧ x < frm + 4)
  · iterate 10 apply store32_mem_lt _ _ _ _ (Or.inl ?_)
    exact store32_mem_lt _ _ _ _ h0
  by_cases h1 : frm + 4 ≤ x ∧ x < frm + 4 + 4
  · iterate 8 apply store32_mem_lt _ _ _ _ (Or.inl ?_)
    exact store32_mem_lt _ _ _ _ (Or.inr h1)
  by_cases h2 : frm + 4 + 4 ≤ x ∧ x < frm + 4 + 4 + 4
  · iterate 7 apply store32_mem_lt _ _ _ _ (Or.inl ?_)
    exact store32_mem_lt _ _ _ _ (Or.inr h2)
  by_cases h3 : frm + 4 + 4 + 4 ≤ x ∧ x < frm + 4 + 4 + 4 + 4
  · iterate 5 apply store32_mem_lt _ _ _ _ (Or.inl ?_)
    exact store32_mem_lt _ _ _ _ (Or.inr h3)
  by_cases h4 : frm + 4 + 4 + 4 + 4 ≤ x ∧ x < frm + 4 + 4 + 4 + 4 + 4
  · iterate 3 apply store32_mem_lt _ _ _ _ (Or.inl ?_)
    exact store32_mem_lt _ _ _ _ (Or.inr h4)
  by_cases h5 : frm + 4 + 4 + 4 + 4 + 4 ≤ x ∧ x < frm + 4 + 4 + 4 + 4 + 4 + 4
  · iterate 2 apply store32_mem_lt _ _ _ _ (Or.inl ?_)
    exact store32_mem_lt _ _ _ _ (Or.inr h5)
  by_cases h6 : frm + 4 + 4 + 4 + 4 + 4 + 4 ≤ x ∧ x < frm + 4 + 4 + 4 + 4 + 4 + 4 + 4
  · iterate 1 apply store32_mem_lt _ _ _ _ (Or.inl ?_)
    exact store32_mem_lt _ _ _ _ (Or.inr h6)
  exact store32_mem_lt _ _ _ _ (Or.inr (by omega))

/-- Two memories holding bytes agree on a word's four bytes when the word agrees. -/
theorem bytes_eq_of_load32_eq (m1 m2 : Machine) (a : Nat) (hl : m1.load32 a = m2.load32 a)
    (hb1 : ∀ x, a ≤ x → x < a + 4 → m1.mem x < 256)
    (hb2 : ∀ x, a ≤ x → x < a + 4 → m2.mem x < 256) (x : Nat) (h1 : a ≤ x) (h2 : x < a + 4) :
    m1.mem x = m2.mem x := by
  have p0 := hb1 a (by omega) (by omega)
  have p1 := hb1 (a + 1) (by omega) (by omega)
  have p2 := hb1 (a + 2) (by omega) (by omega)
  have p3 := hb1 (a + 3) (by omega) (by omega)
  have q0 := hb2 a (by omega) (by omega)
  have q1 := hb2 (a + 1) (by omega) (by omega)
  have q2 := hb2 (a + 2) (by omega) (by omega)
  have q3 := hb2 (a + 3) (by omega) (by omega)
  simp only [Machine.load32] at hl
  have hx : x = a ∨ x = a + 1 ∨ x = a + 2 ∨ x = a + 3 := by omega
  rcases hx with rfl | rfl | rfl | rfl <;> omega

/-- OR of a 16-bit chunk into an instruction word with an empty immediate. -/
theorem or_chunk (k c : Nat) (hc : c < 65536) : 65536 * k ||| c = 65536 * k + c :=
  or_low 16 k c hc

/-- The bytes `create_absolute_jumptr(p, 0)` followed by `create_movabs_p1(p + 4, tgt)`
leaves are those of `create_absolute_jumptr(p, tgt)`. -/
theorem movabs_after_jumptr_mem (p tgt : Nat) (m : Machine) (x : Nat) :
    (create_movabs_p1 (p + 4) tgt (create_absolute_jumptr p 0 m).2).mem x
      = (create_absolute_jumptr p tgt m).2.mem x := by
  by_cases hx : x < p ∨ p + 32 ≤ x
  · by_cases hx4 : x < p + 4 ∨ p + 4 + 16 ≤ x
    · rw [create_movabs_p1_mem_of_out _ _ _ _ hx4, create_absolute_jumptr_mem_of_out _ _ _ _ hx,
        create_absolute_jumptr_mem_of_out _ _ _ _ hx]
    · omega
  · obtain ⟨⟨a0, a4, a8, a12⟩, a16, a20, a24, a28⟩ := jumptr_code p 0 m
    obtain ⟨⟨b0, b4, b8, b12⟩, b16, b20, b24, b28⟩ := jumptr_code p tgt m
    have hw := create_movabs_p1_words (p + 4) tgt (create_absolute_jumptr p 0 m).2
    simp only [Nat.add_assoc, Nat.reduceAdd] at hw
    obtain ⟨w4, w8, w12, w16⟩ := hw
    have c0 : tgt % 2 ^ 64 / 2 ^ 32 % 65536 < 65536 := Nat.mod_lt _ (by decide)
    have c1 : tgt % 2 ^ 64 / 2 ^ 16 % 65536 < 65536 := Nat.mod_lt _ (by decide)
    have c2 : tgt % 65536 < 65536 := Nat.mod_lt _ (by decide)
    have e0 : ∀ c, c < 65536 → 970981376 ||| c = 970981376 + c := fun c hc => by
      have h := or_chunk 0x39E0 c hc
      norm_num at h
      exact h
    have e1 : ∀ c, c < 65536 → 1710161920 ||| c = 1710161920 + c := fun c hc => by
      have h := or_chunk 0x65EF c hc
      norm_num at h
      exact h
    have e2 : ∀ c, c < 65536 → 1643053056 ||| c = 1643053056 + c := fun c hc => by
      have h := or_chunk 0x61EF c hc
      norm_num at h
      exact h
    norm_num at a4 a12 a16
    rw [a4, e0 _ c0] at w4
    rw [a8] at w8
    rw [a12, e1 _ c1] at w12
    rw [a16, e2 _ c2] at w16
    have lt1 : ∀ y, (create_movabs_p1 (p + 4) tgt (create_absolute_jumptr p 0 m).2).mem y < 256
        ∨ ¬ (p ≤ y ∧ y < p + 32) := by
      intro y
      by_cases hy : p ≤ y ∧ y < p + 32
      · exact Or.inl (create_movabs_p1_mem_lt _ _ _ _
          (create_absolute_jumptr_mem_lt _ _ _ _ (Or.inr hy)))
      · exact Or.inr hy
    have lt2 : ∀ y, (create_absolute_jumptr p tgt m).2.mem y < 256
        ∨ ¬ (p ≤ y ∧ y < p + 32) := by
      intro y
      by_cases hy : p ≤ y ∧ y < p + 32
      · exact Or.inl (create_absolute_jumptr_mem_lt _ _ _ _ (Or.inr hy))
      · exact Or.inr hy
    have word : ∀ a, p ≤ a → a + 4 ≤ p + 32 →
        (create_movabs_p1 (p + 4) tgt (create_absolute_jumptr p 0 m).2).load32 a
          = (create_absolute_jumptr p tgt m).2.load32 a →
        a ≤ x → x < a + 4 →
        (create_movabs_p1 (p + 4) tgt (create_absolute_jumptr p 0 m).2).mem x
          = (create_absolute_jumptr p tgt m).2.mem x := by
      intro a ha1 ha2 hl hx1 hx2
      refine bytes_eq_of_load32_eq _ _ a hl ?_ ?_ x hx1 hx2
      · intro y hy1 hy2
        rcases lt1 y with h | h
        · exact h
        · omega
      · intro y hy1 hy2
        rcases lt2 y with h | h
        · exact h
        · omega
    have hcase : x < p + 4 ∨ (p + 4 ≤ x ∧ x < p + 8) ∨ (p + 8 ≤ x ∧ x < p + 12)
        ∨ (p + 12 ≤ x ∧ x < p + 16) ∨ (p + 16 ≤ x ∧ x < p + 20) ∨ (p + 20 ≤ x ∧ x < p + 24)
        ∨ (p + 24 ≤ x ∧ x < p + 28) ∨ (p + 28 ≤ x) := by omega
    rcases hcase with h | h | h | h | h | h | h | h
    · refine word p (by omega) (by omega) ?_ (by omega) (by omega)
      rw [create_movabs_p1_load32_of_disjoint _ _ _ _ (by omega), a0, b0]
    · refine word (p + 4) (by omega) (by omega) ?_ (by omega) (by omega)
      rw [w4, b4]
    · refine word (p + 8) (by omega) (by omega) ?_ (by omega) (by omega)
      rw [w8, b8]
    · refine word (p + 12) (by omega) (by omega) ?_ (by omega) (by omega)
      rw [w12, b12]
    · refine word (p + 16) (by omega) (by omega) ?_ (by omega) (by omega)
      rw [w16, b16]
    · refine word (p + 20) (by omega) (by omega) ?_ (by omega) (by omega)
      rw [create_movabs_p1_load32_of_disjoint _ _ _ _ (by omega), a20, b20]
    · refine word (p + 24) (by omega) (by omega) ?_ (by omega) (by omega)
      rw [create_movabs_p1_load32_of_disjoint _ _ _ _ (by omega), a24, b24]
    · refine word (p + 28) (by omega) (by omega) ?_ (by omega) (by omega)
      rw [create_movabs_p1_load32_of_disjoint _ _ _ _ (by omega), a28, b28]

/-- An action that writes no memory does not change what `create_movabs_p1` leaves. -/
theorem create_movabs_p1_emit (dst loc : Nat) (m : Machine) (e : Event) :
    (create_movabs_p1 dst loc (m.emit e)).mem = (create_movabs_p1 dst loc m).mem := by
  simp only [create_movabs_p1, Machine.or32, Machine.store32, Machine.load32, Machine.emit]

/-! ### The branch word of `create_jump` -/

/-- The word `create_jump` leaves is an I-form branch; it reaches `to` when the
displacement fits the 26-bit field. -/
theorem create_jump_branch (opcode frm tgt : Nat) (m : Machine)
    (hf : frm < 2 ^ 64) (ht : tgt < 2 ^ 64) (haf : frm % 4 = 0) (hat : tgt % 4 = 0)
    (hc : -33554432 ≤ ptr_diff tgt frm ∧ ptr_diff tgt frm ≤ 33554431) :
    ((create_jump opcode frm tgt m).load32 frm) >>> 26 = 18
    ∧ (((create_jump opcode frm tgt m).load32 frm) >>> 1) &&& 1 = 0
    ∧ ((create_jump opcode frm tgt m).load32 frm) &&& 1 = 0
    ∧ branch_target frm ((create_jump opcode frm tgt m).load32 frm) = some tgt := by
  have hw := create_jump_word opcode frm tgt m
  generalize (create_jump opcode frm tgt m).load32 frm = w at hw
  have hd : ptr_diff tgt frm = to_int64 ((tgt : Int) - (frm : Int)) := rfl
  generalize ptr_diff tgt frm = d at hc hw hd
  simp only [to_int64] at hd
  have h32 : to_int32 d = d := by simp only [to_int32]; omega
  rw [h32] at hw
  have hu : ((to_uint32 d : Nat) : Int) = d % 4294967296 := by
    simp only [to_uint32]; omega
  generalize to_uint32 d = u at hw hu
  have hop : w >>> 26 = 18 := by rw [Nat.shiftRight_eq_div_pow]; omega
  have haa : (w >>> 1) &&& 1 = 0 := by rw [and_1, Nat.shiftRight_eq_div_pow]; omega
  have hlk : w &&& 1 = 0 := by rw [and_1]; omega
  have htg : to_uint64 ((frm : Int) + sign_extend 26 (w &&& 0x3FFFFFC)) = tgt := by
    simp only [to_uint64, sign_extend, and_3FFFFFC]
    split <;> omega
  refine ⟨hop, haa, hlk, ?_⟩
  simp only [branch_target, hop, haa, if_true]
  simp [htg]

/-! ### The two ways `create_wrapper` ends -/

theorem return_slot_eq (g : Globals) (dst : Nat) (hsz : 28 ≤ g.asm_wrapper_tmpl_size)
    (hw : dst + g.asm_wrapper_tmpl_size ≤ 2 ^ 64) :
    return_slot g dst = dst + g.asm_wrapper_tmpl_size - 28 := by
  simp only [return_slot, ptr_add, to_uint64]
  omega

theorem create_wrapper_short (g : Globals) (t : Template) (patch : patch_desc)
    (patch_addr dst : Nat) (m : Machine)
    (h : check_relative_jump (return_slot g dst) patch.return_address = true) :
    create_wrapper g t patch patch_addr dst m
      = { patch := { patch with asm_wrapper := dst }
          dst := return_slot g dst + 4
          m := create_jump 1 (return_slot g dst) patch.return_address
            (wrapper_body g t patch_addr dst m) } := by
  simp only [return_slot] at h
  simp only [create_wrapper, wrapper_body, return_slot, h, if_true]

theorem create_wrapper_long (g : Globals) (t : Template) (patch : patch_desc)
    (patch_addr dst : Nat) (m : Machine)
    (h : check_relative_jump (return_slot g dst) patch.return_address = false) :
    create_wrapper g t patch patch_addr dst m
      = { patch := { patch with asm_wrapper := dst }
          dst := return_slot g dst + 7 * 4
          m := create_movabs_p1 (return_slot g dst) patch.return_address
            (debug_dump "Check relative NEED A LONG JUMP => TOC?!\n"
              (wrapper_body g t patch_addr dst m)) } := by
  simp only [return_slot] at h
  simp only [create_wrapper, wrapper_body, return_slot, h]
  rfl

/-! ### The stores of the writers, in order -/

theorem store32_trace (m : Machine) (a w : Nat) :
    (m.store32 a w).trace = m.trace ++ [Event.store32 a (w % 2 ^ 32)] := rfl

theorem or32_trace (m : Machine) (a v : Nat) :
    (m.or32 a v).trace = m.trace ++ [Event.store32 a ((m.load32 a ||| v) % 2 ^ 32)] := rfl

/-- The two stores of `create_jump`. -/
theorem create_jump_trace (opcode frm tgt : Nat) (m : Machine) :
    (create_jump opcode frm tgt m).trace
      = m.trace ++ [Event.store32 frm 0x48000000,
          Event.store32 frm
            (0x48000000 + to_uint32 (to_int32 (ptr_diff tgt frm)) / 4 % 16777216 * 4)] := by
  have hw := create_jump_word opcode frm tgt m
  simp only [create_jump, load32_or32] at hw
  simp only [create_jump, or32_trace, store32_trace, hw, List.append_assoc]
  rfl

/-- The eleven stores of `create_absolute_jumptr`. -/
theorem create_absolute_jumptr_trace (frm tgt : Nat) (m : Machine) :
    (create_absolute_jumptr frm tgt m).2.trace
      = m.trace ++ [Event.store32 frm 0xf9e1ffe0,
          Event.store32 (frm + 4) 0x39E00000,
          Event.store32 (frm + 4) (0x39E00000 + tgt % 2 ^ 64 / 2 ^ 32 % 65536),
          Event.store32 (frm + 8) 0x79EF07C6,
          Event.store32 (frm + 12) 0x65EF0000,
          Event.store32 (frm + 12) (0x65EF0000 + tgt % 2 ^ 64 / 2 ^ 16 % 65536),
          Event.store32 (frm + 16) 0x61EF0000,
          Event.store32 (frm + 16) (0x61EF0000 + tgt % 65536),
          Event.store32 (frm + 20) 0x7de903a6,
          Event.store32 (frm + 24) 0xe9e1ffe0,
          Event.store32 (frm + 28) 0x4e800420] := by
  have e1 := or_imm16 0x39E0 ((tgt % 2 ^ 64) >>> 32)
  have e2 := or_imm16 0x65EF ((tgt % 2 ^ 64) >>> 16)
  have e3 := or_imm16 0x61EF (tgt % 2 ^ 64)
  simp only [Nat.shiftRight_eq_div_pow] at e1 e2
  norm_num at e1 e2 e3
  have c0 : tgt % 2 ^ 64 / 2 ^ 32 % 65536 < 65536 := Nat.mod_lt _ (by decide)
  have c1 : tgt % 2 ^ 64 / 2 ^ 16 % 65536 < 65536 := Nat.mod_lt _ (by decide)
  have c2 : tgt % 65536 < 65536 := Nat.mod_lt _ (by decide)
  have f1 : (970981376 + tgt % 18446744073709551616 / 4294967296 % 65536) % 4294967296
      = 970981376 + tgt % 18446744073709551616 / 4294967296 % 65536 := by omega
  have f2 : (1710161920 + tgt % 18446744073709551616 / 65536 % 65536) % 4294967296
      = 1710161920 + tgt % 18446744073709551616 / 65536 % 65536 := by omega
  have f3 : (1643053056 + tgt % 65536) % 4294967296 = 1643053056 + tgt % 65536 := by omega
  simp only [create_absolute_jumptr, or32_trace, store32_trace, load32_store32,
    List.append_assoc, List.cons_append, List.nil_append, Nat.add_assoc, Nat.reduceAdd,
    Nat.shiftRight_eq_div_pow]
  norm_num
  simp only [e1, e2, e3, f1, f2, f3]
  trivial

theorem create_absolute_jump_trace (frm tgt : Nat) (m : Machine) :
    (create_absolute_jump frm tgt m).2.trace
      = m.trace ++ [Event.store32 frm 0x48000002,
          Event.store32 frm ((create_absolute_jump frm tgt m).2.load32 frm)] := by
  simp only [create_absolute_jump, load32_or32, or32_trace, store32_trace, List.append_assoc]
  rfl

theorem trap_fill_trace (int3 : Nat) (n byte : Nat) (m : Machine) :
    (trap_fill int3 n byte m).trace
      = m.trace ++ (List.range n).map (fun k => Event.store8 (byte + k) (int3 % 256)) := by
  induction n generalizing byte m with
  | zero => simp [trap_fill]
  | succ n ih =>
    simp only [trap_fill, ih, Machine.store8, List.range_succ_eq_map, List.map_cons,
      List.map_map, List.append_assoc, List.singleton_append, Nat.add_zero]
    congr 2
    apply List.map_congr_left
    intro k _
    simp only [Function.comp, Nat.succ_eq_add_one]
    congr 1
    omega

/-- The two stores of `create_absolute_jump`. -/
theorem create_absolute_jump_stores (frm tgt : Nat) (m : Machine) :
    (create_absolute_jump frm tgt m).2.trace
      = m.trace ++ [Event.store32 frm 0x48000002,
          Event.store32 frm (0x48000002 ||| (tgt % 2 ^ 64 &&& 0x3FFFFFC))] := by
  have hv : tgt % 2 ^ 64 &&& 0x3FFFFFC < 2 ^ 32 := by
    rw [and_3FFFFFC]
    omega
  have hlt : 0x48000002 ||| (tgt % 2 ^ 64 &&& 0x3FFFFFC) < 2 ^ 32 :=
    Nat.or_lt_two_pow (by decide) hv
  simp only [create_absolute_jump, or32_trace, store32_trace, load32_store32, List.append_assoc]
  rw [show (0x48000002 : Nat) % 2 ^ 32 = 0x48000002 from by decide, Nat.mod_eq_of_lt hlt]
  rfl

/-- The actions of one completed iteration of the activation loop, in order:
the stores of the branch (and of the trampoline entry), then the trap fill. -/
theorem activate_site_trace (c : Consts) (w w1 : World) (patch : patch_desc)
    (h : activate_site c w patch = Run.done w1) :
    ∃ A : List Event,
      w1.m.trace = w.m.trace ++ A
        ++ (List.range (patch.return_address - (patch.dst_jmp_patch + c.JUMP_INS_SIZE))).map
            (fun k => Event.store8 (patch.dst_jmp_patch + c.JUMP_INS_SIZE + k)
              (c.INT3_OPCODE % 256))
      ∧ ((w.desc.uses_trampoline_table = true
          ∧ A = [Event.store32 patch.dst_jmp_patch 0x48000000,
              Event.store32 patch.dst_jmp_patch
                (0x48000000 + to_uint32 (to_int32
                  (ptr_diff w.desc.next_trampoline patch.dst_jmp_patch)) / 4 % 16777216 * 4),
              Event.store32 w.desc.next_trampoline 0xf9e1ffe0,
              Event.store32 (w.desc.next_trampoline + 4) 0x39E00000,
              Event.store32 (w.desc.next_trampoline + 4)
                (0x39E00000 + patch.asm_wrapper % 2 ^ 64 / 2 ^ 32 % 65536),
              Event.store32 (w.desc.next_trampoline + 8) 0x79EF07C6,
              Event.store32 (w.desc.next_trampoline + 12) 0x65EF0000,
              Event.store32 (w.desc.next_trampoline + 12)
                (0x65EF0000 + patch.asm_wrapper % 2 ^ 64 / 2 ^ 16 % 65536),
              Event.store32 (w.desc.next_trampoline + 16) 0x61EF0000,
              Event.store32 (w.desc.next_trampoline + 16)
                (0x61EF0000 + patch.asm_wrapper % 65536),
              Event.store32 (w.desc.next_trampoline + 20) 0x7de903a6,
              Event.store32 (w.desc.next_trampoline + 24) 0xe9e1ffe0,
              Event.store32 (w.desc.next_trampoline + 28) 0x4e800420])
        ∨ (w.desc.uses_trampoline_table = false
          ∧ check_relative_jump patch.dst_jmp_patch patch.asm_wrapper = true
          ∧ A = [Event.store32 patch.dst_jmp_patch 0x48000000,
              Event.store32 patch.dst_jmp_patch
                (0x48000000 + to_uint32 (to_int32
                  (ptr_diff patch.asm_wrapper patch.dst_jmp_patch)) / 4 % 16777216 * 4)])
        ∨ (w.desc.uses_trampoline_table = false
          ∧ check_relative_jump patch.dst_jmp_patch patch.asm_wrapper = false
          ∧ A = [Event.printf ("Without trampoline table " ++ hex patch.dst_jmp_patch ++ " - "
                  ++ hex patch.asm_wrapper ++ " \n"),
              Event.store32 patch.dst_jmp_patch 0x48000002,
              Event.store32 patch.dst_jmp_patch
                (0x48000002 ||| (patch.asm_wrapper % 2 ^ 64 &&& 0x3FFFFFC))])) := by
  by_cases ho : patch.dst_jmp_patch < w.desc.text_start ∨ patch.dst_jmp_patch > w.desc.text_end
  · rw [activate_site_outside c w patch ho] at h
    exact absurd h (by simp)
  cases ht : w.desc.uses_trampoline_table with
  | true =>
    rcases check_trampoline_usage_cases w.desc with hc | hc
    · rw [activate_site_trampoline c w patch ho ht hc] at h
      cases h
      refine ⟨_, ?_, Or.inl ⟨rfl, rfl⟩⟩
      simp only [trap_fill_trace, create_absolute_jumptr_trace, create_jump_trace,
        List.append_assoc, List.cons_append, List.nil_append]
    · rw [activate_site_exhausted c w patch _ ho ht hc] at h
      exact absurd h (by simp)
  | false =>
    cases hc : check_relative_jump patch.dst_jmp_patch patch.asm_wrapper with
    | true =>
      rw [activate_site_relative c w patch ho ht hc] at h
      cases h
      refine ⟨_, ?_, Or.inr (Or.inl ⟨rfl, rfl, rfl⟩)⟩
      simp only [trap_fill_trace, create_jump_trace, List.append_assoc, List.cons_append,
        List.nil_append]
    | false =>
      rw [activate_site_absolute c w patch ho ht hc] at h
      cases h
      refine ⟨_, ?_, Or.inr (Or.inr ⟨rfl, rfl, rfl⟩)⟩
      simp only [trap_fill_trace, create_absolute_jump_stores, Machine.emit, List.append_assoc,
        List.cons_append, List.nil_append]

/-- The branch phase of an iteration stores no single byte and changes no
protection; the trap fill changes no protection. -/
theorem activate_site_trace_kinds (c : Consts) (w w1 : World) (patch : patch_desc)
    (h : activate_site c w patch = Run.done w1) :
    ∃ A : List Event,
      w1.m.trace = w.m.trace ++ A
        ++ (List.range (patch.return_address - (patch.dst_jmp_patch + c.JUMP_INS_SIZE))).map
            (fun k => Event.store8 (patch.dst_jmp_patch + c.JUMP_INS_SIZE + k)
              (c.INT3_OPCODE % 256))
      ∧ (∀ e ∈ A, e.is_store8 = false ∧ e.is_mprotect = false)
      ∧ (∃ W : Nat, Event.store32 patch.dst_jmp_patch W ∈ A ∧ W >>> 26 = 18) := by
  obtain ⟨A, hA, hk⟩ := activate_site_trace c w w1 patch h
  refine ⟨A, hA, ?_, ?_⟩
  · rcases hk with ⟨-, rfl⟩ | ⟨-, -, rfl⟩ | ⟨-, -, rfl⟩ <;>
    · intro e he
      simp only [List.mem_cons, List.mem_singleton, List.not_mem_nil, or_false] at he
      rcases he with rfl | rfl | rfl | rfl | rfl | rfl | rfl | rfl | rfl | rfl | rfl | rfl | rfl
        <;> exact ⟨rfl, rfl⟩
  · rcases hk with ⟨-, rfl⟩ | ⟨-, -, rfl⟩ | ⟨-, -, rfl⟩
    · refine ⟨_, List.mem_cons_of_mem _ (List.mem_cons_self _ _), ?_⟩
      rw [Nat.shiftRight_eq_div_pow]
      omega
    · refine ⟨_, List.mem_cons_of_mem _ (List.mem_cons_self _ _), ?_⟩
      rw [Nat.shiftRight_eq_div_pow]
      omega
    · refine ⟨_, List.mem_cons_of_mem _ (List.mem_cons_of_mem _ (List.mem_cons_self _ _)), ?_⟩
      have hv : patch.asm_wrapper % 2 ^ 64 &&& 0x3FFFFFC < 2 ^ 26 := by
        rw [and_3FFFFFC]
        omega
      rw [Nat.shiftRight_eq_div_pow, or_div_of_lt 26 _ _ hv]
      decide

theorem fill_no_mprotect (int3 n byte : Nat) :
    ∀ e ∈ (List.range n).map (fun k => Event.store8 (byte + k) (int3 % 256)),
      e.is_mprotect = false := by
  intro e he
  simp only [List.mem_map] at he
  obtain ⟨k, -, rfl⟩ := he
  rfl

/-- The loop of `activate_patches` changes no protection. -/
theorem activate_loop_trace (c : Consts) (items : List patch_desc) (w w1 : World)
    (h : activate_loop c items w = Run.done w1) :
    ∃ mid : List Event, w1.m.trace = w.m.trace ++ mid ∧ ∀ e ∈ mid, e.is_mprotect = false := by
  induction items generalizing w with
  | nil =>
    simp only [activate_loop] at h
    cases h
    exact ⟨[], by simp, by simp⟩
  | cons p rest ih =>
    simp only [activate_loop] at h
    cases hs : activate_site c w p with
    | abort msg s =>
      rw [hs] at h
      exact absurd h (by simp)
    | done w0 =>
      rw [hs] at h
      obtain ⟨A, hA, hk, -⟩ := activate_site_trace_kinds c w w0 p hs
      obtain ⟨mid, hmid, hm⟩ := ih w0 h
      refine ⟨A ++ (List.range (p.return_address - (p.dst_jmp_patch + c.JUMP_INS_SIZE))).map
            (fun k => Event.store8 (p.dst_jmp_patch + c.JUMP_INS_SIZE + k)
              (c.INT3_OPCODE % 256)) ++ mid, ?_, ?_⟩
      · rw [hmid, hA]
        simp only [List.append_assoc]
      · intro e he
        simp only [List.mem_append] at he
        rcases he with (he | he) | he
        · exact (hk e he).2
        · exact fill_no_mprotect _ _ _ e he
        · exact hm e he

/-- Splitting a completed loop at one site. -/
theorem activate_loop_split (c : Consts) (pre post : List patch_desc) (patch : patch_desc)
    (w wend : World) (h : activate_loop c (pre ++ patch :: post) w = Run.done wend) :
    ∃ w0 w1 : World, activate_loop c pre w = Run.done w0
      ∧ activate_site c w0 patch = Run.done w1
      ∧ activate_loop c post w1 = Run.done wend := by
  rw [activate_loop_append] at h
  cases hp : activate_loop c pre w with
  | abort msg s =>
    rw [hp] at h
    exact absurd h (by simp)
  | done w0 =>
    rw [hp] at h
    simp only [activate_loop] at h
    cases hs : activate_site c w0 patch with
    | abort msg s =>
      rw [hs] at h
      exact absurd h (by simp)
    | done w1 =>
      rw [hs] at h
      exact ⟨w0, w1, rfl, hs, h⟩

/-- A completed activation: its loop completed, and its trace is that of the
loop between the two protection changes. -/
theorem activate_patches_trace (c : Consts) (env : Env) (w : World)
    (h0 : w.desc.count ≠ 0) (h : (activate_patches c env w).completed = true) :
    ∃ w1 : World, activate_loop c w.desc.items (writable env w) = Run.done w1
      ∧ (activate_patches c env w).state.m.trace
          = w1.m.trace ++ [Event.mprotect (first_page env w.desc) (protect_size env w.desc)
              (PROT_READ ||| PROT_EXEC)]
      ∧ (activate_patches c env w).state.m.mem = w1.m.mem := by
  cases hm : env.mprotect_ok (first_page env w.desc) (protect_size env w.desc)
      (PROT_READ ||| PROT_WRITE ||| PROT_EXEC) with
  | false =>
    rw [activate_patches_unwritable c env w h0 hm] at h
    exact absurd h (by simp [Run.completed])
  | true =>
    cases hl : activate_loop c w.desc.items (writable env w) with
    | abort msg s =>
      rw [activate_patches_loop_abort c env w h0 hm msg s hl] at h
      exact absurd h (by simp [Run.completed])
    | done w1 =>
      refine ⟨w1, rfl, ?_, ?_⟩ <;>
      · rw [activate_patches_loop_done c env w h0 hm w1 hl]
        split <;> rfl

theorem mprotect_calls_of_none (l : List Event) (h : ∀ e ∈ l, e.is_mprotect = false) :
    mprotect_calls l = [] := by
  induction l with
  | nil => rfl
  | cons e rest ih =>
    have he := h e (List.mem_cons_self _ _)
    have hr := ih (fun x hx => h x (List.mem_cons_of_mem _ hx))
    cases e <;> first
      | simpa [mprotect_calls] using hr
      | simp [Event.is_mprotect] at he

theorem mprotect_calls_append (a b : List Event) :
    mprotect_calls (a ++ b) = mprotect_calls a ++ mprotect_calls b := by
  simp [mprotect_calls, List.filterMap_append]

theorem protect_size_eq (env : Env) (desc : intercept_desc)
    (h1 : env.round_down_address desc.text_start ≤ desc.text_end)
    (h2 : desc.text_end < 2 ^ 64) :
    protect_size env desc = desc.text_end - env.round_down_address desc.text_start := by
  simp only [protect_size, first_page, to_uint64, ptr_diff, to_int64]
  omega

theorem count_ne_zero_of_items (desc : intercept_desc) (pre post : List patch_desc)
    (patch : patch_desc) (h : desc.items = pre ++ patch :: post) : desc.count ≠ 0 := by
  simp [intercept_desc.count, h]

/-! ### Bytes that instantiating the template keeps -/

/-- OR of a 16-bit value into a word changes only its two low bytes. -/
theorem or32_mem_high (m : Machine) (a v x : Nat) (hv : v < 65536) (hx : x ≠ a)
    (hx1 : x ≠ a + 1) (hb : m.mem x < 256) : (m.or32 a v).mem x = m.mem x := by
  by_cases hout : x < a ∨ a + 4 ≤ x
  · exact mem_or32_of_out m a v x hout
  · have hd := or16_div (m.load32 a) v hv
    have hcase : x = a + 2 ∨ x = a + 3 := by omega
    simp only [Machine.or32, Machine.store32]
    generalize m.load32 a ||| v = z at hd
    have hl : m.load32 a = m.mem a % 256 + 256 * (m.mem (a + 1) % 256)
        + 65536 * (m.mem (a + 2) % 256) + 16777216 * (m.mem (a + 3) % 256) := rfl
    generalize m.load32 a = l at hd hl
    rcases hcase with rfl | rfl
    · rw [if_neg (by omega), if_neg (by omega), if_pos rfl]
      omega
    · rw [if_neg (by omega), if_neg (by omega), if_neg (by omega), if_pos rfl]
      omega

/-- The bytes `create_movabs_p1` can change are the two low bytes of the words at
offsets 0, 8 and 12. -/
theorem create_movabs_p1_mem_keep (dst loc : Nat) (m : Machine) (x : Nat)
    (h0 : x ≠ dst) (h1 : x ≠ dst + 1) (h8 : x ≠ dst + 8) (h9 : x ≠ dst + 9)
    (h12 : x ≠ dst + 12) (h13 : x ≠ dst + 13) (hb : m.mem x < 256) :
    (create_movabs_p1 dst loc m).mem x = m.mem x := by
  have c0 : loc % 2 ^ 64 / 2 ^ 32 % 65536 < 65536 := Nat.mod_lt _ (by decide)
  have c1 : loc % 2 ^ 64 / 2 ^ 16 % 65536 < 65536 := Nat.mod_lt _ (by decide)
  have c2 : loc % 2 ^ 64 % 65536 < 65536 := Nat.mod_lt _ (by decide)
  simp only [create_movabs_p1, and_FFFF, Nat.shiftRight_eq_div_pow]
  have e1 := or32_mem_high m dst _ x c0 h0 h1 hb
  have b1 : (m.or32 dst (loc % 2 ^ 64 / 2 ^ 32 % 65536)).mem x < 256 := by rw [e1]; exact hb
  have e2 := or32_mem_high _ (dst + 8) _ x c1 h8 (by omega) b1
  have b2 : ((m.or32 dst (loc % 2 ^ 64 / 2 ^ 32 % 65536)).or32 (dst + 8)
      (loc % 2 ^ 64 / 2 ^ 16 % 65536)).mem x < 256 := by rw [e2]; exact b1
  have e3 := or32_mem_high _ (dst + 8 + 4) _ x c2 (by omega) (by omega) b2
  rw [e3, e2, e1]

theorem memcpy_mem_in (m : Machine) (dst src n x : Nat) (h : dst ≤ x ∧ x < dst + n) :
    (m.memcpy dst src n).mem x = m.mem (src + (x - dst)) := by
  simp only [Machine.memcpy, h, and_self, if_true]

theorem memcpy_mem_lt (m : Machine) (dst src n : Nat) (hb : ∀ y, m.mem y < 256) (x : Nat) :
    (m.memcpy dst src n).mem x < 256 := by
  simp only [Machine.memcpy]
  split
  · exact hb _
  · exact hb _

theorem memcpy_load32_in (m : Machine) (dst src n a : Nat) (h1 : dst ≤ a)
    (h2 : a + 4 ≤ dst + n) :
    (m.memcpy dst src n).load32 a = m.load32 (src + (a - dst)) := by
  simp only [Machine.load32]
  rw [memcpy_mem_in m dst src n a (by omega), memcpy_mem_in m dst src n (a + 1) (by omega),
    memcpy_mem_in m dst src n (a + 2) (by omega), memcpy_mem_in m dst src n (a + 3) (by omega)]
  have e1 : a + 1 - dst = a - dst + 1 := by omega
  have e2 : a + 2 - dst = a - dst + 2 := by omega
  have e3 : a + 3 - dst = a - dst + 3 := by omega
  rw [e1, e2, e3, ← Nat.add_assoc, ← Nat.add_assoc, ← Nat.add_assoc]

/-- The instantiated template equals the template outside the immediates. -/
theorem wrapper_body_mem (g : Globals) (t : Template) (patch_addr w : Nat) (m : Machine)
    (hb : ∀ y, m.mem y < 256) (x : Nat) (hx1 : w ≤ x) (hx2 : x < w + g.asm_wrapper_tmpl_size)
    (hk : ∀ a ∈ [ptr_add w g.o_r2_load_addr, ptr_add w g.o_patch_desc_addr,
        ptr_add w g.o_wrapper_level1_addr],
      x ≠ a ∧ x ≠ a + 1 ∧ x ≠ a + 8 ∧ x ≠ a + 9 ∧ x ≠ a + 12 ∧ x ≠ a + 13) :
    (wrapper_body g t patch_addr w m).mem x
      = m.mem (t.intercept_asm_wrapper_tmpl + (x - w)) := by
  obtain ⟨p0, p1, p8, p9, p12, p13⟩ := hk (ptr_add w g.o_r2_load_addr) (by simp)
  obtain ⟨q0, q1, q8, q9, q12, q13⟩ := hk (ptr_add w g.o_patch_desc_addr) (by simp)
  obtain ⟨r0, r1, r8, r9, r12, r13⟩ := hk (ptr_add w g.o_wrapper_level1_addr) (by simp)
  simp only [wrapper_body]
  have b0 := memcpy_mem_lt m w t.intercept_asm_wrapper_tmpl g.asm_wrapper_tmpl_size hb x
  have e1 := create_movabs_p1_mem_keep (ptr_add w g.o_r2_load_addr) t.toc _ x
    p0 p1 p8 p9 p12 p13 b0
  have b1 := b0
  rw [← e1] at b1
  have e2 := create_movabs_p1_mem_keep (ptr_add w g.o_patch_desc_addr) patch_addr _ x
    q0 q1 q8 q9 q12 q13 b1
  have b2 := b1
  rw [← e2] at b2
  have e3 := create_movabs_p1_mem_keep (ptr_add w g.o_wrapper_level1_addr) t.intercept_wrapper
    _ x r0 r1 r8 r9 r12 r13 b2
  rw [e3, e2, e1, memcpy_mem_in m w _ _ x ⟨hx1, hx2⟩]

/-- Writing the return branch changes no byte below it. -/
theorem create_wrapper_mem_below (g : Globals) (t : Template) (patch : patch_desc)
    (patch_addr w : Nat) (m : Machine) (x : Nat) (hx : x < return_slot g w) :
    (create_wrapper g t patch patch_addr w m).m.mem x
      = (wrapper_body g t patch_addr w m).mem x := by
  cases hc : check_relative_jump (return_slot g w) patch.return_address with
  | true =>
    rw [create_wrapper_short g t patch patch_addr w m hc]
    exact create_jump_mem_of_out 1 _ _ _ x (Or.inl hx)
  | false =>
    rw [create_wrapper_long g t patch patch_addr w m hc]
    show (create_movabs_p1 _ _ _).mem x = _
    rw [create_movabs_p1_mem_of_out _ _ _ x (Or.inl hx)]
    rfl

theorem create_wrapper_load32_below (g : Globals) (t : Template) (patch : patch_desc)
    (patch_addr w : Nat) (m : Machine) (a : Nat) (ha : a + 4 ≤ return_slot g w) :
    (create_wrapper g t patch patch_addr w m).m.load32 a
      = (wrapper_body g t patch_addr w m).load32 a := by
  simp only [Machine.load32]
  rw [create_wrapper_mem_below g t patch patch_addr w m a (by omega),
    create_wrapper_mem_below g t patch patch_addr w m (a + 1) (by omega),
    create_wrapper_mem_below g t patch patch_addr w m (a + 2) (by omega),
    create_wrapper_mem_below g t patch patch_addr w m (a + 3) (by omega)]

/-- The words of the three patched areas of the instantiated template, when the
areas are pairwise disjoint and lie inside the copy. -/
theorem wrapper_body_words (g : Globals) (t : Template) (patch_addr w : Nat) (m : Machine)
    (a1 a2 a3 : Nat) (h1 : a1 = ptr_add w g.o_r2_load_addr)
    (h2 : a2 = ptr_add w g.o_patch_desc_addr) (h3 : a3 = ptr_add w g.o_wrapper_level1_addr)
    (hd12 : a1 + 16 ≤ a2 ∨ a2 + 16 ≤ a1) (hd13 : a1 + 16 ≤ a3 ∨ a3 + 16 ≤ a1)
    (hd23 : a2 + 16 ≤ a3 ∨ a3 + 16 ≤ a2)
    (hi1 : w ≤ a1 ∧ a1 + 16 ≤ w + g.asm_wrapper_tmpl_size)
    (hi2 : w ≤ a2 ∧ a2 + 16 ≤ w + g.asm_wrapper_tmpl_size)
    (hi3 : w ≤ a3 ∧ a3 + 16 ≤ w + g.asm_wrapper_tmpl_size) :
    ((wrapper_body g t patch_addr w m).load32 a1
        = m.load32 (t.intercept_asm_wrapper_tmpl + (a1 - w)) ||| t.toc % 2 ^ 64 / 2 ^ 32 % 65536
      ∧ (wrapper_body g t patch_addr w m).load32 (a1 + 8)
        = m.load32 (t.intercept_asm_wrapper_tmpl + (a1 + 8 - w))
            ||| t.toc % 2 ^ 64 / 2 ^ 16 % 65536
      ∧ (wrapper_body g t patch_addr w m).load32 (a1 + 12)
        = m.load32 (t.intercept_asm_wrapper_tmpl + (a1 + 12 - w)) ||| t.toc % 65536)
    ∧ ((wrapper_body g t patch_addr w m).load32 a2
        = m.load32 (t.intercept_asm_wrapper_tmpl + (a2 - w))
            ||| patch_addr % 2 ^ 64 / 2 ^ 32 % 65536
      ∧ (wrapper_body g t patch_addr w m).load32 (a2 + 8)
        = m.load32 (t.intercept_asm_wrapper_tmpl + (a2 + 8 - w))
            ||| patch_addr % 2 ^ 64 / 2 ^ 16 % 65536
      ∧ (wrapper_body g t patch_addr w m).load32 (a2 + 12)
        = m.load32 (t.intercept_asm_wrapper_tmpl + (a2 + 12 - w)) ||| patch_addr % 65536)
    ∧ ((wrapper_body g t patch_addr w m).load32 a3
        = m.load32 (t.intercept_asm_wrapper_tmpl + (a3 - w))
            ||| t.intercept_wrapper % 2 ^ 64 / 2 ^ 32 % 65536
      ∧ (wrapper_body g t patch_addr w m).load32 (a3 + 8)
        = m.load32 (t.intercept_asm_wrapper_tmpl + (a3 + 8 - w))
            ||| t.intercept_wrapper % 2 ^ 64 / 2 ^ 16 % 65536
      ∧ (wrapper_body g t patch_addr w m).load32 (a3 + 12)
        = m.load32 (t.intercept_asm_wrapper_tmpl + (a3 + 12 - w))
            ||| t.intercept_wrapper % 65536) := by
  subst h1 h2 h3
  simp only [wrapper_body]
  generalize hM0 : m.memcpy w t.intercept_asm_wrapper_tmpl g.asm_wrapper_tmpl_size = M0
  have hc : ∀ a, w ≤ a → a + 4 ≤ w + g.asm_wrapper_tmpl_size →
      M0.load32 a = m.load32 (t.intercept_asm_wrapper_tmpl + (a - w)) := by
    intro a ha1 ha2
    rw [← hM0]
    exact memcpy_load32_in m w _ _ a ha1 ha2
  generalize ptr_add w g.o_r2_load_addr = a1 at *
  generalize ptr_add w g.o_patch_desc_addr = a2 at *
  generalize ptr_add w g.o_wrapper_level1_addr = a3 at *
  obtain ⟨u0, -, u8, u12⟩ := create_movabs_p1_words a1 t.toc M0
  generalize hM1 : create_movabs_p1 a1 t.toc M0 = M1 at *
  have k1 : ∀ b, b + 4 ≤ a1 ∨ a1 + 16 ≤ b → M1.load32 b = M0.load32 b := by
    intro b hb
    rw [← hM1]
    exact create_movabs_p1_load32_of_disjoint a1 t.toc M0 b hb
  obtain ⟨v0, -, v8, v12⟩ := create_movabs_p1_words a2 patch_addr M1
  generalize hM2 : create_movabs_p1 a2 patch_addr M1 = M2 at *
  have k2 : ∀ b, b + 4 ≤ a2 ∨ a2 + 16 ≤ b → M2.load32 b = M1.load32 b := by
    intro b hb
    rw [← hM2]
    exact create_movabs_p1_load32_of_disjoint a2 patch_addr M1 b hb
  obtain ⟨x0, -, x8, x12⟩ := create_movabs_p1_words a3 t.intercept_wrapper M2
  generalize hM3 : create_movabs_p1 a3 t.intercept_wrapper M2 = M3 at *
  have k3 : ∀ b, b + 4 ≤ a3 ∨ a3 + 16 ≤ b → M3.load32 b = M2.load32 b := by
    intro b hb
    rw [← hM3]
    exact create_movabs_p1_load32_of_disjoint a3 t.intercept_wrapper M2 b hb
  refine ⟨⟨?_, ?_, ?_⟩, ⟨?_, ?_, ?_⟩, ⟨?_, ?_, ?_⟩⟩
  · rw [k3 _ (by omega), k2 _ (by omega), u0, hc _ (by omega) (by omega)]
  · rw [k3 _ (by omega), k2 _ (by omega), u8, hc _ (by omega) (by omega)]
  · rw [k3 _ (by omega), k2 _ (by omega), u12, hc _ (by omega) (by omega)]
  · rw [k3 _ (by omega), v0, k1 _ (by omega), hc _ (by omega) (by omega)]
  · rw [k3 _ (by omega), v8, k1 _ (by omega), hc _ (by omega) (by omega)]
  · rw [k3 _ (by omega), v12, k1 _ (by omega), hc _ (by omega) (by omega)]
  · rw [x0, k2 _ (by omega), k1 _ (by omega), hc _ (by omega) (by omega)]
  · rw [x8, k2 _ (by omega), k1 _ (by omega), hc _ (by omega) (by omega)]
  · rw [x12, k2 _ (by omega), k1 _ (by omega), hc _ (by omega) (by omega)]

/-- What `create_movabs_p1` keeps of the four words it works on. -/
theorem create_movabs_p1_keeps (dst loc : Nat) (m : Machine) :
    (create_movabs_p1 dst loc m).load32 dst / 65536 = m.load32 dst / 65536
    ∧ (create_movabs_p1 dst loc m).load32 (dst + 8) / 65536 = m.load32 (dst + 8) / 65536
    ∧ (create_movabs_p1 dst loc m).load32 (dst + 12) / 65536 = m.load32 (dst + 12) / 65536
    ∧ (create_movabs_p1 dst loc m).load32 (dst + 4) = m.load32 (dst + 4) := by
  obtain ⟨w0, w4, w8, w12⟩ := create_movabs_p1_words dst loc m
  rw [w0, w4, w8, w12]
  exact ⟨or16_div _ _ (Nat.mod_lt _ (by decide)), or16_div _ _ (Nat.mod_lt _ (by decide)),
    or16_div _ _ (Nat.mod_lt _ (by decide)), rfl⟩

/-! ### What the assertions of `init_patcher` establish -/

/-- The assertions bound the template size and two of the three offsets. -/
theorem init_patcher_checked_offsets (t : Template) (g : Globals)
    (h : init_patcher t = some g) (hlt : t.intercept_asm_wrapper_tmpl_end < 2 ^ 63) :
    0 < g.asm_wrapper_tmpl_size
    ∧ (0 < g.o_patch_desc_addr ∧ g.o_patch_desc_addr < g.asm_wrapper_tmpl_size)
    ∧ (0 < g.o_wrapper_level1_addr ∧ g.o_wrapper_level1_addr < g.asm_wrapper_tmpl_size)
    ∧ g.o_r2_load_addr
        = ptr_diff t.intercept_asm_wrapper_r2_load_addr t.intercept_asm_wrapper_tmpl := by
  simp only [init_patcher] at h
  split_ifs at h with c1 c2 c3 c4 c5
  cases h
  simp only [to_uint64, ptr_diff, to_int64]
  simp only [not_not] at c1 c2 c3 c4 c5
  refine ⟨?_, ⟨?_, ?_⟩, ⟨?_, ?_⟩, trivial⟩ <;> omega

/-! ### What activation without a trampoline table can change -/

/-- One iteration without a trampoline table, whatever its outcome: the
descriptor is unchanged, and memory can differ only in the jump word and in
the trap range of the site. -/
theorem activate_site_frame (c : Consts) (w : World) (patch : patch_desc)
    (ht : w.desc.uses_trampoline_table = false) :
    (activate_site c w patch).state.desc = w.desc
    ∧ ∀ x, ¬ (patch.dst_jmp_patch ≤ x ∧ x < patch.dst_jmp_patch + 4) →
        ¬ (patch.dst_jmp_patch + c.JUMP_INS_SIZE ≤ x ∧ x < patch.return_address) →
        (activate_site c w patch).state.m.mem x = w.m.mem x := by
  by_cases ho : patch.dst_jmp_patch < w.desc.text_start ∨ patch.dst_jmp_patch > w.desc.text_end
  · rw [activate_site_outside c w patch ho]
    exact ⟨rfl, fun _ _ _ => rfl⟩
  · cases hc : check_relative_jump patch.dst_jmp_patch patch.asm_wrapper with
    | true =>
      rw [activate_site_relative c w patch ho ht hc]
      refine ⟨rfl, fun x h1 h2 => ?_⟩
      simp only [Run.state]
      rw [trap_fill_mem, if_neg (by omega), create_jump_mem_of_out _ _ _ _ _ (by omega)]
    | false =>
      rw [activate_site_absolute c w patch ho ht hc]
      refine ⟨rfl, fun x h1 h2 => ?_⟩
      simp only [Run.state]
      rw [trap_fill_mem, if_neg (by omega), create_absolute_jump_mem_of_out _ _ _ _ (by omega)]
      rfl

/-- The loop without a trampoline table, whatever its outcome. -/
theorem activate_loop_frame (c : Consts) (items : List patch_desc) (w : World)
    (ht : w.desc.uses_trampoline_table = false) :
    (activate_loop c items w).state.desc = w.desc
    ∧ ∀ x, (∀ p ∈ items, ¬ (p.dst_jmp_patch ≤ x ∧ x < p.dst_jmp_patch + 4)
          ∧ ¬ (p.dst_jmp_patch + c.JUMP_INS_SIZE ≤ x ∧ x < p.return_address)) →
        (activate_loop c items w).state.m.mem x = w.m.mem x := by
  induction items generalizing w with
  | nil => exact ⟨rfl, fun _ _ => rfl⟩
  | cons p rest ih =>
    obtain ⟨hd, hm⟩ := activate_site_frame c w p ht
    simp only [activate_loop]
    cases hs : activate_site c w p with
    | abort msg s =>
      rw [hs] at hd hm
      refine ⟨hd, fun x hx => ?_⟩
      exact hm x (hx p (List.mem_cons_self _ _)).1 (hx p (List.mem_cons_self _ _)).2
    | done w1 =>
      rw [hs] at hd hm
      simp only [Run.state] at hd hm
      obtain ⟨hd1, hm1⟩ := ih w1 (by rw [hd]; exact ht)
      refine ⟨hd1.trans hd, fun x hx => ?_⟩
      rw [hm1 x (fun q hq => hx q (List.mem_cons_of_mem _ hq))]
      exact hm x (hx p (List.mem_cons_self _ _)).1 (hx p (List.mem_cons_self _ _)).2

/-- The whole of `activate_patches` without a trampoline table, whatever its outcome. -/
theorem activate_patches_frame (c : Consts) (env : Env) (w : World)
    (ht : w.desc.uses_trampoline_table = false) :
    (activate_patches c env w).state.desc = w.desc
    ∧ ∀ x, (∀ p ∈ w.desc.items, ¬ (p.dst_jmp_patch ≤ x ∧ x < p.dst_jmp_patch + 4)
          ∧ ¬ (p.dst_jmp_patch + c.JUMP_INS_SIZE ≤ x ∧ x < p.return_address)) →
        (activate_patches c env w).state.m.mem x = w.m.mem x := by
  by_cases h0 : w.desc.count = 0
  · rw [activate_patches_empty c env w h0]
    exact ⟨rfl, fun _ _ => rfl⟩
  cases hm : env.mprotect_ok (first_page env w.desc) (protect_size env w.desc)
      (PROT_READ ||| PROT_WRITE ||| PROT_EXEC) with
  | false =>
    rw [activate_patches_unwritable c env w h0 hm]
    exact ⟨rfl, fun _ _ => rfl⟩
  | true =>
    obtain ⟨hd, hmem⟩ := activate_loop_frame c w.desc.items (writable env w) ht
    cases hl : activate_loop c w.desc.items (writable env w) with
    | abort msg s =>
      rw [activate_patches_loop_abort c env w h0 hm msg s hl]
      rw [hl] at hd hmem
      exact ⟨hd, hmem⟩
    | done w1 =>
      rw [activate_patches_loop_done c env w h0 hm w1 hl]
      rw [hl] at hd hmem
      simp only [Run.state] at hd hmem
      split
      · exact ⟨hd, hmem⟩
      · exact ⟨hd, hmem⟩

/-! ### Pointer plus a size -/

theorem ptr_add_nat (a n : Nat) : ptr_add a (n : Int) = (a + n) % 2 ^ 64 := by
  simp only [ptr_add, to_uint64]
  omega

theorem ptr_add_nat_of_lt (a n : Nat) (h : a + n < 2 ^ 64) : ptr_add a (n : Int) = a + n := by
  simp only [ptr_add, to_uint64]
  omega

/-! ### How many entries the table takes -/

theorem check_trampoline_usage_at64 (desc : intercept_desc) (k : Nat)
    (ht : desc.uses_trampoline_table = true)
    (hn : desc.next_trampoline = desc.trampoline_table + 32 * k)
    (hk : 32 * k + 28 < 2 ^ 64) :
    check_trampoline_usage desc
      = if 32 * k + 28 ≥ desc.trampoline_table_size then some "trampoline space not enough"
        else none := by
  have hu : to_uint64 (ptr_diff desc.next_trampoline desc.trampoline_table) = 32 * k := by
    simp only [to_uint64, ptr_diff, to_int64, hn]
    omega
  have hm : (32 * k + TRAMPOLINE_SIZE) % 2 ^ 64 = 32 * k + 28 := by
    simp only [TRAMPOLINE_SIZE]
    omega
  simp only [check_trampoline_usage, ht, hu, hm]
  rfl

theorem activate_site_table (c : Consts) (w w1 : World) (patch : patch_desc)
    (h : activate_site c w patch = Run.done w1) :
    w1.desc.trampoline_table = w.desc.trampoline_table
    ∧ w1.desc.trampoline_table_size = w.desc.trampoline_table_size := by
  rcases activate_site_cases c w patch with ⟨-, e⟩ | ⟨-, -, -, e⟩ | ⟨-, -, -, m1, e⟩
      | ⟨-, -, m1, e⟩
  · rw [e] at h
    exact absurd h (by simp)
  · rw [e] at h
    exact absurd h (by simp)
  · rw [e] at h
    cases h
    exact ⟨rfl, rfl⟩
  · rw [e] at h
    cases h
    exact ⟨rfl, rfl⟩

theorem activate_loop_table (c : Consts) (items : List patch_desc) (w w1 : World)
    (h : activate_loop c items w = Run.done w1) :
    w1.desc.trampoline_table = w.desc.trampoline_table
    ∧ w1.desc.trampoline_table_size = w.desc.trampoline_table_size := by
  induction items generalizing w with
  | nil =>
    simp only [activate_loop] at h
    cases h
    exact ⟨rfl, rfl⟩
  | cons p rest ih =>
    simp only [activate_loop] at h
    cases hs : activate_site c w p with
    | abort msg s =>
      rw [hs] at h
      exact absurd h (by simp)
    | done w2 =>
      rw [hs] at h
      have h2 := activate_site_table c w w2 p hs
      have h3 := ih w2 h
      exact ⟨h3.1.trans h2.1, h3.2.trans h2.2⟩

/-- Sites inside the text bounds complete as long as the guard
`used + TRAMPOLINE_SIZE >= trampoline_table_size` stays false. -/
theorem activate_loop_trampoline_done (c : Consts) (items : List patch_desc) :
    ∀ (k : Nat) (w : World),
      w.desc.uses_trampoline_table = true →
      w.desc.next_trampoline = w.desc.trampoline_table + 32 * k →
      w.desc.trampoline_table_size < 2 ^ 64 →
      (∀ p ∈ items, ¬ (p.dst_jmp_patch < w.desc.text_start
        ∨ p.dst_jmp_patch > w.desc.text_end)) →
      (∀ j, j < items.length → 32 * (k + j) + 28 < w.desc.trampoline_table_size) →
      ∃ w1 : World, activate_loop c items w = Run.done w1 := by
  induction items with
  | nil =>
    intro k w _ _ _ _ _
    exact ⟨w, rfl⟩
  | cons p rest ih =>
    intro k w ht hx hS hb hfit
    have hp := hb p (List.mem_cons_self p rest)
    have h0 := hfit 0 (by simp)
    have hc := check_trampoline_usage_at64 w.desc k ht hx (by omega)
    rw [if_neg (by omega)] at hc
    have hsite := activate_site_trampoline c w p hp ht hc
    generalize trap_fill _ _ _ _ = m1 at hsite
    obtain ⟨w1, h1⟩ := ih (k + 1)
      ⟨{ w.desc with next_trampoline := w.desc.next_trampoline + 32 }, m1⟩ ht
      (show w.desc.next_trampoline + 32 = w.desc.trampoline_table + 32 * (k + 1) by omega)
      hS (fun q hq => hb q (List.mem_cons_of_mem p hq))
      (fun j hj => by
        have := hfit (j + 1) (by simp only [List.length_cons]; omega)
        show 32 * (k + 1 + j) + 28 < w.desc.trampoline_table_size
        omega)
    refine ⟨w1, ?_⟩
    simp only [activate_loop, hsite]
    exact h1

/-- The first site for which the guard is true aborts the loop, in the state
the sites before it left. -/
theorem activate_loop_trampoline_abort (c : Consts) (pre post : List patch_desc)
    (p : patch_desc) (k : Nat) (w : World)
    (ht : w.desc.uses_trampoline_table = true)
    (hx : w.desc.next_trampoline = w.desc.trampoline_table + 32 * k)
    (hS : w.desc.trampoline_table_size < 2 ^ 64)
    (hb : ∀ q ∈ pre ++ [p], ¬ (q.dst_jmp_patch < w.desc.text_start
        ∨ q.dst_jmp_patch > w.desc.text_end))
    (hfit : ∀ j, j < pre.length → 32 * (k + j) + 28 < w.desc.trampoline_table_size)
    (hfull : 32 * (k + pre.length) + 28 ≥ w.desc.trampoline_table_size)
    (hk64 : 32 * (k + pre.length) + 28 < 2 ^ 64) :
    ∃ w1 : World, activate_loop c pre w = Run.done w1
      ∧ activate_loop c (pre ++ p :: post) w
          = Run.abort "trampoline space not enough" w1 := by
  obtain ⟨w1, h1⟩ := activate_loop_trampoline_done c pre k w ht hx hS
    (fun q hq => hb q (List.mem_append_left _ hq)) hfit
  obtain ⟨hu, hcur⟩ := activate_loop_cursor c pre w w1 h1
  obtain ⟨htab, hsz⟩ := activate_loop_table c pre w w1 h1
  obtain ⟨hts, hte⟩ := activate_loop_text c pre w w1 h1
  rw [if_pos ht] at hcur
  have hu1 : w1.desc.uses_trampoline_table = true := by rw [hu]; exact ht
  have hn1 : w1.desc.next_trampoline = w1.desc.trampoline_table + 32 * (k + pre.length) := by
    rw [hcur, htab, hx]
    omega
  have hc := check_trampoline_usage_at64 w1.desc (k + pre.length) hu1 hn1 hk64
  rw [if_pos (by rw [hsz]; exact hfull)] at hc
  have hp := hb p (List.mem_append_right _ (List.mem_singleton_self p))
  refine ⟨w1, h1, ?_⟩
  rw [activate_loop_append, h1]
  simp only [activate_loop,
    activate_site_exhausted c w1 p _ (by rw [hts, hte]; exact hp) hu1 hc]

/-- A site outside the text bounds aborts the loop in the state the sites
before it left. -/
theorem activate_loop_outside_abort (c : Consts) (pre post : List patch_desc)
    (p : patch_desc) (w w1 : World) (h1 : activate_loop c pre w = Run.done w1)
    (ho : p.dst_jmp_patch < w.desc.text_start ∨ p.dst_jmp_patch > w.desc.text_end) :
    activate_loop c (pre ++ p :: post) w = Run.abort "dst_jmp_patch outside text" w1 := by
  obtain ⟨hts, hte⟩ := activate_loop_text c pre w w1 h1
  rw [activate_loop_append, h1]
  simp only [activate_loop, activate_site_outside c w1 p (by rw [hts, hte]; exact ho)]

theorem list_split_at (l : List patch_desc) (k : Nat) (h : k < l.length) :
    ∃ (pre : List patch_desc) (p : patch_desc) (post : List patch_desc),
      l = pre ++ p :: post ∧ pre.length = k := by
  refine ⟨l.take k, l[k], l.drop (k + 1), ?_, ?_⟩
  · rw [← List.drop_eq_getElem_cons h, List.take_append_drop]
  · rw [List.length_take]
    omega

theorem template_machine_bytes (y : Nat) : template_machine.mem y < 256 :=
  store32_mem_lt _ _ _ y (Or.inl (store32_mem_lt _ _ _ y (Or.inl
    (store32_mem_lt _ _ _ y (Or.inl (by decide : (0 : Nat) < 256))))))

/-! ## Theorems: the short branch -/

/-- C1: for 4-byte-aligned 64-bit addresses `from`, `to` accepted by
`check_relative_jump`, the word `create_jump` leaves at `from` has primary
opcode 18 with AA = 0 and LK = 0, its target
`from + sign_extend_26(word & 0x3FFFFFC)` (modulo 2^64, as the ISA computes
it) is `to`, and the opcode argument has no influence on the word. -/
theorem C1_create_jump_reaches_target (opcode frm tgt : Nat) (m : Machine)
    (hf : frm < 2 ^ 64) (ht : tgt < 2 ^ 64) (haf : frm % 4 = 0) (hat : tgt % 4 = 0)
    (hc : check_relative_jump frm tgt = true) :
    ((create_jump opcode frm tgt m).load32 frm) >>> 26 = 18
    ∧ (((create_jump opcode frm tgt m).load32 frm) >>> 1) &&& 1 = 0
    ∧ ((create_jump opcode frm tgt m).load32 frm) &&& 1 = 0
    ∧ to_uint64 ((frm : Int)
        + sign_extend 26 (((create_jump opcode frm tgt m).load32 frm) &&& 0x3FFFFFC)) = tgt
    ∧ branch_target frm ((create_jump opcode frm tgt m).load32 frm) = some tgt
    ∧ ∀ opcode2 : Nat, (create_jump opcode2 frm tgt m).load32 frm
        = (create_jump opcode frm tgt m).load32 frm := by
  rw [check_relative_jump_iff] at hc
  have hw := create_jump_word opcode frm tgt m
  have hind : ∀ opcode2 : Nat, (create_jump opcode2 frm tgt m).load32 frm
      = (create_jump opcode frm tgt m).load32 frm :=
    fun o => (create_jump_word o frm tgt m).trans hw.symm
  generalize (create_jump opcode frm tgt m).load32 frm = w at hw hind
  have hd : ptr_diff tgt frm = to_int64 ((tgt : Int) - (frm : Int)) := rfl
  generalize ptr_diff tgt frm = d at hc hw hd
  simp only [to_int64] at hd
  have h32 : to_int32 d = d := by simp only [to_int32]; omega
  rw [h32] at hw
  have hu : ((to_uint32 d : Nat) : Int) = d % 4294967296 := by
    simp only [to_uint32]; omega
  generalize to_uint32 d = u at hw hu
  have hop : w >>> 26 = 18 := by rw [Nat.shiftRight_eq_div_pow]; omega
  have haa : (w >>> 1) &&& 1 = 0 := by rw [and_1, Nat.shiftRight_eq_div_pow]; omega
  have hlk : w &&& 1 = 0 := by rw [and_1]; omega
  have htg : to_uint64 ((frm : Int) + sign_extend 26 (w &&& 0x3FFFFFC)) = tgt := by
    simp only [to_uint64, sign_extend, and_3FFFFFC]
    split <;> omega
  refine ⟨hop, haa, hlk, htg, ?_, hind⟩
  simp only [branch_target, hop, haa, if_true]
  simp [htg]

/-- C1 witness: a backward branch of 16 bytes from address 4096. -/
theorem C1_create_jump_reaches_target_witness :
    check_relative_jump 4096 4080 = true
    ∧ branch_target 4096
      ((create_jump 233 4096 4080 ⟨fun _ => 0, []⟩).load32 4096) = some 4080 :=
  ⟨by decide,
   (C1_create_jump_reaches_target 233 4096 4080 ⟨fun _ => 0, []⟩ (by decide) (by decide)
    (by decide) (by decide) (by decide)).2.2.2.2.1⟩

/-- C2 as stated fails: from 0 to 2^23 the displacement shifted right by 2 is
2^21, inside the signed 24-bit field, yet `check_relative_jump` returns false. -/
theorem C2_shifted_window_counterexample :
    ¬ (check_relative_jump 0 8388608 = true
        ↔ (-8388608 ≤ (ptr_diff 8388608 0) >>> (2 : Nat)
            ∧ (ptr_diff 8388608 0) >>> (2 : Nat) ≤ 8388607)) := by
  decide

/-- C2 (amended): `check_relative_jump(from, to)` is true exactly when the
signed byte displacement `to - from` itself, not shifted, lies in
`[-2^23, 2^23 - 1]`; an accepted pair also satisfies the bound on the
displacement shifted right by 2. -/
theorem C2_check_relative_jump_byte_window (frm tgt : Nat) :
    (check_relative_jump frm tgt = true
      ↔ (-8388608 ≤ ptr_diff tgt frm ∧ ptr_diff tgt frm ≤ 8388607))
    ∧ (check_relative_jump frm tgt = true
      → (-8388608 ≤ (ptr_diff tgt frm) >>> (2 : Nat)
          ∧ (ptr_diff tgt frm) >>> (2 : Nat) ≤ 8388607)) := by
  refine ⟨check_relative_jump_iff frm tgt, fun h => ?_⟩
  rw [check_relative_jump_iff] at h
  rw [Int.shiftRight_eq_div_pow]
  norm_num
  omega

/-- C2 witness: a pair 16 bytes apart is accepted and meets the shifted bound. -/
theorem C2_check_relative_jump_byte_window_witness :
    check_relative_jump 4096 4080 = true
    ∧ (-8388608 ≤ (ptr_diff 4080 4096) >>> (2 : Nat)
        ∧ (ptr_diff 4080 4096) >>> (2 : Nat) ≤ 8388607) :=
  ⟨by decide, (C2_check_relative_jump_byte_window 4096 4080).2 (by decide)⟩

/-! ## Theorems: the long branch -/

/-- C3 as stated fails at `to = 2^47`: `li` sign-extends its 16-bit immediate
(bits 47..32 of the address), so CTR receives `0xFFFF800000000000`. -/
theorem C3_long_branch_counterexample :
    (ppc_run (create_absolute_jumptr 4096 0x800000000000 ⟨fun _ => 0, []⟩).2 8
        ⟨fun _ => 0, 0, 0, fun _ => 0, 4096⟩).map (fun r => r.ctr)
      = some 0xFFFF800000000000
    ∧ (ppc_run (create_absolute_jumptr 4096 0x800000000000 ⟨fun _ => 0, []⟩).2 8
        ⟨fun _ => 0, 0, 0, fun _ => 0, 4096⟩).map (fun r => r.ctr)
      ≠ some 0x800000000000 := by
  obtain ⟨r1, h1, h2, -, -⟩ := jumptr_run 4096 0x800000000000 ⟨fun _ => 0, []⟩
    ⟨fun _ => 0, 0, 0, fun _ => 0, 4096⟩ (by decide)
  have hv : to_uint64 (sign_extend 48 0x800000000000) = 0xFFFF800000000000 := by decide
  have h3 : (ppc_run (create_absolute_jumptr 4096 0x800000000000 ⟨fun _ => 0, []⟩).2 8
        ⟨fun _ => 0, 0, 0, fun _ => 0, 4096⟩).map (fun r => r.ctr)
      = some 0xFFFF800000000000 := by
    rw [h1, Option.map_some', h2, hv]
  refine ⟨h3, ?_⟩
  rw [h3]
  decide

/-- C3 (amended): for every 64-bit target and every entry address with the 32
bytes inside the address space, the eight instructions emitted by
`create_absolute_jumptr` run to completion, CTR receives the sign extension
of the low 48 bits of `to`, the indirect branch goes to CTR (low two bits
cleared), and r15 is restored.  CTR equals `to` exactly when bits 63..47 of
`to` are all equal, in particular for every `to < 2^47`. -/
theorem C3_long_branch_value (frm tgt : Nat) (m : Machine) (r : Regs)
    (hf : frm + 32 ≤ 2 ^ 64) (ht : tgt < 2 ^ 64) :
    ∃ r1 : Regs,
      ppc_run (create_absolute_jumptr frm tgt m).2 8 { r with cia := frm } = some r1
      ∧ r1.ctr = to_uint64 (sign_extend 48 tgt)
      ∧ (r1.ctr = tgt ↔ (tgt < 2 ^ 47 ∨ 2 ^ 64 - 2 ^ 47 ≤ tgt))
      ∧ (tgt < 2 ^ 47 → r1.ctr = tgt)
      ∧ r1.cia = r1.ctr / 4 * 4
      ∧ r1.gpr 15 = r.gpr 15 := by
  obtain ⟨r1, h1, h2, h3, h4⟩ := jumptr_run frm tgt m r hf
  have hv : (to_uint64 (sign_extend 48 tgt) : Int)
      = if tgt % 2 ^ 48 < 2 ^ 47 then ((tgt % 2 ^ 48 : Nat) : Int)
        else 18446462598732840960 + ((tgt % 2 ^ 48 : Nat) : Int) := by
    simp only [to_uint64, sign_extend]
    split <;> omega
  refine ⟨r1, h1, h2, ?_, ?_, h3, h4⟩
  · rw [h2]
    generalize to_uint64 (sign_extend 48 tgt) = t at hv
    split at hv <;> omega
  · intro hlt
    rw [h2]
    generalize to_uint64 (sign_extend 48 tgt) = t at hv
    split at hv <;> omega

/-- C3 witness: a target in the low 2^47 bytes is loaded exactly. -/
theorem C3_long_branch_value_witness :
    ∃ r1 : Regs,
      ppc_run (create_absolute_jumptr 4096 0x7fff12345678 ⟨fun _ => 0, []⟩).2 8
        { (⟨fun _ => 0, 0, 0, fun _ => 0, 0⟩ : Regs) with cia := 4096 } = some r1
      ∧ r1.ctr = 0x7fff12345678 := by
  obtain ⟨r1, h1, -, -, h2, -, -⟩ := C3_long_branch_value 4096 0x7fff12345678
    ⟨fun _ => 0, []⟩ ⟨fun _ => 0, 0, 0, fun _ => 0, 0⟩ (by decide) (by decide)
  exact ⟨r1, h1, h2 (by decide)⟩

/-! ## Theorems: activation without a trampoline table -/

/-- C4, the code at a failing input: one site at `0x10000100` whose wrapper
`0x7fff80001000` is out of relative range, no trampoline table.  Activation
completes, and the word left at the site is `ba 0x1000`
(`0x48000002 | (wrapper & 0x3FFFFFC)`): its target is the low 26 bits of the
wrapper address, not the wrapper. -/
theorem C4_absolute_jump_misses_wrapper :
    (activate_patches ppc_consts page_env
        ⟨image false 0 [site_at 0x10000100 0x7fff80001000], zero_machine⟩).completed = true
    ∧ check_relative_jump 0x10000100 0x7fff80001000 = false
    ∧ (activate_patches ppc_consts page_env
        ⟨image false 0 [site_at 0x10000100 0x7fff80001000], zero_machine⟩).state.m.load32
          0x10000100 = 0x48001002
    ∧ branch_target 0x10000100 0x48001002 = some 0x1000 := by
  decide

/-! ## Theorems: bounds validation -/

/-- C7 as stated fails at `dst_jmp_patch = text_end`: the site lies outside the
half-open range `[text_start, text_end)`, yet activation completes and the
jump is written. -/
theorem C7_text_end_counterexample :
    (site_at 0x10010000 0x10010100).dst_jmp_patch ≥ (image false 0 []).text_end
    ∧ (activate_patches ppc_consts page_env
        ⟨image false 0 [site_at 0x10010000 0x10010100], zero_machine⟩).completed = true
    ∧ (activate_patches ppc_consts page_env
        ⟨image false 0 [site_at 0x10010000 0x10010100], zero_machine⟩).state.m.load32
          0x10010000 = 0x48000100 := by
  decide

/-- C7 (amended): `activate_patches` aborts with "dst_jmp_patch outside text" if
and only if the first `mprotect` succeeded and the loop reaches a site with
`dst_jmp_patch < text_start` or `dst_jmp_patch > text_end` (the accepted range
is the closed `[text_start, text_end]`); and whenever it reaches such a site
it aborts with that message in the state left by the preceding sites, so
nothing is written for that site. -/
theorem C7_bounds_check (c : Consts) (env : Env) (w : World) :
    ((activate_patches c env w).message = some "dst_jmp_patch outside text"
      ↔ ∃ (pre : List patch_desc) (p : patch_desc) (post : List patch_desc) (w1 : World),
          w.desc.items = pre ++ p :: post
          ∧ env.mprotect_ok (first_page env w.desc) (protect_size env w.desc)
              (PROT_READ ||| PROT_WRITE ||| PROT_EXEC) = true
          ∧ activate_loop c pre (writable env w) = Run.done w1
          ∧ (p.dst_jmp_patch < w.desc.text_start ∨ p.dst_jmp_patch > w.desc.text_end))
    ∧ (∀ (pre : List patch_desc) (p : patch_desc) (post : List patch_desc) (w1 : World),
        w.desc.items = pre ++ p :: post →
        env.mprotect_ok (first_page env w.desc) (protect_size env w.desc)
          (PROT_READ ||| PROT_WRITE ||| PROT_EXEC) = true →
        activate_loop c pre (writable env w) = Run.done w1 →
        (p.dst_jmp_patch < w.desc.text_start ∨ p.dst_jmp_patch > w.desc.text_end) →
        activate_patches c env w = Run.abort "dst_jmp_patch outside text" w1) := by
  have habort : ∀ (pre : List patch_desc) (p : patch_desc) (post : List patch_desc)
      (w1 : World), w.desc.items = pre ++ p :: post →
      env.mprotect_ok (first_page env w.desc) (protect_size env w.desc)
        (PROT_READ ||| PROT_WRITE ||| PROT_EXEC) = true →
      activate_loop c pre (writable env w) = Run.done w1 →
      (p.dst_jmp_patch < w.desc.text_start ∨ p.dst_jmp_patch > w.desc.text_end) →
      activate_patches c env w = Run.abort "dst_jmp_patch outside text" w1 := by
    intro pre p post w1 h1 h2 h3 h4
    have h0 := count_ne_zero_of_items w.desc pre post p h1
    have hl := activate_loop_outside_abort c pre post p (writable env w) w1 h3 h4
    rw [← h1] at hl
    exact activate_patches_loop_abort c env w h0 h2 _ w1 hl
  refine ⟨⟨fun h => ?_, fun ⟨pre, p, post, w1, h1, h2, h3, h4⟩ => by
    rw [habort pre p post w1 h1 h2 h3 h4]
    rfl⟩, habort⟩
  by_cases h0 : w.desc.count = 0
  · rw [activate_patches_empty c env w h0] at h
    exact absurd h (by simp [Run.message])
  · cases hm : env.mprotect_ok (first_page env w.desc) (protect_size env w.desc)
        (PROT_READ ||| PROT_WRITE ||| PROT_EXEC) with
    | false =>
      rw [activate_patches_unwritable c env w h0 hm] at h
      exact absurd (Option.some.inj h) (by decide)
    | true =>
      cases hl : activate_loop c w.desc.items (writable env w) with
      | abort msg s =>
        rw [activate_patches_loop_abort c env w h0 hm msg s hl] at h
        obtain ⟨pre, p, post, w1, h1, h2, h3, -⟩ :=
          (activate_loop_outside_iff c w.desc.items (writable env w)).1 (by rw [hl]; exact h)
        exact ⟨pre, p, post, w1, h1, rfl, h2, h3⟩
      | done w2 =>
        rw [activate_patches_loop_done c env w h0 hm w2 hl] at h
        split at h
        · exact absurd h (by simp [Run.message])
        · exact absurd (Option.some.inj h) (by decide)

/-- C7 witness: a site below `text_start` aborts activation before any store. -/
theorem C7_bounds_check_witness :
    (activate_patches ppc_consts page_env
        ⟨image false 0 [site_at 0x0ffffffc 0x10010100], zero_machine⟩).message
      = some "dst_jmp_patch outside text" :=
  (C7_bounds_check ppc_consts page_env
      ⟨image false 0 [site_at 0x0ffffffc 0x10010100], zero_machine⟩).1.2
    ⟨[], site_at 0x0ffffffc 0x10010100, [], _, rfl, rfl, rfl, by decide⟩

/-! ## Theorems: trap fill -/

/-- C10 as stated fails in trampoline mode: the iteration for the site at
`0x10000100` (return address `0x10000104`) also writes its trampoline entry,
so the byte at `0x10020000`, beyond the return address, changes from `0` to
`0xe0`. -/
theorem C10_trampoline_write_counterexample :
    (activate_patches ppc_consts page_env
        ⟨image true 4096 [site_at 0x10000100 0x7fff80001000], zero_machine⟩).completed = true
    ∧ (site_at 0x10000100 0x7fff80001000).return_address ≤ 0x10020000
    ∧ zero_machine.mem 0x10020000 = 0
    ∧ (activate_site ppc_consts
        ⟨image true 4096 [site_at 0x10000100 0x7fff80001000], zero_machine⟩
        (site_at 0x10000100 0x7fff80001000)).state.m.mem 0x10020000 = 0xe0
    ∧ (activate_patches ppc_consts page_env
        ⟨image true 4096 [site_at 0x10000100 0x7fff80001000], zero_machine⟩).state.m.mem
          0x10020000 = 0xe0 := by
  decide

/-- C10 (amended): on every image on which `activate_patches` completes, for
every site `p` (reached in the state `w1` left by the sites before it): right
after the iteration for `p` every byte `a` with
`dst_jmp_patch + JUMP_INS_SIZE <= a < return_address` holds `INT3_OPCODE`, and
it still does after activation unless `a` lies in the 4-byte jump word of a
later site or among the trampoline entries written by this activation; the
iteration changes no byte outside the jump word at `dst_jmp_patch`, the trap
range and (in trampoline mode) the 32 bytes at the current `next_trampoline`;
without a trampoline table and with the jump word ending at or before
`return_address`, no byte at or beyond `return_address` and no byte before
`dst_jmp_patch` is changed by the iteration. -/
theorem C10_trap_fill (c : Consts) (env : Env) (w : World) (hb : c.INT3_OPCODE < 256)
    (h : (activate_patches c env w).completed = true)
    (pre : List patch_desc) (p : patch_desc) (post : List patch_desc)
    (hitems : w.desc.items = pre ++ p :: post) :
    ∃ w1 : World,
      activate_loop c pre (writable env w) = Run.done w1
      ∧ (activate_site c w1 p).completed = true
      ∧ (∀ a : Nat, p.dst_jmp_patch + c.JUMP_INS_SIZE ≤ a → a < p.return_address →
          (activate_site c w1 p).state.m.mem a = c.INT3_OPCODE)
      ∧ (∀ a : Nat, p.dst_jmp_patch + c.JUMP_INS_SIZE ≤ a → a < p.return_address →
          (∀ q ∈ post, ¬ (q.dst_jmp_patch ≤ a ∧ a < q.dst_jmp_patch + 4)) →
          (w.desc.uses_trampoline_table = true →
            ¬ (w.desc.next_trampoline ≤ a
                ∧ a < w.desc.next_trampoline + 32 * w.desc.count)) →
          (activate_patches c env w).state.m.mem a = c.INT3_OPCODE)
      ∧ (∀ a : Nat,
          ¬ (p.dst_jmp_patch + c.JUMP_INS_SIZE ≤ a ∧ a < p.return_address) →
          ¬ (p.dst_jmp_patch ≤ a ∧ a < p.dst_jmp_patch + 4) →
          ¬ (w1.desc.uses_trampoline_table = true
              ∧ w1.desc.next_trampoline ≤ a ∧ a < w1.desc.next_trampoline + 32) →
          (activate_site c w1 p).state.m.mem a = w1.m.mem a)
      ∧ (w1.desc.uses_trampoline_table = false →
          p.dst_jmp_patch + 4 ≤ p.return_address →
          ∀ a : Nat, (a < p.dst_jmp_patch ∨ p.return_address ≤ a) →
            (activate_site c w1 p).state.m.mem a = w1.m.mem a) := by
  have hcount : w.desc.count = pre.length + (post.length + 1) := by
    simp only [intercept_desc.count, hitems, List.length_append, List.length_cons]
  obtain ⟨wf, hloop, hmemf, -⟩ := activate_patches_completed c env w (by omega) h
  rw [hitems, activate_loop_append] at hloop
  cases hpre : activate_loop c pre (writable env w) with
  | abort msg s =>
    rw [hpre] at hloop
    exact absurd hloop (by simp)
  | done w1 =>
    rw [hpre] at hloop
    simp only [activate_loop] at hloop
    cases hs : activate_site c w1 p with
    | abort msg s =>
      rw [hs] at hloop
      exact absurd hloop (by simp)
    | done w2 =>
      rw [hs] at hloop
      simp only at hloop
      have hc : (activate_site c w1 p).completed = true := by rw [hs]; rfl
      have hmem := activate_site_mem c w1 p hc
      have hcur1 := activate_loop_cursor c pre (writable env w) w1 hpre
      have hcur2 := activate_loop_cursor c [p] w1 w2 (by simp only [activate_loop, hs])
      simp only [List.length_singleton, Nat.mul_one] at hcur2
      have hw : (writable env w).desc = w.desc := rfl
      rw [hw] at hcur1
      refine ⟨w1, rfl, hc, fun a h1 h2 => ?_, fun a h1 h2 hq ht => ?_, fun a h1 h2 h3 => ?_,
        fun ht hr a ha => ?_⟩
      · rw [(hmem a).1 ⟨h1, h2⟩]
        exact Nat.mod_eq_of_lt hb
      · rw [hmemf, activate_loop_keeps_trap c post a w2 wf hloop ?_ hq ?_]
        · exact Nat.mod_eq_of_lt hb
        · have := (hmem a).1 ⟨h1, h2⟩
          rw [hs] at this
          exact this
        · intro hu
          rw [hcur2.1, hcur1.1] at hu
          have hreg := ht hu
          rw [hcur2.2, hcur1.1, if_pos hu, hcur1.2, if_pos hu]
          omega
      · exact (hmem a).2 h1 h2 h3
      · refine (hmem a).2 (by omega) (by omega) ?_
        rw [ht]
        simp

/-- C10 witness: two sites, the first with an 8-byte overwritable range; the
four bytes after its jump word hold `0xCC` after activation. -/
theorem C10_trap_fill_witness :
    (activate_patches ppc_consts page_env
        ⟨image false 0 [⟨0x10000100, 0x100, 0x10000100, 0x10000108, 0x10000200⟩,
          site_at 0x10000300 0x10000400], zero_machine⟩).state.m.mem 0x10000105 = 0xCC := by
  obtain ⟨w1, -, -, -, h4, -⟩ := C10_trap_fill ppc_consts page_env
    ⟨image false 0 [⟨0x10000100, 0x100, 0x10000100, 0x10000108, 0x10000200⟩,
      site_at 0x10000300 0x10000400], zero_machine⟩ (by decide) (by decide)
    [] ⟨0x10000100, 0x100, 0x10000100, 0x10000108, 0x10000200⟩
    [site_at 0x10000300 0x10000400] rfl
  exact h4 0x10000105 (by decide) (by decide) (by decide) (by decide)

/-! ## Theorems: the trampoline table -/

/-- A table size that is not a multiple of 4: a table of 30 bytes and one site.  The
check `used + TRAMPOLINE_SIZE >= size` (0 + 28 >= 30) lets the reservation
pass, `create_absolute_jumptr` stores eight words, the cursor ends 32 bytes
into the 30-byte table, and the bytes at offsets 30 and 31 are written. -/
theorem unaligned_table_size_overflow :
    (activate_patches ppc_consts page_env
        ⟨image true 30 [site_at 0x10000100 0x7fff80001000], zero_machine⟩).completed = true
    ∧ (activate_patches ppc_consts page_env
        ⟨image true 30 [site_at 0x10000100 0x7fff80001000], zero_machine⟩).state.desc.next_trampoline
        - (image true 30 []).trampoline_table = 32
    ∧ zero_machine.mem (0x10020000 + 30) = 0
    ∧ (activate_patches ppc_consts page_env
        ⟨image true 30 [site_at 0x10000100 0x7fff80001000], zero_machine⟩).state.m.mem
          (0x10020000 + 30) = 0x80
    ∧ (activate_patches ppc_consts page_env
        ⟨image true 30 [site_at 0x10000100 0x7fff80001000], zero_machine⟩).state.m.mem
          (0x10020000 + 31) = 0x4e := by
  decide

/-- C6 as stated fails at the witness `n = 3`: with a table of
`3 * TRAMPOLINE_SIZE = 84` bytes, activating three in-bounds sites aborts
with "trampoline space not enough". -/
theorem C6_three_entries_counterexample :
    (image true (3 * TRAMPOLINE_SIZE) []).trampoline_table_size = 84
    ∧ (activate_patches ppc_consts page_env
        ⟨image true (3 * TRAMPOLINE_SIZE)
          [site_at 0x10000100 0x7fff80001000, site_at 0x10000200 0x7fff80002000,
           site_at 0x10000300 0x7fff80003000], zero_machine⟩).message
      = some "trampoline space not enough" := by
  decide

/-- C6 (amended): an entry advances the cursor by 32 bytes and
`check_trampoline_usage` refuses a reservation when
`used + TRAMPOLINE_SIZE >= trampoline_table_size`, so a table of
`n * TRAMPOLINE_SIZE = 28 n` bytes takes exactly `7 n / 8` (rounded down)
entries.  For every `n >= 1`, with `uses_trampoline_table = true`, the cursor
at the start of the table and sites that pass the bounds check: activating
`j` sites with `8 j <= 7 n` runs the loop to completion with the cursor at
`32 j` (and completes if the second `mprotect` succeeds); activating more
sites aborts with "trampoline space not enough" at site number `7 n / 8 + 1`,
in the state left by the `7 n / 8` sites before it; in particular activating
`n` sites never completes. -/
theorem C6_exact_capacity (c : Consts) (env : Env) (w : World) (n : Nat)
    (hn : 1 ≤ n) (hS : n * TRAMPOLINE_SIZE < 2 ^ 64)
    (ht : w.desc.uses_trampoline_table = true)
    (hs : w.desc.trampoline_table_size = n * TRAMPOLINE_SIZE)
    (hx : w.desc.next_trampoline = w.desc.trampoline_table)
    (hm : env.mprotect_ok (first_page env w.desc) (protect_size env w.desc)
      (PROT_READ ||| PROT_WRITE ||| PROT_EXEC) = true)
    (hb : ∀ p ∈ w.desc.items, w.desc.text_start ≤ p.dst_jmp_patch
      ∧ p.dst_jmp_patch ≤ w.desc.text_end) :
    (8 * w.desc.count ≤ 7 * n →
      ∃ w1 : World, activate_loop c w.desc.items (writable env w) = Run.done w1
        ∧ w1.desc.next_trampoline = w.desc.trampoline_table + 32 * w.desc.count
        ∧ (env.mprotect_ok (first_page env w.desc) (protect_size env w.desc)
            (PROT_READ ||| PROT_EXEC) = true →
          (activate_patches c env w).completed = true))
    ∧ (7 * n < 8 * w.desc.count →
      ∃ (pre : List patch_desc) (p : patch_desc) (post : List patch_desc) (w1 : World),
        w.desc.items = pre ++ p :: post
        ∧ pre.length = 7 * n / 8
        ∧ activate_loop c pre (writable env w) = Run.done w1
        ∧ w1.desc.next_trampoline = w.desc.trampoline_table + 32 * (7 * n / 8)
        ∧ activate_patches c env w = Run.abort "trampoline space not enough" w1)
    ∧ (n ≤ w.desc.count → (activate_patches c env w).completed = false) := by
  have hT : n * TRAMPOLINE_SIZE = 28 * n := by
    simp only [TRAMPOLINE_SIZE]
    omega
  rw [hT] at hs hS
  have hb2 : ∀ p ∈ w.desc.items, ¬ (p.dst_jmp_patch < (writable env w).desc.text_start
      ∨ p.dst_jmp_patch > (writable env w).desc.text_end) := by
    intro p hp
    have := hb p hp
    simp only [writable]
    omega
  have hsw : (writable env w).desc.trampoline_table_size = 28 * n := hs
  have hfail : 7 * n < 8 * w.desc.count →
      ∃ (pre : List patch_desc) (p : patch_desc) (post : List patch_desc) (w1 : World),
        w.desc.items = pre ++ p :: post
        ∧ pre.length = 7 * n / 8
        ∧ activate_loop c pre (writable env w) = Run.done w1
        ∧ w1.desc.next_trampoline = w.desc.trampoline_table + 32 * (7 * n / 8)
        ∧ activate_patches c env w = Run.abort "trampoline space not enough" w1 := by
    intro hlt
    have hK : 7 * n / 8 < w.desc.items.length := by
      simp only [intercept_desc.count] at hlt
      omega
    obtain ⟨pre, p, post, hsplit, hlen⟩ := list_split_at w.desc.items (7 * n / 8) hK
    obtain ⟨w1, h1, h2⟩ := activate_loop_trampoline_abort c pre post p 0 (writable env w) ht
      (by simpa [writable] using hx) (by rw [hsw]; exact hS)
      (fun q hq => hb2 q (by
        rw [hsplit]
        rcases List.mem_append.1 hq with hq | hq
        · exact List.mem_append_left _ hq
        · exact List.mem_append_right _ (by
            rw [List.mem_singleton.1 hq]
            exact List.mem_cons_self _ _)))
      (fun j hj => by rw [hsw]; omega) (by rw [hsw]; omega) (by omega)
    have hcur := (activate_loop_cursor c pre _ w1 h1).2
    rw [if_pos (show (writable env w).desc.uses_trampoline_table = true from ht)] at hcur
    rw [← hsplit] at h2
    refine ⟨pre, p, post, w1, hsplit, hlen, h1, ?_, ?_⟩
    · rw [hcur, hlen]
      show w.desc.next_trampoline + _ = _
      rw [hx]
    · exact activate_patches_loop_abort c env w
        (count_ne_zero_of_items w.desc pre post p hsplit) hm _ w1 h2
  refine ⟨fun hle => ?_, hfail, fun hge => ?_⟩
  · obtain ⟨w1, h1⟩ := activate_loop_trampoline_done c w.desc.items 0 (writable env w) ht
      (by simpa [writable] using hx) (by rw [hsw]; exact hS) hb2
      (fun j hj => by
        rw [hsw]
        simp only [intercept_desc.count] at hle
        omega)
    have hcur := (activate_loop_cursor c _ _ w1 h1).2
    rw [if_pos (show (writable env w).desc.uses_trampoline_table = true from ht)] at hcur
    refine ⟨w1, h1, ?_, fun hm2 => ?_⟩
    · rw [hcur]
      show w.desc.next_trampoline + _ = _
      rw [hx]
      rfl
    · by_cases h0 : w.desc.count = 0
      · rw [activate_patches_empty c env w h0]
        rfl
      · rw [activate_patches_loop_done c env w h0 hm w1 h1, if_pos hm2]
        rfl
  · obtain ⟨pre, p, post, w1, -, -, -, -, h5⟩ := hfail (by omega)
    rw [h5]
    rfl

/-- C6 witness: `n = 3`, a table of 84 bytes and three sites: two reservations
succeed and the third site aborts with the exhaustion message. -/
theorem C6_exact_capacity_witness :
    ∃ (pre : List patch_desc) (p : patch_desc) (post : List patch_desc) (w1 : World),
      [site_at 0x10000100 0x7fff80001000, site_at 0x10000200 0x7fff80002000,
        site_at 0x10000300 0x7fff80003000] = pre ++ p :: post
      ∧ pre.length = 7 * 3 / 8
      ∧ activate_patches ppc_consts page_env
          ⟨image true (3 * TRAMPOLINE_SIZE)
            [site_at 0x10000100 0x7fff80001000, site_at 0x10000200 0x7fff80002000,
             site_at 0x10000300 0x7fff80003000], zero_machine⟩
          = Run.abort "trampoline space not enough" w1 :=
  ((C6_exact_capacity ppc_consts page_env
      ⟨image true (3 * TRAMPOLINE_SIZE)
        [site_at 0x10000100 0x7fff80001000, site_at 0x10000200 0x7fff80002000,
         site_at 0x10000300 0x7fff80003000], zero_machine⟩
      3 (by decide) (by decide) rfl rfl rfl rfl (by decide)).2.1 (by decide)).elim
    fun pre h1 => h1.elim fun p h2 => h2.elim fun post h3 => h3.elim fun w1 h4 =>
      ⟨pre, p, post, w1, h4.1, h4.2.1, h4.2.2.2.2⟩

/-! ## Theorems: the preparation pass -/

/-- C8 as stated fails for a path of 4096 characters: the pass aborts, but the
4096-byte buffer of `snprintf` holds only the first 4095 characters of the
line, so the logged buffer does not contain `desc->path`. -/
theorem C8_long_path_counterexample :
    (create_patch_wrappers narrow_consts example_globals example_template
        { image false 0 [raw_site 0x10000100] with path := String.mk (List.replicate 4096 'a') }
        0x40000000 zero_machine).message
      = some "not enough space for patching around syscal"
    ∧ ∀ buffer ∈ logged (create_patch_wrappers narrow_consts example_globals example_template
        { image false 0 [raw_site 0x10000100] with path := String.mk (List.replicate 4096 'a') }
        0x40000000 zero_machine).state.m.trace,
      ¬ List.IsInfix (String.mk (List.replicate 4096 'a')).data buffer.data := by
  rw [create_patch_wrappers_short narrow_consts example_globals example_template _ 0x40000000
    zero_machine (raw_site 0x10000100) [] rfl (by decide)]
  refine ⟨rfl, ?_⟩
  intro buffer hb hin
  simp only [Run.state, logged, zero_machine, List.nil_append, List.filterMap_cons,
    List.filterMap_nil, List.mem_singleton] at hb
  subst hb
  have h1 := hin.length_le
  rw [snprintf_data, List.length_take, List.length_replicate] at h1
  omega

/-- C8 (amended): for an image with at least one site, if
`SYSCALL_INS_SIZE < JUMP_INS_SIZE` then `create_patch_wrappers` aborts at the
first site with "not enough space for patching around syscal"; before that
it emits only the debug line and one `intercept_log` call whose buffer holds
the first 4095 characters of "unintercepted syscall at: <path> 0x<offset in
hex>" and whose length argument is the full length of that line; `mark_jump`
and `create_wrapper` are not called, memory and the output cursor are
unchanged.  When the line fits the buffer, the logged buffer contains
`desc->path` and the hexadecimal `syscall_offset`.  If
`JUMP_INS_SIZE <= SYSCALL_INS_SIZE` the pass does not abort. -/
theorem C8_insufficient_space (c : Consts) (g : Globals) (t : Template)
    (desc : intercept_desc) (dst : Nat) (m : Machine) (p : patch_desc)
    (rest : List patch_desc) (hitems : desc.items = p :: rest) :
    (c.SYSCALL_INS_SIZE < c.JUMP_INS_SIZE →
      (create_patch_wrappers c g t desc dst m).message
          = some "not enough space for patching around syscal"
      ∧ (create_patch_wrappers c g t desc dst m).state.dst = dst
      ∧ (create_patch_wrappers c g t desc dst m).state.m.mem = m.mem
      ∧ (create_patch_wrappers c g t desc dst m).state.m.trace
          = m.trace ++ [Event.debug_dump (patching_line desc p),
              Event.intercept_log (snprintf 0x1000 (unintercepted_line desc p)).1
                (unintercepted_line desc p).length]
      ∧ (snprintf 0x1000 (unintercepted_line desc p)).1.data
          = (unintercepted_line desc p).data.take 4095
      ∧ ((unintercepted_line desc p).length ≤ 4095 →
          List.IsInfix desc.path.data (snprintf 0x1000 (unintercepted_line desc p)).1.data
          ∧ List.IsInfix (hex p.syscall_offset).data
              (snprintf 0x1000 (unintercepted_line desc p)).1.data))
    ∧ (c.JUMP_INS_SIZE ≤ c.SYSCALL_INS_SIZE →
      (create_patch_wrappers c g t desc dst m).completed = true) := by
  constructor
  · intro h
    rw [create_patch_wrappers_short c g t desc dst m p rest hitems h]
    refine ⟨rfl, rfl, rfl, rfl, rfl, fun hfit => ?_⟩
    have hlen : (unintercepted_line desc p).data.length ≤ 4095 := hfit
    rw [snprintf_data, List.take_of_length_le hlen, unintercepted_line_data]
    constructor
    · exact ⟨"unintercepted syscall at: ".data,
        " 0x".data ++ ((hex p.syscall_offset).data ++ "\n".data), by simp⟩
    · exact ⟨"unintercepted syscall at: ".data ++ (desc.path.data ++ " 0x".data),
        "\n".data, by simp⟩
  · intro h
    exact create_patch_wrappers_loop_completes c g t desc (by omega) _ _ _

/-- C8 witness: 2 overwritable bytes against a minimum of 5 abort the pass at
the first site, with the offset `0x100` in the logged line. -/
theorem C8_insufficient_space_witness :
    narrow_consts.SYSCALL_INS_SIZE = 2 ∧ narrow_consts.JUMP_INS_SIZE = 5
    ∧ (create_patch_wrappers narrow_consts example_globals example_template
        (image false 0 [raw_site 0x10000100]) 0x40000000 zero_machine).message
      = some "not enough space for patching around syscal"
    ∧ (create_patch_wrappers narrow_consts example_globals example_template
        (image false 0 [raw_site 0x10000100]) 0x40000000 zero_machine).state.m.trace
      = [Event.debug_dump "patching libc.so.6:0x100\n",
         Event.intercept_log "unintercepted syscall at: libc.so.6 0x100\n" 42] := by
  have h := (C8_insufficient_space narrow_consts example_globals example_template
    (image false 0 [raw_site 0x10000100]) 0x40000000 zero_machine (raw_site 0x10000100) []
    rfl).1 (by decide)
  refine ⟨rfl, rfl, h.1, ?_⟩
  rw [h.2.2.2.1]
  rfl

/-- C9: on every image for which `create_patch_wrappers` returns without abort,
the sites are the same in number and order and, for every index `i`, site `i`
has `dst_jmp_patch = syscall_addr`,
`return_address = syscall_addr + SYSCALL_INS_SIZE` as pointer arithmetic
computes it (modulo `2 ^ 64`; the plain sum when that is below `2 ^ 64`),
`asm_wrapper` equal to the output cursor left by the pass over the first `i`
sites (the value `*dst` had when site `i` was reached), and unchanged
`syscall_addr` and `syscall_offset`; `mark_jump` was called once per site, in
order, with that site's return address. -/
theorem C9_preparation_postcondition (c : Consts) (g : Globals) (t : Template)
    (desc : intercept_desc) (dst : Nat) (m : Machine)
    (h : (create_patch_wrappers c g t desc dst m).completed = true) :
    (create_patch_wrappers c g t desc dst m).state.items.length = desc.count
    ∧ (∀ (i : Nat) (p : patch_desc), desc.items[i]? = some p →
        ∃ q : patch_desc,
          (create_patch_wrappers c g t desc dst m).state.items[i]? = some q
          ∧ q.dst_jmp_patch = p.syscall_addr
          ∧ q.return_address = ptr_add p.syscall_addr c.SYSCALL_INS_SIZE
          ∧ q.return_address = (p.syscall_addr + c.SYSCALL_INS_SIZE) % 2 ^ 64
          ∧ (p.syscall_addr + c.SYSCALL_INS_SIZE < 2 ^ 64 →
              q.return_address = p.syscall_addr + c.SYSCALL_INS_SIZE)
          ∧ q.asm_wrapper
              = (create_patch_wrappers_loop c g t desc (desc.items.take i) 0
                  { items := [], dst := dst, m := m }).state.dst
          ∧ q.syscall_addr = p.syscall_addr
          ∧ q.syscall_offset = p.syscall_offset)
    ∧ mark_jump_calls (create_patch_wrappers c g t desc dst m).state.m.trace
        = mark_jump_calls m.trace
          ++ desc.items.map (fun p => ptr_add p.syscall_addr c.SYSCALL_INS_SIZE) := by
  obtain ⟨h1, -, h3, h4⟩ := create_patch_wrappers_loop_post c g t desc desc.items 0
    { items := [], dst := dst, m := m } h
  refine ⟨?_, fun i p hp => ?_, h4⟩
  · rw [create_patch_wrappers, h1]
    simp [intercept_desc.count]
  · have h5 := h3 i p hp
    rw [List.length_nil, Nat.zero_add] at h5
    exact ⟨_, h5, rfl, rfl, ptr_add_nat _ _, fun hlt => ptr_add_nat_of_lt _ _ hlt, rfl, rfl, rfl⟩

/-- C9 witness: two sites prepared with 4-byte instructions; both return
addresses are marked, in order. -/
theorem C9_preparation_postcondition_witness :
    (create_patch_wrappers ppc_consts example_globals example_template
        (image false 0 [raw_site 0x10000100, raw_site 0x10000200]) 0x40000000
        zero_machine).completed = true
    ∧ mark_jump_calls (create_patch_wrappers ppc_consts example_globals example_template
        (image false 0 [raw_site 0x10000100, raw_site 0x10000200]) 0x40000000
        zero_machine).state.m.trace = [0x10000104, 0x10000204] :=
  ⟨by decide,
   (C9_preparation_postcondition ppc_consts example_globals example_template
      (image false 0 [raw_site 0x10000100, raw_site 0x10000200]) 0x40000000 zero_machine
      (by decide)).2.2⟩

/-! ## Theorems: the size of a trampoline entry -/

/-- C16, the code at a failing input: one reservation in a table of 4096 bytes.
The cursor advances by 32 bytes (eight stored words), not by
`TRAMPOLINE_SIZE = 28`, and the four bytes at offsets 28..31 from the old
cursor are written by `create_absolute_jumptr` (the `bctr` word). -/
theorem C16_entry_is_32_bytes :
    TRAMPOLINE_SIZE = 28
    ∧ (activate_patches ppc_consts page_env
        ⟨image true 4096 [site_at 0x10000100 0x7fff80001000], zero_machine⟩).completed = true
    ∧ (activate_patches ppc_consts page_env
        ⟨image true 4096 [site_at 0x10000100 0x7fff80001000],
          zero_machine⟩).state.desc.next_trampoline
        = (image true 4096 []).next_trampoline + 32
    ∧ (create_absolute_jumptr 0x10020000 0x7fff80001000 zero_machine).1 = 0x10020000 + 32
    ∧ zero_machine.mem (0x10020000 + 28) = 0
    ∧ (create_absolute_jumptr 0x10020000 0x7fff80001000 zero_machine).2.mem (0x10020000 + 28)
        = 0x20
    ∧ (create_absolute_jumptr 0x10020000 0x7fff80001000 zero_machine).2.mem (0x10020000 + 31)
        = 0x4e := by
  decide

/-! ## Theorems: initialisation -/

/-- C18, the code at a failing input: the label `r2_load_addr` placed 8 bytes
before the template start.  No assertion of `init_patcher` mentions that
label, so it returns, with `o_r2_load_addr = -8`, outside the template. -/
theorem C18_r2_offset_unchecked :
    (init_patcher stray_template).isSome = true
    ∧ (init_patcher stray_template).map (fun g => g.asm_wrapper_tmpl_size) = some 96
    ∧ (init_patcher stray_template).map (fun g => g.o_patch_desc_addr) = some 20
    ∧ (init_patcher stray_template).map (fun g => g.o_wrapper_level1_addr) = some 36
    ∧ (init_patcher stray_template).map (fun g => g.o_r2_load_addr) = some (-8) := by
  decide

/-! ## Theorems: error reporting -/

/-- C14 as stated fails for a result of 0 flagged as an error (summary-overflow
bit set): `syscall_error_code` returns 0, so the wrapper returns 0 and not -1. -/
theorem C14_flagged_zero_counterexample :
    (0x10000000 &&& 0x10000000 : Nat) > 0
    ∧ (syscall_error_code 0 ⟨7, 0x10000000⟩).1 = 0
    ∧ (syscall_no_intercept_wrapper 0 ⟨7, 0x10000000⟩).1 = 0
    ∧ (syscall_no_intercept_wrapper 0 ⟨7, 0x10000000⟩).1 ≠ -1 := by
  decide

/-- C14 (amended): for a 32-bit condition register value `cr`: when
`cr & 0x10000000` is zero, `syscall_error_code` returns 0 and leaves `errno`
unchanged; when the bit is set it sets `errno` to `(int) result` and returns
`(int) result`, which equals `result` when `result` fits an `int` and is
non-zero unless the low 32 bits of `result` are zero; in both cases the
condition register is written back with the value read.  The wrapper returns
-1 for every flagged result whose `(int)` value is non-zero, and returns
`result` unchanged otherwise. -/
theorem C14_syscall_error_code (result : Int) (s : Cpu) (hcr : s.cr < 2 ^ 32) :
    (s.cr &&& 0x10000000 = 0 →
        (syscall_error_code result s).1 = 0
        ∧ (syscall_error_code result s).2.errno = s.errno
        ∧ (syscall_no_intercept_wrapper result s).1 = result)
    ∧ (s.cr &&& 0x10000000 ≠ 0 →
        (syscall_error_code result s).1 = to_int32 result
        ∧ (syscall_error_code result s).2.errno = to_int32 result
        ∧ (-2147483648 ≤ result → result ≤ 2147483647 →
            (syscall_error_code result s).1 = result
            ∧ (syscall_error_code result s).2.errno = result)
        ∧ (to_int32 result ≠ 0 → (syscall_no_intercept_wrapper result s).1 = -1)
        ∧ (to_int32 result = 0 → (syscall_no_intercept_wrapper result s).1 = result))
    ∧ (syscall_error_code result s).2.cr = s.cr
    ∧ (syscall_no_intercept_wrapper result s).2.cr = s.cr := by
  have hi : s.cr % 2 ^ 32 = s.cr := Nat.mod_eq_of_lt hcr
  have h32 : ∀ x : Int, -2147483648 ≤ x → x ≤ 2147483647 → to_int32 x = x := by
    intro x h1 h2
    simp only [to_int32]
    omega
  have hz : to_int32 0 = 0 := by decide
  by_cases hb : s.cr &&& 0x10000000 = 0
  · have hnot : ¬ (s.cr &&& 0x10000000 > 0) := by omega
    simp only [syscall_no_intercept_wrapper, syscall_error_code, hi, hnot, if_false, hz]
    simp [hb]
  · have hpos : s.cr &&& 0x10000000 > 0 := Nat.pos_of_ne_zero hb
    simp only [syscall_no_intercept_wrapper, syscall_error_code, hi, hpos, if_true]
    refine ⟨fun h => absurd h hb, fun _ => ⟨trivial, trivial, fun h1 h2 => ?_, fun h => ?_,
      fun h => ?_⟩, trivial, ?_⟩
    · exact ⟨h32 result h1 h2, h32 result h1 h2⟩
    · simp [h]
    · simp [h]
    · split <;> rfl

/-- C14 witness: `EACCES` (13) flagged as an error gives `errno = 13` and -1. -/
theorem C14_syscall_error_code_witness :
    (syscall_error_code 13 ⟨0, 0x30000000⟩).2.errno = 13
    ∧ (syscall_no_intercept_wrapper 13 ⟨0, 0x30000000⟩).1 = -1 :=
  ⟨((C14_syscall_error_code 13 ⟨0, 0x30000000⟩ (by decide)).2.1 (by decide)).2.2.1
      (by decide) (by decide) |>.2,
   ((C14_syscall_error_code 13 ⟨0, 0x30000000⟩ (by decide)).2.1 (by decide)).2.2.2.1
      (by decide)⟩

/-! ## Theorems: patching the immediates of a long-load sequence -/

/-- C12 as stated fails twice.  A word at `dst` whose immediate field already
holds `0xFFFF` keeps it (the field is ORed, not overwritten), so the low 16
bits are not the chunk `0x1234` of `loc`; and `loc = 2 ^ 48` leaves the same
three immediates as `loc = 0`, so bits 63..48 of `loc` are not encoded. -/
theorem C12_or_counterexample :
    (zero_machine.store32 0x1000 0x39E0FFFF).load32 0x1000 % 65536 = 0xFFFF
    ∧ (create_movabs_p1 0x1000 0x123456789abc
        (zero_machine.store32 0x1000 0x39E0FFFF)).load32 0x1000 % 65536 = 0xFFFF
    ∧ 0x123456789abc / 2 ^ 32 % 65536 = 0x1234
    ∧ (create_movabs_p1 0x1000 (2 ^ 48) zero_machine).load32 0x1000 % 65536 = 0
    ∧ (create_movabs_p1 0x1000 (2 ^ 48) zero_machine).load32 0x1008 % 65536 = 0
    ∧ (create_movabs_p1 0x1000 (2 ^ 48) zero_machine).load32 0x100c % 65536 = 0 := by
  decide

/-- C12 (amended): after `create_movabs_p1(dst, loc)` the low 16 bits of the
words at byte offsets 0, 8 and 12 are the bitwise OR of what they held before
with the chunks of `loc` (bits 47..32, 31..16, 15..0), hence exactly those
chunks when the immediate fields held zero before; the upper 16 bits of the
three words and the word at offset 4 are unchanged; the three chunks together
are `loc mod 2 ^ 48`, and the result does not depend on bits 63..48 of `loc`. -/
theorem C12_movabs_ors_immediates (dst loc : Nat) (m : Machine)
    (h0 : m.load32 dst % 65536 = 0) (h8 : m.load32 (dst + 8) % 65536 = 0)
    (h12 : m.load32 (dst + 12) % 65536 = 0) :
    ((create_movabs_p1 dst loc m).load32 dst % 65536 = loc % 2 ^ 64 / 2 ^ 32 % 65536
      ∧ (create_movabs_p1 dst loc m).load32 (dst + 8) % 65536 = loc % 2 ^ 64 / 2 ^ 16 % 65536
      ∧ (create_movabs_p1 dst loc m).load32 (dst + 12) % 65536 = loc % 65536)
    ∧ (∀ m0 : Machine,
        (create_movabs_p1 dst loc m0).load32 dst % 65536
            = m0.load32 dst % 65536 ||| loc % 2 ^ 64 / 2 ^ 32 % 65536
        ∧ (create_movabs_p1 dst loc m0).load32 (dst + 8) % 65536
            = m0.load32 (dst + 8) % 65536 ||| loc % 2 ^ 64 / 2 ^ 16 % 65536
        ∧ (create_movabs_p1 dst loc m0).load32 (dst + 12) % 65536
            = m0.load32 (dst + 12) % 65536 ||| loc % 65536
        ∧ (create_movabs_p1 dst loc m0).load32 dst / 65536 = m0.load32 dst / 65536
        ∧ (create_movabs_p1 dst loc m0).load32 (dst + 8) / 65536 = m0.load32 (dst + 8) / 65536
        ∧ (create_movabs_p1 dst loc m0).load32 (dst + 12) / 65536
            = m0.load32 (dst + 12) / 65536
        ∧ (create_movabs_p1 dst loc m0).load32 (dst + 4) = m0.load32 (dst + 4)
        ∧ create_movabs_p1 dst (loc % 2 ^ 48) m0 = create_movabs_p1 dst loc m0)
    ∧ 2 ^ 32 * (loc % 2 ^ 64 / 2 ^ 32 % 65536) + 2 ^ 16 * (loc % 2 ^ 64 / 2 ^ 16 % 65536)
        + loc % 65536 = loc % 2 ^ 48 := by
  have c0 : loc % 2 ^ 64 / 2 ^ 32 % 65536 < 65536 := Nat.mod_lt _ (by decide)
  have c1 : loc % 2 ^ 64 / 2 ^ 16 % 65536 < 65536 := Nat.mod_lt _ (by decide)
  have c2 : loc % 65536 < 65536 := Nat.mod_lt _ (by decide)
  have gen : ∀ m0 : Machine,
      (create_movabs_p1 dst loc m0).load32 dst % 65536
          = m0.load32 dst % 65536 ||| loc % 2 ^ 64 / 2 ^ 32 % 65536
      ∧ (create_movabs_p1 dst loc m0).load32 (dst + 8) % 65536
          = m0.load32 (dst + 8) % 65536 ||| loc % 2 ^ 64 / 2 ^ 16 % 65536
      ∧ (create_movabs_p1 dst loc m0).load32 (dst + 12) % 65536
          = m0.load32 (dst + 12) % 65536 ||| loc % 65536
      ∧ (create_movabs_p1 dst loc m0).load32 dst / 65536 = m0.load32 dst / 65536
      ∧ (create_movabs_p1 dst loc m0).load32 (dst + 8) / 65536 = m0.load32 (dst + 8) / 65536
      ∧ (create_movabs_p1 dst loc m0).load32 (dst + 12) / 65536
          = m0.load32 (dst + 12) / 65536
      ∧ (create_movabs_p1 dst loc m0).load32 (dst + 4) = m0.load32 (dst + 4)
      ∧ create_movabs_p1 dst (loc % 2 ^ 48) m0 = create_movabs_p1 dst loc m0 := by
    intro m0
    obtain ⟨w0, w4, w8, w12⟩ := create_movabs_p1_words dst loc m0
    rw [w0, w4, w8, w12]
    exact ⟨or16_mod _ _ c0, or16_mod _ _ c1, or16_mod _ _ c2, or16_div _ _ c0,
      or16_div _ _ c1, or16_div _ _ c2, rfl, create_movabs_p1_mod dst loc m0⟩
  refine ⟨?_, gen, by omega⟩
  obtain ⟨g0, g8, g12, _⟩ := gen m
  rw [g0, g8, g12, h0, h8, h12, Nat.zero_or, Nat.zero_or, Nat.zero_or]
  exact ⟨rfl, rfl, rfl⟩

/-- C12 witness: the `li`, `oris`, `ori` words with empty immediates receive
the three chunks of `0x7fff90008000`. -/
theorem C12_movabs_ors_immediates_witness :
    (create_movabs_p1 0x1000 0x7fff90008000
        ((zero_machine.store32 0x1000 0x39E00000).store32 0x1008 0x65EF0000)).load32 0x1000
          % 65536 = 0x7fff90008000 % 2 ^ 64 / 2 ^ 32 % 65536 :=
  (C12_movabs_ors_immediates 0x1000 0x7fff90008000
    ((zero_machine.store32 0x1000 0x39E00000).store32 0x1008 0x65EF0000)
    (by decide) (by decide) (by decide)).1.1

/-! ## Theorems: the two long-address encoders -/

/-- C20: for every position `p`, address `tgt` and memory, emitting
`create_absolute_jumptr(p, 0)` and then applying `create_movabs_p1(p + 4, tgt)`
leaves the same memory, byte for byte, as `create_absolute_jumptr(p, tgt)`;
the words 0, 2 and 3 from `p + 4` are the `li`, `oris` and `ori` words and
carry bits 47..32, 31..16 and 15..0 of the address, and the word between them
is the shift. -/
theorem C20_encoders_agree (p tgt : Nat) (m : Machine) :
    (create_movabs_p1 (p + 4) tgt (create_absolute_jumptr p 0 m).2).mem
      = (create_absolute_jumptr p tgt m).2.mem
    ∧ (create_absolute_jumptr p tgt m).2.load32 (p + 4)
        = 0x39E00000 + tgt % 2 ^ 64 / 2 ^ 32 % 65536
    ∧ (create_absolute_jumptr p tgt m).2.load32 (p + 4 + 4) = 0x79EF07C6
    ∧ (create_absolute_jumptr p tgt m).2.load32 (p + 4 + 8)
        = 0x65EF0000 + tgt % 2 ^ 64 / 2 ^ 16 % 65536
    ∧ (create_absolute_jumptr p tgt m).2.load32 (p + 4 + 12) = 0x61EF0000 + tgt % 65536
    ∧ (create_absolute_jumptr p 0 m).2.load32 (p + 4) = 0x39E00000
    ∧ (create_absolute_jumptr p 0 m).2.load32 (p + 4 + 8) = 0x65EF0000
    ∧ (create_absolute_jumptr p 0 m).2.load32 (p + 4 + 12) = 0x61EF0000 := by
  obtain ⟨⟨_, a4, _, a12⟩, a16, _, _, _⟩ := jumptr_code p 0 m
  obtain ⟨⟨_, b4, b8, b12⟩, b16, _, _, _⟩ := jumptr_code p tgt m
  norm_num at a4 a12 a16
  simp only [Nat.add_assoc, Nat.reduceAdd]
  exact ⟨funext (movabs_after_jumptr_mem p tgt m), b4, b8, b12, b16, a4, a12, a16⟩

/-! ## Theorems: the return branch of a wrapper -/

/-- C13: for a template of at least 28 bytes copied at cursor `w` without
address wrap-around, `create_wrapper` places the return branch at
`r = w + asm_wrapper_tmpl_size - 28`.  If `check_relative_jump(r, return_address)`
is true, the cursor becomes `r + 4 = w + (asm_wrapper_tmpl_size - 28) + 4`, and
for 4-byte-aligned `r` and `return_address` the word at `r` is an I-form branch
(opcode 18, AA = 0, LK = 0) whose target is `return_address`.  Otherwise the
result is `create_movabs_p1(r, return_address)` applied to the instantiated
template: the words at `r`, `r + 8`, `r + 12` receive the three 16-bit chunks
of `return_address` by OR, the word at `r + 4` is kept, and the cursor becomes
`r + 28 = w + asm_wrapper_tmpl_size`.  In both cases `asm_wrapper = w`. -/
theorem C13_wrapper_return_branch (g : Globals) (t : Template) (patch : patch_desc)
    (patch_addr w : Nat) (m : Machine) (hsz : 28 ≤ g.asm_wrapper_tmpl_size)
    (hw : w + g.asm_wrapper_tmpl_size ≤ 2 ^ 64) :
    return_slot g w = w + g.asm_wrapper_tmpl_size - 28
    ∧ (create_wrapper g t patch patch_addr w m).patch.asm_wrapper = w
    ∧ (check_relative_jump (w + g.asm_wrapper_tmpl_size - 28) patch.return_address = true →
        (create_wrapper g t patch patch_addr w m).dst = w + g.asm_wrapper_tmpl_size - 28 + 4
        ∧ (create_wrapper g t patch patch_addr w m).dst
            = w + ((g.asm_wrapper_tmpl_size - 28) + 4)
        ∧ (create_wrapper g t patch patch_addr w m).m
            = create_jump 1 (w + g.asm_wrapper_tmpl_size - 28) patch.return_address
                (wrapper_body g t patch_addr w m)
        ∧ ((w + g.asm_wrapper_tmpl_size - 28) % 4 = 0 → patch.return_address % 4 = 0 →
            patch.return_address < 2 ^ 64 →
            ((create_wrapper g t patch patch_addr w m).m.load32
                (w + g.asm_wrapper_tmpl_size - 28)) >>> 26 = 18
            ∧ (((create_wrapper g t patch patch_addr w m).m.load32
                (w + g.asm_wrapper_tmpl_size - 28)) >>> 1) &&& 1 = 0
            ∧ ((create_wrapper g t patch patch_addr w m).m.load32
                (w + g.asm_wrapper_tmpl_size - 28)) &&& 1 = 0
            ∧ branch_target (w + g.asm_wrapper_tmpl_size - 28)
                ((create_wrapper g t patch patch_addr w m).m.load32
                  (w + g.asm_wrapper_tmpl_size - 28)) = some patch.return_address))
    ∧ (check_relative_jump (w + g.asm_wrapper_tmpl_size - 28) patch.return_address = false →
        (create_wrapper g t patch patch_addr w m).dst = w + g.asm_wrapper_tmpl_size
        ∧ (create_wrapper g t patch patch_addr w m).m.mem
            = (create_movabs_p1 (w + g.asm_wrapper_tmpl_size - 28) patch.return_address
                (wrapper_body g t patch_addr w m)).mem
        ∧ (create_wrapper g t patch patch_addr w m).m.load32 (w + g.asm_wrapper_tmpl_size - 28)
            = (wrapper_body g t patch_addr w m).load32 (w + g.asm_wrapper_tmpl_size - 28)
                ||| patch.return_address % 2 ^ 64 / 2 ^ 32 % 65536
        ∧ (create_wrapper g t patch patch_addr w m).m.load32
              (w + g.asm_wrapper_tmpl_size - 28 + 4)
            = (wrapper_body g t patch_addr w m).load32 (w + g.asm_wrapper_tmpl_size - 28 + 4)
        ∧ (create_wrapper g t patch patch_addr w m).m.load32
              (w + g.asm_wrapper_tmpl_size - 28 + 8)
            = (wrapper_body g t patch_addr w m).load32 (w + g.asm_wrapper_tmpl_size - 28 + 8)
                ||| patch.return_address % 2 ^ 64 / 2 ^ 16 % 65536
        ∧ (create_wrapper g t patch patch_addr w m).m.load32
              (w + g.asm_wrapper_tmpl_size - 28 + 12)
            = (wrapper_body g t patch_addr w m).load32 (w + g.asm_wrapper_tmpl_size - 28 + 12)
                ||| patch.return_address % 65536) := by
  have hr := return_slot_eq g w hsz hw
  refine ⟨hr, ?_, ?_, ?_⟩
  · rw [create_wrapper_patch]
  · intro hc
    rw [← hr] at hc ⊢
    rw [create_wrapper_short g t patch patch_addr w m hc]
    refine ⟨rfl, ?_, rfl, fun ha hat hlt => ?_⟩
    · show return_slot g w + 4 = _
      rw [hr]
      omega
    have hreach := (check_relative_jump_iff _ _).1 hc
    exact create_jump_branch 1 (return_slot g w) patch.return_address _ (by rw [hr]; omega) hlt
      ha hat ⟨by omega, by omega⟩
  · intro hc
    rw [← hr] at hc ⊢
    rw [create_wrapper_long g t patch patch_addr w m hc]
    obtain ⟨w0, w4, w8, w12⟩ := create_movabs_p1_words (return_slot g w) patch.return_address
      (debug_dump "Check relative NEED A LONG JUMP => TOC?!\n" (wrapper_body g t patch_addr w m))
    refine ⟨?_, create_movabs_p1_emit _ _ _ _, w0, w4, w8, w12⟩
    show return_slot g w + 7 * 4 = _
    rw [hr]
    omega

/-- C13 witness: the example template (96 bytes) instantiated 4 MiB above the
site, so the branch at offset 68 of the wrapper targets the return address. -/
theorem C13_wrapper_return_branch_witness :
    (create_wrapper example_globals example_template (site_at 0x10000100 0) 0x20000000
        0x10400000 zero_machine).dst = 0x10400000 + example_globals.asm_wrapper_tmpl_size - 28 + 4
    ∧ branch_target (0x10400000 + example_globals.asm_wrapper_tmpl_size - 28)
        ((create_wrapper example_globals example_template (site_at 0x10000100 0) 0x20000000
            0x10400000 zero_machine).m.load32
              (0x10400000 + example_globals.asm_wrapper_tmpl_size - 28))
        = some (site_at 0x10000100 0).return_address :=
  ⟨((C13_wrapper_return_branch example_globals example_template (site_at 0x10000100 0)
      0x20000000 0x10400000 zero_machine (by decide) (by decide)).2.2.1 (by decide)).1,
   (((C13_wrapper_return_branch example_globals example_template (site_at 0x10000100 0)
      0x20000000 0x10400000 zero_machine (by decide) (by decide)).2.2.1 (by decide)).2.2.2
        (by decide) (by decide) (by decide)).2.2.2⟩

/-! ## Theorems: the permission bracket -/

/-- C11: for every image with `count > 0` on which `activate_patches`
completes, the actions it appends to the trace are one protection change to
read/write/execute, then actions none of which is a protection change (all
stores are among them), then one protection change to read/execute; both
calls have the same range, starting at `round_down_address(text_start)` with
size `text_end - start`; memory is unchanged up to the first call and after
the loop. -/
theorem C11_permission_bracket (c : Consts) (env : Env) (w : World)
    (h0 : 0 < w.desc.count) (h : (activate_patches c env w).completed = true) :
    ∃ (mid : List Event) (w1 : World),
      (activate_patches c env w).state.m.trace
        = w.m.trace
          ++ [Event.mprotect (env.round_down_address w.desc.text_start) (protect_size env w.desc)
              (PROT_READ ||| PROT_WRITE ||| PROT_EXEC)]
          ++ mid
          ++ [Event.mprotect (env.round_down_address w.desc.text_start) (protect_size env w.desc)
              (PROT_READ ||| PROT_EXEC)]
      ∧ (∀ e ∈ mid, e.is_mprotect = false)
      ∧ mprotect_calls (activate_patches c env w).state.m.trace
          = mprotect_calls w.m.trace
            ++ [(env.round_down_address w.desc.text_start, protect_size env w.desc, 7),
                (env.round_down_address w.desc.text_start, protect_size env w.desc, 5)]
      ∧ (env.round_down_address w.desc.text_start ≤ w.desc.text_end → w.desc.text_end < 2 ^ 64 →
          protect_size env w.desc
            = w.desc.text_end - env.round_down_address w.desc.text_start)
      ∧ activate_loop c w.desc.items (writable env w) = Run.done w1
      ∧ (writable env w).m.mem = w.m.mem
      ∧ w1.m.trace = (writable env w).m.trace ++ mid
      ∧ (activate_patches c env w).state.m.mem = w1.m.mem := by
  obtain ⟨w1, hl, htr, hmem⟩ := activate_patches_trace c env w (by omega) h
  obtain ⟨mid, hmid, hk⟩ := activate_loop_trace c _ _ _ hl
  have hw : (writable env w).m.trace
      = w.m.trace ++ [Event.mprotect (env.round_down_address w.desc.text_start)
          (protect_size env w.desc) (PROT_READ ||| PROT_WRITE ||| PROT_EXEC)] := rfl
  have hfin : (activate_patches c env w).state.m.trace
      = w.m.trace
        ++ [Event.mprotect (env.round_down_address w.desc.text_start) (protect_size env w.desc)
            (PROT_READ ||| PROT_WRITE ||| PROT_EXEC)]
        ++ mid
        ++ [Event.mprotect (env.round_down_address w.desc.text_start) (protect_size env w.desc)
            (PROT_READ ||| PROT_EXEC)] := by
    rw [htr, hmid, hw]
    rfl
  refine ⟨mid, w1, hfin, hk, ?_, protect_size_eq env w.desc, hl, rfl, hmid, hmem⟩
  rw [hfin, mprotect_calls_append, mprotect_calls_append, mprotect_calls_append,
    mprotect_calls_of_none mid hk, List.append_nil, List.append_assoc]
  rfl

/-- C11 witness: one site in the example image; the two protection changes
cover `[0x10000000, 0x10010000)`. -/
theorem C11_permission_bracket_witness :
    mprotect_calls (activate_patches ppc_consts page_env
        ⟨image false 0 [site_at 0x10000100 0x10000200], zero_machine⟩).state.m.trace
      = mprotect_calls zero_machine.trace
        ++ [(page_env.round_down_address (image false 0 []).text_start,
              protect_size page_env (image false 0 [site_at 0x10000100 0x10000200]), 7),
            (page_env.round_down_address (image false 0 []).text_start,
              protect_size page_env (image false 0 [site_at 0x10000100 0x10000200]), 5)] :=
  (C11_permission_bracket ppc_consts page_env
    ⟨image false 0 [site_at 0x10000100 0x10000200], zero_machine⟩ (by decide) (by decide)).elim
    fun _ hm => hm.elim fun _ hw => hw.2.2.1

/-! ## Theorems: the order of the stores of one site -/

/-- C17: in the trace of a completed `activate_patches`, the actions of each site
are contiguous and ordered: first the actions `A` of the branch phase, which
contain the store of the branch word (primary opcode 18) at `dst_jmp_patch`
and no one-byte store, and which in trampoline mode are exactly the two
stores at `dst_jmp_patch` followed by the eleven stores of the trampoline
entry; then the one-byte stores of `INT3_OPCODE` to
`dst_jmp_patch + JUMP_INS_SIZE, ..., return_address - 1` in ascending order.
Hence every prefix of the trace either contains all of `A` or none of the
site's trap stores. -/
theorem C17_jump_before_trap_fill (c : Consts) (env : Env) (w : World)
    (pre post : List patch_desc) (patch : patch_desc)
    (hitems : w.desc.items = pre ++ patch :: post)
    (h : (activate_patches c env w).completed = true) :
    ∃ (w0 : World) (A T1 : List Event),
      activate_loop c pre (writable env w) = Run.done w0
      ∧ (activate_patches c env w).state.m.trace
          = w0.m.trace ++ A
            ++ (List.range (patch.return_address - (patch.dst_jmp_patch + c.JUMP_INS_SIZE))).map
                (fun k => Event.store8 (patch.dst_jmp_patch + c.JUMP_INS_SIZE + k)
                  (c.INT3_OPCODE % 256))
            ++ T1
      ∧ (∀ e ∈ A, e.is_store8 = false)
      ∧ (∃ W : Nat, Event.store32 patch.dst_jmp_patch W ∈ A ∧ W >>> 26 = 18)
      ∧ (w.desc.uses_trampoline_table = true →
          A = [Event.store32 patch.dst_jmp_patch 0x48000000,
              Event.store32 patch.dst_jmp_patch
                (0x48000000 + to_uint32 (to_int32
                  (ptr_diff w0.desc.next_trampoline patch.dst_jmp_patch)) / 4 % 16777216 * 4),
              Event.store32 w0.desc.next_trampoline 0xf9e1ffe0,
              Event.store32 (w0.desc.next_trampoline + 4) 0x39E00000,
              Event.store32 (w0.desc.next_trampoline + 4)
                (0x39E00000 + patch.asm_wrapper % 2 ^ 64 / 2 ^ 32 % 65536),
              Event.store32 (w0.desc.next_trampoline + 8) 0x79EF07C6,
              Event.store32 (w0.desc.next_trampoline + 12) 0x65EF0000,
              Event.store32 (w0.desc.next_trampoline + 12)
                (0x65EF0000 + patch.asm_wrapper % 2 ^ 64 / 2 ^ 16 % 65536),
              Event.store32 (w0.desc.next_trampoline + 16) 0x61EF0000,
              Event.store32 (w0.desc.next_trampoline + 16)
                (0x61EF0000 + patch.asm_wrapper % 65536),
              Event.store32 (w0.desc.next_trampoline + 20) 0x7de903a6,
              Event.store32 (w0.desc.next_trampoline + 24) 0xe9e1ffe0,
              Event.store32 (w0.desc.next_trampoline + 28) 0x4e800420])
      ∧ (∀ P : List Event, P <+: (activate_patches c env w).state.m.trace →
          (w0.m.trace ++ A) <+: P ∨ P <+: (w0.m.trace ++ A)) := by
  have h0 := count_ne_zero_of_items w.desc pre post patch hitems
  obtain ⟨wend, hl, htr, -⟩ := activate_patches_trace c env w h0 h
  rw [hitems] at hl
  obtain ⟨w0, w1, hpre, hsite, hpost⟩ := activate_loop_split c pre post patch _ _ hl
  obtain ⟨A, hA, hkinds⟩ := activate_site_trace c w0 w1 patch hsite
  obtain ⟨A2, hA2, hk2, hW⟩ := activate_site_trace_kinds c w0 w1 patch hsite
  have hAA : A2 = A := by
    rw [hA] at hA2
    exact (List.append_cancel_left (List.append_cancel_right hA2)).symm
  subst hAA
  obtain ⟨mid, hmid, -⟩ := activate_loop_trace c post w1 wend hpost
  have hfin : (activate_patches c env w).state.m.trace
      = w0.m.trace ++ A2
        ++ (List.range (patch.return_address - (patch.dst_jmp_patch + c.JUMP_INS_SIZE))).map
            (fun k => Event.store8 (patch.dst_jmp_patch + c.JUMP_INS_SIZE + k)
              (c.INT3_OPCODE % 256))
        ++ (mid ++ [Event.mprotect (first_page env w.desc) (protect_size env w.desc)
              (PROT_READ ||| PROT_EXEC)]) := by
    rw [htr, hmid, hA]
    simp only [List.append_assoc]
  have hu : w0.desc.uses_trampoline_table = w.desc.uses_trampoline_table :=
    (activate_loop_cursor c pre _ w0 hpre).1
  refine ⟨w0, A2, _, hpre, hfin, fun e he => (hk2 e he).1, hW, fun ht => ?_, fun P hP => ?_⟩
  · rcases hkinds with ⟨-, hx⟩ | ⟨hf, -⟩ | ⟨hf, -⟩
    · exact hx
    · rw [hu, ht] at hf
      exact absurd hf (by decide)
    · rw [hu, ht] at hf
      exact absurd hf (by decide)
  · have hpre2 : (w0.m.trace ++ A2) <+: (activate_patches c env w).state.m.trace := by
      rw [hfin, List.append_assoc (w0.m.trace ++ A2)]
      exact List.prefix_append _ _
    exact List.prefix_or_prefix_of_prefix hpre2 hP

/-- C17 witness: an 8-byte site in trampoline mode; the trace after the first
protection change is the thirteen stores of the branch phase followed by the
four trap stores, ahead of the second protection change. -/
theorem C17_jump_before_trap_fill_witness :
    ∃ (w0 : World) (A T1 : List Event),
      activate_loop ppc_consts [] (writable page_env
        ⟨image true 4096 [{ site_at 0x10000100 0x7fff80001000 with
            return_address := 0x10000108 }], zero_machine⟩) = Run.done w0
      ∧ (activate_patches ppc_consts page_env
          ⟨image true 4096 [{ site_at 0x10000100 0x7fff80001000 with
            return_address := 0x10000108 }], zero_machine⟩).state.m.trace
          = w0.m.trace ++ A
            ++ (List.range (0x10000108 - (0x10000100 + ppc_consts.JUMP_INS_SIZE))).map
                (fun k => Event.store8 (0x10000100 + ppc_consts.JUMP_INS_SIZE + k)
                  (ppc_consts.INT3_OPCODE % 256))
            ++ T1
      ∧ (∀ e ∈ A, e.is_store8 = false) :=
  (C17_jump_before_trap_fill ppc_consts page_env
    ⟨image true 4096 [{ site_at 0x10000100 0x7fff80001000 with
        return_address := 0x10000108 }], zero_machine⟩ [] []
    { site_at 0x10000100 0x7fff80001000 with return_address := 0x10000108 } rfl
    (by decide)).elim
    fun w0 h0 => h0.elim fun A hA => hA.elim fun T1 hT =>
      ⟨w0, A, T1, hT.1, hT.2.1, hT.2.2.1⟩

/-! ## Theorems: routing through the trampoline table -/

/-- C15 as stated fails when the table is out of the branch's reach: with the
table 256 MiB above the text segment, activation completes, yet the word at
`dst_jmp_patch` holds only the low 26 bits of the displacement and is a
branch to `0x10000000`, not to the entry at `0x20000000`. -/
theorem C15_far_table_counterexample :
    far_table_image.uses_trampoline_table = true
    ∧ far_table_image.next_trampoline = 0x20000000
    ∧ (activate_patches ppc_consts page_env ⟨far_table_image, zero_machine⟩).completed = true
    ∧ (activate_patches ppc_consts page_env ⟨far_table_image, zero_machine⟩).state.m.load32
        0x10000100 = 0x4bffff00
    ∧ branch_target 0x10000100
        ((activate_patches ppc_consts page_env ⟨far_table_image, zero_machine⟩).state.m.load32
          0x10000100) = some 0x10000000 := by
  decide

/-- C15 (amended): for an image with `uses_trampoline_table = true` on which
`activate_patches` completes, site number `i` finds `next_trampoline` at
`e_i = e_0 + 32 * i`, so entries of distinct sites are disjoint 32-byte ranges.
The stores of the site's branch phase are exactly: two stores at
`dst_jmp_patch`, leaving the word `0x48000000 | ((e_i - dst_jmp_patch) & 0x3FFFFFC)`
(opcode 18, AA = 0, LK = 0), which does not depend on `asm_wrapper`; then the
eleven stores of the entry at `e_i`, whose `li`, `oris`, `ori` immediates are
bits 47..32, 31..16, 15..0 of `asm_wrapper`.  The word is a branch to `e_i`
provided both addresses are 4-byte aligned 64-bit addresses and the
displacement lies in `[-2^25, 2^25)`; nothing in `activate_patches` checks
this. -/
theorem C15_trampoline_routing (c : Consts) (env : Env) (w : World)
    (pre post : List patch_desc) (patch : patch_desc)
    (ht : w.desc.uses_trampoline_table = true)
    (hitems : w.desc.items = pre ++ patch :: post)
    (h : (activate_patches c env w).completed = true) :
    ∃ (w0 : World) (T1 : List Event),
      activate_loop c pre (writable env w) = Run.done w0
      ∧ w0.desc.next_trampoline = w.desc.next_trampoline + 32 * pre.length
      ∧ (activate_patches c env w).state.m.trace
          = w0.m.trace
            ++ [Event.store32 patch.dst_jmp_patch 0x48000000,
              Event.store32 patch.dst_jmp_patch
                (0x48000000 + to_uint32 (to_int32
                  (ptr_diff w0.desc.next_trampoline patch.dst_jmp_patch)) / 4 % 16777216 * 4),
              Event.store32 w0.desc.next_trampoline 0xf9e1ffe0,
              Event.store32 (w0.desc.next_trampoline + 4) 0x39E00000,
              Event.store32 (w0.desc.next_trampoline + 4)
                (0x39E00000 + patch.asm_wrapper % 2 ^ 64 / 2 ^ 32 % 65536),
              Event.store32 (w0.desc.next_trampoline + 8) 0x79EF07C6,
              Event.store32 (w0.desc.next_trampoline + 12) 0x65EF0000,
              Event.store32 (w0.desc.next_trampoline + 12)
                (0x65EF0000 + patch.asm_wrapper % 2 ^ 64 / 2 ^ 16 % 65536),
              Event.store32 (w0.desc.next_trampoline + 16) 0x61EF0000,
              Event.store32 (w0.desc.next_trampoline + 16)
                (0x61EF0000 + patch.asm_wrapper % 65536),
              Event.store32 (w0.desc.next_trampoline + 20) 0x7de903a6,
              Event.store32 (w0.desc.next_trampoline + 24) 0xe9e1ffe0,
              Event.store32 (w0.desc.next_trampoline + 28) 0x4e800420]
            ++ T1
      ∧ (0x48000000 + to_uint32 (to_int32
            (ptr_diff w0.desc.next_trampoline patch.dst_jmp_patch)) / 4 % 16777216 * 4)
          = 0x48000000 ||| (to_uint32 (to_int32
              (ptr_diff w0.desc.next_trampoline patch.dst_jmp_patch)) &&& 0x3FFFFFC)
      ∧ (0x48000000 + to_uint32 (to_int32
            (ptr_diff w0.desc.next_trampoline patch.dst_jmp_patch)) / 4 % 16777216 * 4)
          >>> 26 = 18
      ∧ ((0x48000000 + to_uint32 (to_int32
            (ptr_diff w0.desc.next_trampoline patch.dst_jmp_patch)) / 4 % 16777216 * 4)
          >>> 1) &&& 1 = 0
      ∧ (0x48000000 + to_uint32 (to_int32
            (ptr_diff w0.desc.next_trampoline patch.dst_jmp_patch)) / 4 % 16777216 * 4)
          &&& 1 = 0
      ∧ (patch.dst_jmp_patch < 2 ^ 64 → w0.desc.next_trampoline < 2 ^ 64 →
          patch.dst_jmp_patch % 4 = 0 → w0.desc.next_trampoline % 4 = 0 →
          -33554432 ≤ ptr_diff w0.desc.next_trampoline patch.dst_jmp_patch →
          ptr_diff w0.desc.next_trampoline patch.dst_jmp_patch ≤ 33554431 →
          branch_target patch.dst_jmp_patch
            (0x48000000 + to_uint32 (to_int32
              (ptr_diff w0.desc.next_trampoline patch.dst_jmp_patch)) / 4 % 16777216 * 4)
            = some w0.desc.next_trampoline)
      ∧ 2 ^ 32 * (patch.asm_wrapper % 2 ^ 64 / 2 ^ 32 % 65536)
          + 2 ^ 16 * (patch.asm_wrapper % 2 ^ 64 / 2 ^ 16 % 65536)
          + patch.asm_wrapper % 65536 = patch.asm_wrapper % 2 ^ 48
      ∧ (∀ j : Nat, j ≠ pre.length →
          w.desc.next_trampoline + 32 * j + 32 ≤ w0.desc.next_trampoline
          ∨ w0.desc.next_trampoline + 32 ≤ w.desc.next_trampoline + 32 * j) := by
  have h0 := count_ne_zero_of_items w.desc pre post patch hitems
  obtain ⟨wend, hl, htr, -⟩ := activate_patches_trace c env w h0 h
  rw [hitems] at hl
  obtain ⟨w0, w1, hpre, hsite, hpost⟩ := activate_loop_split c pre post patch _ _ hl
  obtain ⟨A, hA, hkinds⟩ := activate_site_trace c w0 w1 patch hsite
  obtain ⟨mid, hmid, -⟩ := activate_loop_trace c post w1 wend hpost
  obtain ⟨hu, hcur⟩ := activate_loop_cursor c pre _ w0 hpre
  have hu2 : w0.desc.uses_trampoline_table = true := by rw [hu]; exact ht
  have hcur2 : w0.desc.next_trampoline = w.desc.next_trampoline + 32 * pre.length := by
    rw [hcur, if_pos (show (writable env w).desc.uses_trampoline_table = true from ht)]
    rfl
  rcases hkinds with ⟨-, hAx⟩ | ⟨hf, -⟩ | ⟨hf, -⟩
  · have hword := create_jump_word c.JMP_OPCODE patch.dst_jmp_patch w0.desc.next_trampoline w0.m
    have hor : (0x48000000 + to_uint32 (to_int32
          (ptr_diff w0.desc.next_trampoline patch.dst_jmp_patch)) / 4 % 16777216 * 4)
        = 0x48000000 ||| (to_uint32 (to_int32
            (ptr_diff w0.desc.next_trampoline patch.dst_jmp_patch)) &&& 0x3FFFFFC) := by
      rw [and_3FFFFFC]
      have hlow := or_low 26 18 (to_uint32 (to_int32
        (ptr_diff w0.desc.next_trampoline patch.dst_jmp_patch)) / 4 % 16777216 * 4) (by omega)
      norm_num at hlow
      rw [hlow]
    refine ⟨w0,
      (List.range (patch.return_address - (patch.dst_jmp_patch + c.JUMP_INS_SIZE))).map
          (fun k => Event.store8 (patch.dst_jmp_patch + c.JUMP_INS_SIZE + k)
            (c.INT3_OPCODE % 256))
        ++ (mid ++ [Event.mprotect (first_page env w.desc) (protect_size env w.desc)
            (PROT_READ ||| PROT_EXEC)]),
      hpre, hcur2, ?_, hor, ?_, ?_, ?_, ?_, by omega, ?_⟩
    · rw [htr, hmid, hA, hAx]
      simp only [List.append_assoc]
    · rw [Nat.shiftRight_eq_div_pow]
      omega
    · rw [and_1, Nat.shiftRight_eq_div_pow]
      omega
    · rw [and_1]
      omega
    · intro hd he had hae hlo hhi
      have hb := (create_jump_branch c.JMP_OPCODE patch.dst_jmp_patch w0.desc.next_trampoline w0.m
        hd he had hae ⟨hlo, hhi⟩).2.2.2
      rw [hword] at hb
      exact hb
    · intro j hj
      rw [hcur2]
      omega
  · rw [hu2] at hf
    exact absurd hf (by decide)
  · rw [hu2] at hf
    exact absurd hf (by decide)

/-- C15 witness: one site at `0x10000100` with the table at `0x10020000`; the
branch word written at the site targets the first entry. -/
theorem C15_trampoline_routing_witness :
    ∃ w0 : World,
      activate_loop ppc_consts [] (writable page_env
        ⟨image true 4096 [site_at 0x10000100 0x7fff80001000], zero_machine⟩) = Run.done w0
      ∧ w0.desc.next_trampoline = 0x10020000 + 32 * 0
      ∧ branch_target 0x10000100
          (0x48000000 + to_uint32 (to_int32
            (ptr_diff w0.desc.next_trampoline 0x10000100)) / 4 % 16777216 * 4)
          = some w0.desc.next_trampoline :=
  (C15_trampoline_routing ppc_consts page_env
    ⟨image true 4096 [site_at 0x10000100 0x7fff80001000], zero_machine⟩ [] []
    (site_at 0x10000100 0x7fff80001000) rfl rfl (by decide)).elim
    fun w0 h0 => h0.elim fun _ hT =>
      ⟨w0, hT.1, hT.2.1,
        hT.2.2.2.2.2.2.2.1 (by decide) (by rw [hT.2.1]; decide) (by decide)
          (by rw [hT.2.1]; decide) (by rw [hT.2.1]; decide) (by rw [hT.2.1]; decide)⟩

/-! ## Theorems: what instantiating the template changes -/

/-- C19 as stated fails for a template whose immediates are not empty, and for
values with bits above bit 47.  With `0xFFFF` in the immediate of the word
at `o_r2_load_addr`, the wrapper's word keeps `0xFFFF` there, not bits 47..32
(`0x7fff`) of the TOC value; with a TOC value of `2 ^ 48` the three
immediates stay zero. -/
theorem C19_nonzero_immediate_counterexample :
    dirty_template_machine.load32 (example_template.intercept_asm_wrapper_tmpl + 4) = 0x39E0FFFF
    ∧ example_globals.o_r2_load_addr = 4
    ∧ example_template.toc % 2 ^ 64 / 2 ^ 32 % 65536 = 0x7fff
    ∧ (create_wrapper example_globals example_template (site_at 0x10000100 0) 0x20000000
        0x10400000 dirty_template_machine).m.load32 0x10400004 % 65536 = 0xFFFF
    ∧ high_toc_template.toc = 2 ^ 48
    ∧ (create_wrapper example_globals high_toc_template (site_at 0x10000100 0) 0x20000000
        0x10400000 zero_machine).m.load32 0x10400004 = 0
    ∧ (create_wrapper example_globals high_toc_template (site_at 0x10000100 0) 0x20000000
        0x10400000 zero_machine).m.load32 0x1040000c = 0
    ∧ (create_wrapper example_globals high_toc_template (site_at 0x10000100 0) 0x20000000
        0x10400000 zero_machine).m.load32 0x10400010 = 0 :=
  ⟨by decide, by decide, by decide, by decide, by decide, by decide, by decide, by decide⟩

/-- C19 (amended): for a memory of bytes, a template of at least 28 bytes and a
cursor `w` without address wrap-around, with `a1`, `a2`, `a3` the addresses
`w` plus `o_r2_load_addr`, `o_patch_desc_addr`, `o_wrapper_level1_addr`: after
`create_wrapper` every byte of `[w, w + asm_wrapper_tmpl_size - 28)` equals the
template byte at the same offset, except the two low-order bytes (little
endian) of the words at offsets 0, 8, 12 from `a1`, `a2`, `a3`;
`create_movabs_p1` keeps the upper 16 bits of its three words and the whole
word at offset 4; that range is what `create_movabs_p1` leaves when applied
at `a1`, `a2`, `a3` with the TOC value, the address of the `patch_desc` and
the address of `intercept_wrapper`, in this order, to the copied template;
and when the three 16-byte areas are pairwise disjoint and inside the range,
their words are the template words ORed with the chunks (bits 47..32, 31..16,
15..0) of those three values: the chunks themselves only where the
template's immediate is zero, and bits 63..48 of the values are not
encoded. -/
theorem C19_instantiation_touches_immediates (g : Globals) (t : Template) (patch : patch_desc)
    (patch_addr w : Nat) (m : Machine) (a1 a2 a3 : Nat)
    (h1 : a1 = ptr_add w g.o_r2_load_addr) (h2 : a2 = ptr_add w g.o_patch_desc_addr)
    (h3 : a3 = ptr_add w g.o_wrapper_level1_addr)
    (hb : ∀ y, m.mem y < 256) (hsz : 28 ≤ g.asm_wrapper_tmpl_size)
    (hw : w + g.asm_wrapper_tmpl_size ≤ 2 ^ 64) :
    (∀ x, w ≤ x → x < w + g.asm_wrapper_tmpl_size - 28 →
        (∀ a ∈ [a1, a2, a3],
          x ≠ a ∧ x ≠ a + 1 ∧ x ≠ a + 8 ∧ x ≠ a + 9 ∧ x ≠ a + 12 ∧ x ≠ a + 13) →
        (create_wrapper g t patch patch_addr w m).m.mem x
          = m.mem (t.intercept_asm_wrapper_tmpl + (x - w)))
    ∧ (∀ (d loc : Nat) (m0 : Machine),
        (create_movabs_p1 d loc m0).load32 d / 65536 = m0.load32 d / 65536
        ∧ (create_movabs_p1 d loc m0).load32 (d + 8) / 65536 = m0.load32 (d + 8) / 65536
        ∧ (create_movabs_p1 d loc m0).load32 (d + 12) / 65536 = m0.load32 (d + 12) / 65536
        ∧ (create_movabs_p1 d loc m0).load32 (d + 4) = m0.load32 (d + 4))
    ∧ (∀ x, x < w + g.asm_wrapper_tmpl_size - 28 →
        (create_wrapper g t patch patch_addr w m).m.mem x
          = (create_movabs_p1 a3 t.intercept_wrapper (create_movabs_p1 a2 patch_addr
              (create_movabs_p1 a1 t.toc
                (m.memcpy w t.intercept_asm_wrapper_tmpl g.asm_wrapper_tmpl_size)))).mem x)
    ∧ ((a1 + 16 ≤ a2 ∨ a2 + 16 ≤ a1) → (a1 + 16 ≤ a3 ∨ a3 + 16 ≤ a1) →
        (a2 + 16 ≤ a3 ∨ a3 + 16 ≤ a2) →
        (w ≤ a1 ∧ a1 + 16 ≤ w + g.asm_wrapper_tmpl_size - 28) →
        (w ≤ a2 ∧ a2 + 16 ≤ w + g.asm_wrapper_tmpl_size - 28) →
        (w ≤ a3 ∧ a3 + 16 ≤ w + g.asm_wrapper_tmpl_size - 28) →
        ((create_wrapper g t patch patch_addr w m).m.load32 a1
            = m.load32 (t.intercept_asm_wrapper_tmpl + (a1 - w))
                ||| t.toc % 2 ^ 64 / 2 ^ 32 % 65536
          ∧ (create_wrapper g t patch patch_addr w m).m.load32 (a1 + 8)
            = m.load32 (t.intercept_asm_wrapper_tmpl + (a1 + 8 - w))
                ||| t.toc % 2 ^ 64 / 2 ^ 16 % 65536
          ∧ (create_wrapper g t patch patch_addr w m).m.load32 (a1 + 12)
            = m.load32 (t.intercept_asm_wrapper_tmpl + (a1 + 12 - w)) ||| t.toc % 65536)
        ∧ ((create_wrapper g t patch patch_addr w m).m.load32 a2
            = m.load32 (t.intercept_asm_wrapper_tmpl + (a2 - w))
                ||| patch_addr % 2 ^ 64 / 2 ^ 32 % 65536
          ∧ (create_wrapper g t patch patch_addr w m).m.load32 (a2 + 8)
            = m.load32 (t.intercept_asm_wrapper_tmpl + (a2 + 8 - w))
                ||| patch_addr % 2 ^ 64 / 2 ^ 16 % 65536
          ∧ (create_wrapper g t patch patch_addr w m).m.load32 (a2 + 12)
            = m.load32 (t.intercept_asm_wrapper_tmpl + (a2 + 12 - w)) ||| patch_addr % 65536)
        ∧ ((create_wrapper g t patch patch_addr w m).m.load32 a3
            = m.load32 (t.intercept_asm_wrapper_tmpl + (a3 - w))
                ||| t.intercept_wrapper % 2 ^ 64 / 2 ^ 32 % 65536
          ∧ (create_wrapper g t patch patch_addr w m).m.load32 (a3 + 8)
            = m.load32 (t.intercept_asm_wrapper_tmpl + (a3 + 8 - w))
                ||| t.intercept_wrapper % 2 ^ 64 / 2 ^ 16 % 65536
          ∧ (create_wrapper g t patch patch_addr w m).m.load32 (a3 + 12)
            = m.load32 (t.intercept_asm_wrapper_tmpl + (a3 + 12 - w))
                ||| t.intercept_wrapper % 65536)) := by
  have hr := return_slot_eq g w hsz hw
  refine ⟨fun x hx1 hx2 hk => ?_, create_movabs_p1_keeps, fun x hx => ?_, ?_⟩
  · rw [create_wrapper_mem_below g t patch patch_addr w m x (by rw [hr]; exact hx2)]
    subst h1 h2 h3
    exact wrapper_body_mem g t patch_addr w m hb x hx1 (by omega) hk
  · rw [create_wrapper_mem_below g t patch patch_addr w m x (by rw [hr]; exact hx)]
    subst h1 h2 h3
    simp only [wrapper_body]
  · intro hd12 hd13 hd23 hi1 hi2 hi3
    rw [create_wrapper_load32_below g t patch patch_addr w m a1 (by rw [hr]; omega),
      create_wrapper_load32_below g t patch patch_addr w m (a1 + 8) (by rw [hr]; omega),
      create_wrapper_load32_below g t patch patch_addr w m (a1 + 12) (by rw [hr]; omega),
      create_wrapper_load32_below g t patch patch_addr w m a2 (by rw [hr]; omega),
      create_wrapper_load32_below g t patch patch_addr w m (a2 + 8) (by rw [hr]; omega),
      create_wrapper_load32_below g t patch patch_addr w m (a2 + 12) (by rw [hr]; omega),
      create_wrapper_load32_below g t patch patch_addr w m a3 (by rw [hr]; omega),
      create_wrapper_load32_below g t patch patch_addr w m (a3 + 8) (by rw [hr]; omega),
      create_wrapper_load32_below g t patch patch_addr w m (a3 + 12) (by rw [hr]; omega)]
    exact wrapper_body_words g t patch_addr w m a1 a2 a3 h1 h2 h3 hd12 hd13 hd23
      ⟨hi1.1, by omega⟩ ⟨hi2.1, by omega⟩ ⟨hi3.1, by omega⟩

/-- C19 witness: the example template, holding a long-load sequence with empty
immediates at `o_r2_load_addr`, instantiated at `0x10400000`: the top byte
`0x39` of the `li` word is kept, and the word becomes `0x39E07fff`, with bits
47..32 of the TOC value `0x7fff90008000`. -/
theorem C19_instantiation_touches_immediates_witness :
    ((create_wrapper example_globals example_template (site_at 0x10000100 0) 0x20000000
        0x10400000 template_machine).m.mem 0x10400007
      = template_machine.mem (example_template.intercept_asm_wrapper_tmpl
          + (0x10400007 - 0x10400000))
      ∧ template_machine.mem (example_template.intercept_asm_wrapper_tmpl
          + (0x10400007 - 0x10400000)) = 0x39)
    ∧ ((create_wrapper example_globals example_template (site_at 0x10000100 0) 0x20000000
        0x10400000 template_machine).m.load32 0x10400004
      = template_machine.load32 (example_template.intercept_asm_wrapper_tmpl
          + (0x10400004 - 0x10400000)) ||| example_template.toc % 2 ^ 64 / 2 ^ 32 % 65536
      ∧ (template_machine.load32 (example_template.intercept_asm_wrapper_tmpl
          + (0x10400004 - 0x10400000)) ||| example_template.toc % 2 ^ 64 / 2 ^ 32 % 65536)
          = 0x39E07fff) :=
  ⟨⟨(C19_instantiation_touches_immediates example_globals example_template
      (site_at 0x10000100 0) 0x20000000 0x10400000 template_machine 0x10400004 0x10400014
      0x10400024 (by decide) (by decide) (by decide) template_machine_bytes (by decide)
      (by decide)).1 0x10400007 (by decide) (by decide) (by decide), by decide⟩,
   ⟨((C19_instantiation_touches_immediates example_globals example_template
      (site_at 0x10000100 0) 0x20000000 0x10400000 template_machine 0x10400004 0x10400014
      0x10400024 (by decide) (by decide) (by decide) template_machine_bytes (by decide)
      (by decide)).2.2.2 (by decide) (by decide) (by decide) (by decide) (by decide)
      (by decide)).1.1, by decide⟩⟩

/-! ## Theorems: the empty image and the untouched trampoline table -/

/-- C21: for every image with `count = 0` or with
`uses_trampoline_table = false`, whatever the outcome of `activate_patches`
(completion or abort), the descriptor is unchanged, in particular
`next_trampoline`; when the trampoline table is disjoint from the 4-byte word
at `dst_jmp_patch` and from the trap range
`[dst_jmp_patch + JUMP_INS_SIZE, return_address)` of every site, every byte
of the table is unchanged; more generally every byte outside those words and
ranges is unchanged.  With `count = 0` the call returns at once: the whole
state, memory and trace included, is unchanged, so no protection change is
issued and nothing is written. -/
theorem C21_empty_image_noop (c : Consts) (env : Env) (w : World)
    (h : w.desc.count = 0 ∨ w.desc.uses_trampoline_table = false) :
    (activate_patches c env w).state.desc = w.desc
    ∧ (activate_patches c env w).state.desc.next_trampoline = w.desc.next_trampoline
    ∧ ((∀ p ∈ w.desc.items,
          (p.dst_jmp_patch + 4 ≤ w.desc.trampoline_table
            ∨ w.desc.trampoline_table + w.desc.trampoline_table_size ≤ p.dst_jmp_patch)
          ∧ (p.return_address ≤ w.desc.trampoline_table
            ∨ w.desc.trampoline_table + w.desc.trampoline_table_size
                ≤ p.dst_jmp_patch + c.JUMP_INS_SIZE
            ∨ p.return_address ≤ p.dst_jmp_patch + c.JUMP_INS_SIZE)) →
        ∀ x, w.desc.trampoline_table ≤ x →
          x < w.desc.trampoline_table + w.desc.trampoline_table_size →
          (activate_patches c env w).state.m.mem x = w.m.mem x)
    ∧ (∀ x, (∀ p ∈ w.desc.items, ¬ (p.dst_jmp_patch ≤ x ∧ x < p.dst_jmp_patch + 4)
            ∧ ¬ (p.dst_jmp_patch + c.JUMP_INS_SIZE ≤ x ∧ x < p.return_address)) →
          (activate_patches c env w).state.m.mem x = w.m.mem x)
    ∧ (w.desc.count = 0 →
        activate_patches c env w = Run.done w
        ∧ (activate_patches c env w).state.m.trace = w.m.trace
        ∧ mprotect_calls (activate_patches c env w).state.m.trace = mprotect_calls w.m.trace
        ∧ ∀ x, (activate_patches c env w).state.m.mem x = w.m.mem x) := by
  have hempty : w.desc.count = 0 →
      activate_patches c env w = Run.done w
      ∧ (activate_patches c env w).state.m.trace = w.m.trace
      ∧ mprotect_calls (activate_patches c env w).state.m.trace = mprotect_calls w.m.trace
      ∧ ∀ x, (activate_patches c env w).state.m.mem x = w.m.mem x := by
    intro h0
    rw [activate_patches_empty c env w h0]
    exact ⟨rfl, rfl, rfl, fun _ => rfl⟩
  have hframe : (activate_patches c env w).state.desc = w.desc
      ∧ ∀ x, (∀ p ∈ w.desc.items, ¬ (p.dst_jmp_patch ≤ x ∧ x < p.dst_jmp_patch + 4)
            ∧ ¬ (p.dst_jmp_patch + c.JUMP_INS_SIZE ≤ x ∧ x < p.return_address)) →
          (activate_patches c env w).state.m.mem x = w.m.mem x := by
    rcases h with h0 | ht
    · obtain ⟨e, -, -, hmem⟩ := hempty h0
      refine ⟨?_, fun x _ => hmem x⟩
      rw [e]
      rfl
    · exact activate_patches_frame c env w ht
  refine ⟨hframe.1, by rw [hframe.1], fun hd x hx1 hx2 => ?_, hframe.2, hempty⟩
  refine hframe.2 x (fun p hp => ?_)
  have := hd p hp
  omega

/-- C21 witness: one site in the example image without trampoline routing; its
jump word and its empty trap range are disjoint from the table at
`0x10020000`, so the cursor and the first byte of the table are unchanged. -/
theorem C21_empty_image_noop_witness :
    (activate_patches ppc_consts page_env
        ⟨image false 4096 [site_at 0x10000100 0x10000200], zero_machine⟩).state.desc.next_trampoline
      = (image false 4096 [site_at 0x10000100 0x10000200]).next_trampoline
    ∧ (activate_patches ppc_consts page_env
        ⟨image false 4096 [site_at 0x10000100 0x10000200], zero_machine⟩).state.m.mem 0x10020000
      = zero_machine.mem 0x10020000 :=
  ⟨(C21_empty_image_noop ppc_consts page_env
      ⟨image false 4096 [site_at 0x10000100 0x10000200], zero_machine⟩ (Or.inr rfl)).2.1,
   (C21_empty_image_noop ppc_consts page_env
      ⟨image false 4096 [site_at 0x10000100 0x10000200], zero_machine⟩ (Or.inr rfl)).2.2.1
      (by decide) 0x10020000 (by decide) (by decide)⟩

end Patcher
